import Mathlib

/-! The configurator protocol engine of `romloader.c`.

A shallow embedding of `src/romemul/romloader.c`: the command handler
`handle_protocol_command`, the polling loop of `init_firmware` and the
stage that follows the loop.

* Module-level variables of the C file are the fields of `State`.
* The shared window is a byte memory indexed by the offset from
  `memory_area = ROM3_START_ADDRESS - CONFIGURATOR_SHARED_MEMORY_SIZE_BYTES`.
* Every store into the window and every call of an external collaborator is
  appended, in program order, to `State.log`.
* Constants and collaborators that live in headers and files outside the
  sources (`constants.h`, `config.h`, `network.h`, `filesys.h`, ...) are the
  fields of `Env`.
* Machine integers are `Nat`/`Int` with explicit reduction modulo `2 ^ w`.
-/

namespace Romloader

/-! ## Bytes, words and C strings -/

/-- Byte `i` of a byte buffer; a position past the recorded bytes reads as 0. -/
def byte_at (p : List Nat) (i : Nat) : Nat := p.getD i 0 % 256

/-- The expression `p[i] | (p[i + 1] << 8)` stored into a `uint16_t`. -/
def u16_at (p : List Nat) (i : Nat) : Nat :=
  (byte_at p i ||| (byte_at p (i + 1) <<< 8)) % 2 ^ 16

/-- The expression `*((uint32_t *)p)` on the little-endian controller. -/
def u32_at (p : List Nat) : Nat :=
  byte_at p 0 + byte_at p 1 * 2 ^ 8 + byte_at p 2 * 2 ^ 16 + byte_at p 3 * 2 ^ 24

/-- The token decoding `((v & 0xFFFF0000) >> 16) | ((v & 0x0000FFFF) << 16)` on
`uint32_t`. -/
def swap_halves (v : Nat) : Nat :=
  (((v &&& 0xFFFF0000) >>> 16) ||| ((v &&& 0x0000FFFF) <<< 16)) % 2 ^ 32

/-- The token assigned to `random_token` from the first four payload bytes. -/
def decode_token (payload : List Nat) : Nat := swap_halves (u32_at payload)

/-- The four bytes of a 32-bit store, lowest byte first. -/
def u32_bytes (v : Nat) : List Nat :=
  [v % 256, v / 2 ^ 8 % 256, v / 2 ^ 16 % 256, v / 2 ^ 24 % 256]

/-- The two bytes of a 16-bit store, lowest byte first. -/
def u16_bytes (v : Nat) : List Nat := [v % 256, v / 2 ^ 8 % 256]

/-- The loop `value = *p; *p++ = (value << 8) | (value >> 8)` over a run of
16-bit words: the two bytes of every word change places. -/
def swap_pairs : List Nat → List Nat
  | a :: b :: rest => b :: a :: swap_pairs rest
  | rest => rest

/-- The characters of a C string held in a byte field: the bytes before the
first zero. -/
def cstr (bs : List Nat) : List Nat := bs.takeWhile (fun c => c != 0)

/-- The bytes of a string literal of the C source. -/
def lit (s : String) : List Nat := s.toList.map Char.toNat

/-- Library `isspace`. -/
def is_space (c : Nat) : Bool := c == 32 || (9 ≤ c && c ≤ 13)

/-- The digit loop of library `atoi`. -/
def atoi_digits : List Nat → Nat → Nat
  | [], acc => acc
  | c :: cs, acc => if 48 ≤ c ∧ c ≤ 57 then atoi_digits cs (acc * 10 + (c - 48)) else acc

/-- Library `atoi` on the characters of a C string. -/
def atoi (s : List Nat) : Int :=
  match s.dropWhile is_space with
  | 45 :: rest => -(atoi_digits rest 0 : Int)
  | 43 :: rest => (atoi_digits rest 0 : Int)
  | rest => (atoi_digits rest 0 : Int)

/-- Library `tolower` on an `unsigned char`. -/
def tolower (c : Nat) : Nat := if 65 ≤ c ∧ c ≤ 90 then c + 32 else c

/-- The function `compare_strings` (lines 64-77) on the characters of two C
strings; the end of a list is the terminating zero. -/
def compare_strings : List Nat → List Nat → Int
  | [], [] => 0
  | [], b :: _ => (tolower 0 : Int) - (tolower b : Int)
  | a :: _, [] => (tolower a : Int) - (tolower 0 : Int)
  | a :: as, b :: bs =>
    if tolower a = tolower b then compare_strings as bs
    else (tolower a : Int) - (tolower b : Int)

/-! ## Commands -/

/-- The case labels of the `switch` in `handle_protocol_command`. Their numeric
values are defined in `commands.h`, outside the sources; the `switch` only
compares the received id with these pairwise distinct labels, so a received id
is represented by the label it equals, or by `unknown id` when it equals none. -/
inductive CommandId
  | DOWNLOAD_ROM
  | LOAD_ROM
  | LIST_ROMS
  | GET_CONFIG
  | PUT_CONFIG_STRING
  | PUT_CONFIG_INTEGER
  | PUT_CONFIG_BOOL
  | SAVE_CONFIG
  | RESET_DEVICE
  | LAUNCH_SCAN_NETWORKS
  | GET_SCANNED_NETWORKS
  | CONNECT_NETWORK
  | GET_IP_DATA
  | DISCONNECT_NETWORK
  | GET_ROMS_JSON_FILE
  | LOAD_FLOPPY_RO
  | LOAD_FLOPPY_RW
  | LIST_FLOPPIES
  | QUERY_FLOPPY_DB
  | DOWNLOAD_FLOPPY
  | GET_SD_DATA
  | GET_LATEST_RELEASE
  | CREATE_FLOPPY
  | BOOT_RTC
  | unknown (id : Nat)
  deriving DecidableEq

/-- The struct `TransmissionProtocol` as the handler reads it. -/
structure TransmissionProtocol where
  command_id : CommandId
  payload_size : Nat
  payload : List Nat

/-! ## The instrumented state -/

/-- An argument of a logged collaborator call. -/
inductive Arg
  | str (s : List Nat)
  | num (n : Int)
  | flag (b : Bool)
  deriving DecidableEq

/-- One observable effect, in program order. -/
inductive Event
  /-- A store of `len` bytes at window offset `off` (memcpy, memset, strcpy,
  sprintf, an in-place swap or a plain store other than the token). -/
  | store (off : Int) (len : Nat)
  /-- The store `*((volatile uint32_t *)(memory_area)) = random_token`. -/
  | token (v : Nat)
  /-- A call of a collaborator that receives no pointer into the window. -/
  | call (fn : String) (args : List Arg)
  /-- The loop resets the pending variable `flag`. -/
  | clear (flag : String)
  /-- An access that leaves the object it started in. -/
  | overrun (object : String)
  deriving DecidableEq

/-- The struct `FloppyImageHeader`; the two names are the byte fields
`volume_name[14]` and `floppy_name[256]`. -/
structure FloppyImageHeader where
  template : Nat
  num_tracks : Nat
  num_sectors : Nat
  num_sides : Nat
  overwrite : Nat
  volume_name : List Nat
  floppy_name : List Nat

/-- The struct `WifiNetworkAuthInfo`, as far as the loader reads it. -/
structure WifiNetworkAuthInfo where
  ssid : List Nat
  password : List Nat
  auth_mode : Int

/-- The struct `SdCardData`: the five 32-bit counters the loader rewrites and
the remaining bytes of the struct. -/
structure SdCardData where
  roms_folder_count : Nat
  floppies_folder_count : Nat
  harddisks_folder_count : Nat
  sd_free_space : Nat
  sd_size : Nat
  rest : List Nat

/-- The struct `RomInfo` of the network ROM index, as far as the loader reads
it. -/
structure RomInfo where
  name : List Nat
  size_kb : Int
  url : List Nat

/-- The struct `FloppyImageInfo` of the floppy database, as far as the loader
reads it. -/
structure FloppyImageInfo where
  name : List Nat
  url : List Nat

/-- The shared window: the byte at each offset from `memory_area`. -/
abbrev Window := Int → Nat

/-- The module-level variables of `romloader.c` (lines 11-62), the locals of
`init_firmware` that live across loop passes, the window and the log. -/
structure State where
  random_token : Nat
  latest_release : Bool
  microsd_initialized : Bool
  microsd_mounted : Bool
  microsd_status : Bool
  filtered_num_local_files : Nat
  filtered_local_list : List (List Nat)
  list_roms : Bool
  rom_file_selected : Int
  list_floppies : Bool
  floppy_file_selected : Int
  floppy_read_write : Bool
  query_floppy_db : Bool
  query_floppy_letter : Nat
  floppy_images_files : List FloppyImageInfo
  filtered_num_floppy_images_files : Nat
  floppy_image_selected : Int
  floppy_image_selected_status : Int
  network_files : List RomInfo
  filtered_num_network_files : Nat
  wifi_auth : Option WifiNetworkAuthInfo
  persist_config : Bool
  reset_default : Bool
  scan_network : Bool
  disconnect_network : Bool
  get_json_file : Bool
  rom_network_selected : Int
  floppy_header : FloppyImageHeader
  rtc_boot : Bool
  /-- Local `file_list` of `init_firmware`. -/
  file_list : List (List Nat)
  /-- Local `wifi_scan_poll_counter` of `init_firmware` (`u_int16_t`). -/
  wifi_scan_poll_counter : Nat
  /-- Local `wifi_scan_poll_counter_mcs` of `init_firmware` (`u_int64_t`). -/
  wifi_scan_poll_counter_mcs : Nat
  /-- Local `network_poll_counter` of `init_firmware` (`u_int16_t`). -/
  network_poll_counter : Nat
  window : Window
  log : List Event

/-- The initializers of the module-level variables, with an all-zero window
and an empty log. -/
def State.initial : State where
  random_token := 0
  latest_release := false
  microsd_initialized := false
  microsd_mounted := false
  microsd_status := false
  filtered_num_local_files := 0
  filtered_local_list := []
  list_roms := false
  rom_file_selected := -1
  list_floppies := false
  floppy_file_selected := -1
  floppy_read_write := true
  query_floppy_db := false
  query_floppy_letter := 97
  floppy_images_files := []
  filtered_num_floppy_images_files := 0
  floppy_image_selected := -1
  floppy_image_selected_status := 0
  network_files := []
  filtered_num_network_files := 0
  wifi_auth := none
  persist_config := false
  reset_default := false
  scan_network := false
  disconnect_network := false
  get_json_file := false
  rom_network_selected := -1
  floppy_header :=
    { template := 0, num_tracks := 0, num_sectors := 0, num_sides := 0, overwrite := 0,
      volume_name := List.replicate 14 0, floppy_name := List.replicate 256 0 }
  rtc_boot := false
  file_list := []
  wifi_scan_poll_counter := 0
  wifi_scan_poll_counter_mcs := 0
  network_poll_counter := 0
  window := fun _ => 0
  log := []

/-- The window after `bs` is stored at offset `off`. -/
def store_bytes (w : Window) (off : Int) (bs : List Nat) : Window :=
  fun i => if off ≤ i ∧ i < off + bs.length then bs.getD (i - off).toNat 0 else w i

/-- The `n` bytes of the window from offset `off`. -/
def load_bytes (w : Window) (off : Int) (n : Nat) : List Nat :=
  (List.range n).map (fun (k : Nat) => w (off + (k : Int)))

/-- A logged store of `bs` at window offset `off`. -/
def State.write (s : State) (off : Int) (bs : List Nat) : State :=
  { s with window := store_bytes s.window off bs, log := s.log ++ [Event.store off bs.length] }

/-- The statement `*((volatile uint32_t *)(memory_area)) = random_token`. -/
def State.write_token (s : State) : State :=
  { s with
    window := store_bytes s.window 0 (u32_bytes s.random_token),
    log := s.log ++ [Event.token s.random_token] }

/-- A logged call of a collaborator. -/
def State.call (s : State) (fn : String) (args : List Arg) : State :=
  { s with log := s.log ++ [Event.call fn args] }

/-- An in-place byte swap of `nwords` 16-bit words from window offset `off`. -/
def State.swap_region (s : State) (off : Int) (nwords : Nat) : State :=
  s.write off (swap_pairs (load_bytes s.window off (2 * nwords)))

/-- The loop resets a pending variable: the assignment `f`, logged. -/
def State.clear (s : State) (flag : String) (f : State → State) : State :=
  let t := f s
  { t with log := t.log ++ [Event.clear flag] }

/-! ## Constants and collaborators outside the sources -/

/-- The constants, type sizes and collaborator results that `romloader.c`
takes from headers and files outside the sources. -/
structure Env where
  /-- Constant `ROM3_START_ADDRESS` of `constants.h`. -/
  ROM3_START_ADDRESS : Nat
  /-- Constant `CONFIGURATOR_SHARED_MEMORY_SIZE_BYTES` of `constants.h`. -/
  CONFIGURATOR_SHARED_MEMORY_SIZE_BYTES : Nat
  /-- Constant `FLASH_ROM_LOAD_OFFSET` of `constants.h`. -/
  FLASH_ROM_LOAD_OFFSET : Nat
  /-- Constant `ROM_SIZE_BYTES` of `constants.h`. -/
  ROM_SIZE_BYTES : Nat
  /-- Constant `NETWORK_POLL_INTERVAL`. -/
  NETWORK_POLL_INTERVAL : Nat
  /-- Constant `MAX_FOLDER_LENGTH`. -/
  MAX_FOLDER_LENGTH : Nat
  /-- Constant `MAX_KEY_LENGTH` of `config.h`. -/
  MAX_KEY_LENGTH : Nat
  /-- Constant `MAX_STRING_VALUE_LENGTH` of `config.h`. -/
  MAX_STRING_VALUE_LENGTH : Nat
  /-- The value `sizeof(ConfigEntry)`. -/
  sizeof_ConfigEntry : Nat
  /-- Byte offset of the member `value` in `ConfigEntry`. -/
  offsetof_value : Nat
  /-- The string `RELEASE_VERSION`. -/
  RELEASE_VERSION : List Nat
  /-- The enumerators of `ConnectionStatus` the loop compares with. -/
  BADAUTH_ERROR : Int
  TIMEOUT_ERROR : Int
  INSUFFICIENT_RESOURCES_ERROR : Int
  /-- The bytes of the global `configData`; their number is `sizeof(configData)`. -/
  configData : List Nat
  /-- The member `configData.count`. -/
  configData_count : Nat
  /-- The bytes of the global `wifiScanData`. -/
  wifiScanData : List Nat
  /-- The member `wifiScanData.count`. -/
  wifiScanData_count : Nat
  /-- Collaborator `network_swap_data` as a map on the bytes of the copied struct. -/
  network_swap_data : List Nat → Nat → List Nat
  /-- The bytes `get_connection_data` fills in. -/
  connection_data : List Nat
  /-- Collaborator `network_swap_connection_data` on the bytes of the copied struct. -/
  network_swap_connection_data : List Nat → List Nat
  /-- The value `sizeof(WifiNetworkAuthInfo)`. -/
  sizeof_WifiNetworkAuthInfo : Nat
  /-- Collaborator `network_swap_auth_data` followed by the member reads of
  `WifiNetworkAuthInfo`, on the bytes copied from the payload. -/
  read_auth : List Nat → WifiNetworkAuthInfo
  /-- The result of `sd_init_driver`. -/
  sd_init_driver : Bool
  /-- Whether `f_mount` returns `FR_OK`. -/
  f_mount_ok : Bool
  /-- The result of `find_entry` for a key: the member `value` of the entry. -/
  find_entry : List Nat → Option (List Nat)
  /-- The results of the successive calls of `time_us_64` in one loop pass. -/
  time_us_64 : Nat → Nat
  /-- The results of `get_previous_connection_status` and
  `get_network_connection_status`. -/
  previous_status : Int
  current_status : Int
  /-- What `get_sdcard_data` fills in, by the mounted flag it is given. -/
  sdcard_data : Bool → SdCardData
  /-- The bytes of a `SdCardData` in memory; their number is `sizeof(SdCardData)`. -/
  sdcard_bytes : SdCardData → List Nat
  /-- The result of `get_latest_release`. -/
  latest_version : Option (List Nat)
  /-- What `get_json_files` delivers for a URL. -/
  json_files : List Nat → List RomInfo
  /-- What `show_dir_files` delivers for a folder. -/
  dir_files : List Nat → List (List Nat)
  /-- What `get_floppy_db_files` delivers for a URL. -/
  floppy_db_files : List Nat → List FloppyImageInfo
  /-- The result code of `load_rom_from_fs`; 0 is `FR_OK`. -/
  load_rom_from_fs_result : Int
  /-- The result code of `download_rom`. -/
  download_rom_result : Int
  /-- The result code of `create_blank_ST_image`; 0 is `FR_OK`. -/
  create_blank_ST_image_result : Int
  /-- The result code of `MSA_to_ST`; 0 is `FR_OK`. -/
  msa_to_st_result : Int
  /-- The result of `directory_exists`. -/
  directory_exists : List Nat → Bool
  /-- The result code of `download_floppy`. -/
  download_floppy_result : Int
  /-- The result of `rand`. -/
  rand : Nat

/-! ## Helpers defined outside the sources -/

/-- Modelled from the spec: `null_words` is defined outside the sources. The
spec has the handler "zero the response region" when a precondition fails; the
call `null_words(ptr, size)` stores `size` zero bytes from `ptr`. -/
def null_words (s : State) (off : Int) (total_size : Nat) : State :=
  s.write off (List.replicate total_size 0)

/-- The number of 16-bit words `swap_data` rewrites in one entry. -/
def swap_data_words (env : Env) : Nat :=
  (env.MAX_KEY_LENGTH + env.MAX_STRING_VALUE_LENGTH + 1) / 2

/-- Modelled from the spec: `swap_data` of the configuration module is defined
outside the sources. The spec has every response "written with 16-bit-word
byte-swap applied uniformly" and a `ConfigEntry` encoded "with the word-swap
transform": the two bytes of every 16-bit word of the key and value fields of
the entry change places. This is the transform on the bytes of one entry. -/
def swap_data (env : Env) (entry : List Nat) : List Nat :=
  swap_pairs (entry.take (2 * swap_data_words env)) ++ entry.drop (2 * swap_data_words env)

/-- Modelled from the spec: `swap_words` is defined outside the sources; by the
spec's "16-bit-word byte-swap" the call `swap_words(&buf[start], size)` swaps
the two bytes of every 16-bit word of the `size` bytes from `start`. -/
def swap_words (buf : List Nat) (start size : Nat) : List Nat :=
  buf.take start ++ swap_pairs ((buf.drop start).take size) ++ buf.drop (start + size)

/-- The loop `for (i = 0; i < bound; i++) { dst[i] = src[i]; if (dst[i] == 0) break; }`:
the bytes it stores. -/
def copy_until_zero : List Nat → Nat → List Nat
  | _, 0 => []
  | [], _ + 1 => [0]
  | c :: cs, n + 1 => if c = 0 then [0] else c :: copy_until_zero cs n

/-- A byte field after the copy loop: the stored bytes, then what the field
held before. -/
def read_name (field : List Nat) (src : List Nat) (bound : Nat) : List Nat :=
  copy_until_zero src bound ++ field.drop (copy_until_zero src bound).length

/-- The first `n` bytes of the payload buffer. -/
def payload_bytes (payload : List Nat) (n : Nat) : List Nat :=
  (List.range n).map (byte_at payload)

/-! ## The command handler (lines 79-376) -/

/-- The statement `random_token = ((*((uint32_t *)protocol->payload) & 0xFFFF0000) >> 16)
| ((*((uint32_t *)protocol->payload) & 0x0000FFFF) << 16)`. -/
def State.set_token (s : State) (protocol : TransmissionProtocol) : State :=
  { s with random_token := decode_token protocol.payload }

/-- The entry of the `PUT_CONFIG_*` cases: `sizeof(ConfigEntry)` bytes copied
from `protocol->payload + RANDOM_SEED_SIZE`, then `swap_data`. -/
def received_entry (env : Env) (protocol : TransmissionProtocol) : List Nat :=
  swap_data env ((payload_bytes protocol.payload (4 + env.sizeof_ConfigEntry)).drop 4)

/-- Member `key` of a received entry, read as a C string. -/
def entry_key (entry : List Nat) : List Nat := cstr entry

/-- Member `value` of a received entry, read as a C string. -/
def entry_value (env : Env) (entry : List Nat) : List Nat := cstr (entry.drop env.offsetof_value)

/-- The loop of the `GET_CONFIG` case: `swap_data` on each of the `count`
entries, `dest_ptr` advancing by `sizeof(ConfigEntry) / 2` words. -/
def swap_config_entries (env : Env) (s : State) : State :=
  (List.range env.configData_count).foldl
    (fun st i => st.swap_region (8 + (i * (2 * (env.sizeof_ConfigEntry / 2)) : Nat)) (swap_data_words env))
    s

/-- The function `handle_protocol_command`. -/
def handle_protocol_command (env : Env) (s : State) (protocol : TransmissionProtocol) : State :=
  match protocol.command_id with
  | .DOWNLOAD_ROM =>
    let s := s.set_token protocol
    let value_payload := u16_at protocol.payload 4
    { s with rom_network_selected := value_payload }
  | .LOAD_ROM =>
    let s := s.set_token protocol
    let value_payload := u16_at protocol.payload 4
    if s.microsd_mounted then
      { s with rom_file_selected := value_payload }
    else
      null_words s 0 env.CONFIGURATOR_SHARED_MEMORY_SIZE_BYTES
  | .LIST_ROMS =>
    let s := s.set_token protocol
    if !s.microsd_mounted then
      null_words s 0 env.CONFIGURATOR_SHARED_MEMORY_SIZE_BYTES
    else
      { s with list_roms := true }
  | .GET_CONFIG =>
    let s := s.set_token protocol
    let s := s.write 4 env.configData
    let s := swap_config_entries env s
    s.write_token
  | .PUT_CONFIG_STRING =>
    let s := s.set_token protocol
    let entry := received_entry env protocol
    let s := s.call "put_string" [.str (entry_key entry), .str (entry_value env entry)]
    s.write_token
  | .PUT_CONFIG_INTEGER =>
    let s := s.set_token protocol
    let entry := received_entry env protocol
    let s := s.call "put_integer" [.str (entry_key entry), .num (atoi (entry_value env entry))]
    s.write_token
  | .PUT_CONFIG_BOOL =>
    let s := s.set_token protocol
    let entry := received_entry env protocol
    let s := s.call "put_bool"
      [.str (entry_key entry), .flag (decide (entry_value env entry = lit "true"))]
    s.write_token
  | .SAVE_CONFIG =>
    let s := s.set_token protocol
    { s with persist_config := true }
  | .RESET_DEVICE =>
    let s := s.set_token protocol
    { s with reset_default := true }
  | .LAUNCH_SCAN_NETWORKS =>
    let s := s.set_token protocol
    let s := { s with scan_network := true }
    s.write_token
  | .GET_SCANNED_NETWORKS =>
    let s := s.set_token protocol
    let s := s.write 4 env.wifiScanData
    let s := s.write 4
      (env.network_swap_data (load_bytes s.window 4 env.wifiScanData.length) env.wifiScanData_count)
    s.write_token
  | .CONNECT_NETWORK =>
    { s with
      wifi_auth := some (env.read_auth (payload_bytes protocol.payload env.sizeof_WifiNetworkAuthInfo)) }
  | .GET_IP_DATA =>
    let s := s.set_token protocol
    let s := s.call "get_connection_data" []
    let s := s.write 4 env.connection_data
    let s := s.write 4
      (env.network_swap_connection_data (load_bytes s.window 4 env.connection_data.length))
    s.write_token
  | .DISCONNECT_NETWORK =>
    { s with disconnect_network := true }
  | .GET_ROMS_JSON_FILE =>
    let s := s.set_token protocol
    { s with get_json_file := true }
  | .LOAD_FLOPPY_RO =>
    let s := s.set_token protocol
    let value_payload := u16_at protocol.payload 4
    if s.microsd_mounted then
      { s with floppy_file_selected := value_payload, floppy_read_write := false }
    else
      null_words s 0 env.CONFIGURATOR_SHARED_MEMORY_SIZE_BYTES
  | .LOAD_FLOPPY_RW =>
    let s := s.set_token protocol
    let value_payload := u16_at protocol.payload 4
    if s.microsd_mounted then
      { s with floppy_file_selected := value_payload, floppy_read_write := true }
    else
      null_words s 0 env.CONFIGURATOR_SHARED_MEMORY_SIZE_BYTES
  | .LIST_FLOPPIES =>
    let s := s.set_token protocol
    if !s.microsd_mounted then
      null_words s 0 env.CONFIGURATOR_SHARED_MEMORY_SIZE_BYTES
    else
      { s with list_floppies := true }
  | .QUERY_FLOPPY_DB =>
    let s := s.set_token protocol
    let letter := u16_at protocol.payload 4 &&& 0xFF
    let letter := if 65 ≤ letter ∧ letter ≤ 90 then letter + (97 - 65) else letter
    { s with query_floppy_letter := letter, query_floppy_db := true }
  | .DOWNLOAD_FLOPPY =>
    let s := s.set_token protocol
    let value_payload := u16_at protocol.payload 4
    let s := { s with floppy_image_selected_status := 0 }
    if s.microsd_mounted then
      { s with floppy_image_selected := value_payload }
    else
      let s := null_words s 0 env.CONFIGURATOR_SHARED_MEMORY_SIZE_BYTES
      { s with floppy_image_selected_status := 1, floppy_image_selected := 0 }
  | .GET_SD_DATA =>
    let s := s.set_token protocol
    { s with microsd_status := true }
  | .GET_LATEST_RELEASE =>
    let s := s.set_token protocol
    { s with latest_release := true }
  | .CREATE_FLOPPY =>
    let s := s.set_token protocol
    let p := protocol.payload
    let hdr := { s.floppy_header with
      template := u16_at p 4,
      num_tracks := u16_at p 6,
      num_sectors := u16_at p 8,
      num_sides := u16_at p 10,
      overwrite := u16_at p 12 }
    let p := swap_words (payload_bytes p (14 + (14 + 256))) 14 (14 + 256)
    let hdr := { hdr with volume_name := read_name hdr.volume_name (p.drop 14) 14 }
    let hdr := { hdr with floppy_name := read_name hdr.floppy_name (p.drop 28) 256 }
    { s with floppy_header := hdr }
  | .BOOT_RTC =>
    let s := s.set_token protocol
    { s with rtc_boot := true }
  | .unknown _ => s

/-! ## The polling loop of `init_firmware` (lines 475-856) -/

/-- The address `memory_area` as a number. -/
def memory_area (env : Env) : Int :=
  (env.ROM3_START_ADDRESS : Int) - env.CONFIGURATOR_SHARED_MEMORY_SIZE_BYTES

/-- The value `find_entry(key)->value`. -/
def config_value (env : Env) (key : String) : List Nat := (env.find_entry (lit key)).getD []

/-- The loop condition (line 475). -/
def loop_guard (s : State) : Bool :=
  decide (s.rom_file_selected < 0) && decide (s.rom_network_selected < 0) &&
  decide (s.floppy_file_selected < 0) && decide (s.floppy_image_selected < 0) &&
  !s.reset_default && !s.rtc_boot

/-- A 32-bit `int` result, wrapped to two's complement. -/
def wrap_int32 (x : Int) : Int := (x + 2 ^ 31) % 2 ^ 32 - 2 ^ 31

/-- The condition `(time_us_64() - wifi_scan_poll_counter_mcs) > (wifi_scan_poll_counter * 1000000)`
(line 491): the difference is taken in `uint64_t`, the product in `int`, and the
product is converted to `uint64_t` for the comparison. -/
def scan_timer_due (now mcs counter : Nat) : Bool :=
  decide (((now : Int) - (mcs : Int)) % 2 ^ 64 > wrap_int32 ((counter : Int) * 1000000) % 2 ^ 64)

/-- The scan-timer block (lines 491-504). -/
def scan_timer_action (env : Env) (s : State) : State :=
  if scan_timer_due (env.time_us_64 0) s.wifi_scan_poll_counter_mcs s.wifi_scan_poll_counter then
    match env.find_entry (lit "WIFI_SCAN_SECONDS") with
    | some value =>
      let s := s.call "network_scan" []
      { s with
        wifi_scan_poll_counter := (atoi (cstr value) % 2 ^ 16).toNat,
        wifi_scan_poll_counter_mcs := env.time_us_64 1 }
    | none => s
  else s

/-- The pending-credentials block (lines 505-516). -/
def wifi_auth_action (_env : Env) (s : State) : State :=
  match s.wifi_auth with
  | some auth =>
    let s := s.call "put_string" [.str (lit "WIFI_SSID"), .str auth.ssid]
    let s := s.call "put_string" [.str (lit "WIFI_PASSWORD"), .str auth.password]
    let s := s.call "put_integer" [.str (lit "WIFI_AUTH"), .num auth.auth_mode]
    let s := s.call "write_all_entries" []
    let s := s.call "network_connect" [.flag true]
    s.clear "wifi_auth" (fun t => { t with wifi_auth := none })
  | none => s

/-- The calls that tear the network stack down and scan again (lines 521-527,
560-567, 581-588). -/
def restart_network (s : State) : State :=
  let s := s.call "network_disconnect" []
  let s := s.call "cyw43_arch_deinit" []
  let s := s.call "cyw43_arch_init" []
  let s := s.call "network_init" []
  s.call "network_scan" []

/-- The calls that erase the stored credentials (lines 530-533, 570-573). -/
def clean_credentials (s : State) : State :=
  let s := s.call "put_string" [.str (lit "WIFI_SSID"), .str (lit "")]
  let s := s.call "put_string" [.str (lit "WIFI_PASSWORD"), .str (lit "")]
  let s := s.call "put_integer" [.str (lit "WIFI_AUTH"), .num 0]
  s.call "write_all_entries" []

/-- The disconnect block (lines 517-534). -/
def disconnect_action (_env : Env) (s : State) : State :=
  if s.disconnect_network then
    let s := s.clear "disconnect_network" (fun t => { t with disconnect_network := false })
    let s := restart_network s
    clean_credentials s
  else s

/-- The connection-status block (lines 535-594). -/
def status_poll_action (env : Env) (s : State) : State :=
  if s.network_poll_counter = 0 then
    if (cstr (config_value env "WIFI_SSID")).length > 0 then
      if env.current_status ≠ env.previous_status then
        let s := s.call "get_connection_data" []
        if env.current_status = env.BADAUTH_ERROR then
          let s := restart_network s
          let s := clean_credentials s
          s.call "network_connect" [.flag false]
        else if env.current_status ≥ env.TIMEOUT_ERROR ∧
            env.current_status ≤ env.INSUFFICIENT_RESOURCES_ERROR then
          let s := restart_network s
          s.call "network_connect" [.flag true]
        else s
      else s
    else s
  else s

/-- The persist block (lines 596-602). -/
def persist_config_action (_env : Env) (s : State) : State :=
  if s.persist_config then
    let s := s.clear "persist_config" (fun t => { t with persist_config := false })
    let s := s.call "write_all_entries" []
    s.write_token
  else s

/-- The expression `(x >> 16) | (x << 16)` on `uint32_t`. -/
def rotate_halves (x : Nat) : Nat := ((x >>> 16) ||| (x <<< 16)) % 2 ^ 32

/-- The SD-card status block (lines 604-627). -/
def microsd_status_action (env : Env) (s : State) : State :=
  if s.microsd_status then
    let s := s.clear "microsd_status" (fun t => { t with microsd_status := false })
    let s := s.call "get_sdcard_data" [.flag s.microsd_mounted]
    let d := env.sdcard_data s.microsd_mounted
    let d := { d with
      roms_folder_count := rotate_halves d.roms_folder_count,
      floppies_folder_count := rotate_halves d.floppies_folder_count,
      harddisks_folder_count := rotate_halves d.harddisks_folder_count,
      sd_free_space := rotate_halves d.sd_free_space,
      sd_size := rotate_halves d.sd_size }
    let s := s.write 4 (env.sdcard_bytes d)
    let s := s.swap_region 4 ((env.MAX_FOLDER_LENGTH * 3 + 1) / 2)
    s.write_token
  else s

/-- The latest-release block (lines 629-660). -/
def latest_release_action (env : Env) (s : State) : State :=
  if s.latest_release then
    let s := s.clear "latest_release" (fun t => { t with latest_release := false })
    let s := s.write 4 (List.replicate env.CONFIGURATOR_SHARED_MEMORY_SIZE_BYTES 0)
    let s := s.call "get_latest_release" []
    let s :=
      match env.latest_version with
      | some latest_version =>
        if env.RELEASE_VERSION ≠ latest_version then
          let s := s.write 4 (latest_version ++ [0])
          s.swap_region 4 ((latest_version.length + 1) / 2)
        else s
      | none => s
    s.write_token
  else s

/-- The copy loops of lines 678-685 and 798-803: every string is stored with
its terminating zero and `dest_ptr` moves past it. The result is the state and
the offset `dest_ptr` ends at. -/
def store_strings (s : State) (dest : Int) (strings : List (List Nat)) : State × Int :=
  strings.foldl (fun acc str => (acc.1.write acc.2 (str ++ [0]), acc.2 + (str.length + 1 : Nat)))
    (s, dest)

/-- The end marker of lines 686-692 and 804-810: one zero byte when the address
`dest_ptr` is odd, then two zero bytes. -/
def store_end_marker (env : Env) (s : State) (dest : Int) : State × Int :=
  let aligned : State × Int :=
    if (memory_area env + dest) % 2 = 1 then (s.write dest [0], dest + 1) else (s, dest)
  let s := aligned.1.write aligned.2 [0]
  let s := s.write (aligned.2 + 1) [0]
  (s, aligned.2 + 2)

/-- Modelled from the spec: `network_swap_json_data` is defined outside the
sources. The spec has the list "written with 16-bit-word byte-swap applied
uniformly before the token is stored": the two bytes of every 16-bit word of
the encoded list, from its first byte at offset `start` to `dest`, change
places. -/
def network_swap_json_data (s : State) (start dest : Int) : State :=
  s.swap_region start (((dest - start).toNat + 1) / 2)

/-- The list encoder written out in lines 676-695 and 796-813: the copy loop
from `dest`, the end marker, then `network_swap_json_data` from `dest`. -/
def encode_list (env : Env) (s : State) (strings : List (List Nat)) (dest : Int) : State :=
  let r := store_strings s dest strings
  let r := store_end_marker env r.1 r.2
  network_swap_json_data r.1 dest r.2

/-- The text `sprintf(dest_ptr, "%s\t(%d Kb)", name, size_kb)` produces. -/
def json_line (r : RomInfo) : List Nat :=
  r.name ++ lit "\t(" ++ lit (toString r.size_kb) ++ lit " Kb)"

/-- The JSON-index block (lines 663-698). -/
def get_json_file_action (env : Env) (s : State) : State :=
  if s.get_json_file then
    let s := s.clear "get_json_file" (fun t => { t with get_json_file := false })
    let s := s.write 4 (List.replicate env.CONFIGURATOR_SHARED_MEMORY_SIZE_BYTES 0)
    let url := config_value env "ROMS_YAML_URL"
    let s := s.call "get_json_files" [.str url]
    let s := { s with
      network_files := env.json_files url,
      filtered_num_network_files := (env.json_files url).length }
    let s := encode_list env s ((s.network_files.take s.filtered_num_network_files).map json_line) 4
    s.write_token
  else s

/-- The characters after the last `.` of a file name, if it has one. -/
def extension : List Nat → Option (List Nat)
  | [] => none
  | c :: cs =>
    match extension cs with
    | some e => some e
    | none => if c = 46 then some cs else none

/-- Modelled from the spec: `filter` of the file-system module is defined
outside the sources. The spec has a "directory listing with extension filter"
whose example keeps `b.ROM` and `d.BIN` for the extensions `rom` and `bin`: a
file stays when its extension, ignoring case, is one of the allowed ones. -/
def filter (files : List (List Nat)) (allowed_extensions : List (List Nat)) : List (List Nat) :=
  files.filter (fun name =>
    match extension name with
    | some e => allowed_extensions.contains (e.map tolower)
    | none => false)

/-- Library `qsort` with `compare_strings` as comparison: an ordering of the
list in which no element compares greater than a later one. -/
def qsort (l : List (List Nat)) : List (List Nat) :=
  l.insertionSort (fun a b => compare_strings a b ≤ 0)

/-- Modelled from the spec: `store_file_list` of the file-system module is
defined outside the sources. The spec has a "null-byte-delimited filename list
terminated by a double zero and padded to even alignment ... written with
16-bit-word byte-swap applied uniformly": the encoding the two list blocks of
`init_firmware` write themselves. -/
def store_file_list (env : Env) (s : State) (names : List (List Nat)) (dest : Int) : State :=
  encode_list env s names dest

/-- The shared body of the two listing blocks (lines 705-722, 730-747). -/
def list_files (env : Env) (s : State) (folder_key : String) (allowed : List (List Nat)) : State :=
  let dir := config_value env folder_key
  let s := s.call "show_dir_files" [.str (cstr dir)]
  let s := { s with file_list := env.dir_files (cstr dir) }
  let filtered := filter s.file_list allowed
  let s := { s with filtered_local_list := filtered, filtered_num_local_files := filtered.length }
  let s := { s with filtered_local_list := qsort (s.filtered_local_list.take s.filtered_num_local_files) }
  let s := store_file_list env s (s.filtered_local_list.take s.filtered_num_local_files) 4
  s.write_token

/-- The ROM listing block (lines 701-723). -/
def list_roms_action (env : Env) (s : State) : State :=
  if s.list_roms then
    let s := s.clear "list_roms" (fun t => { t with list_roms := false })
    list_files env s "ROMS_FOLDER" [lit "img", lit "bin", lit "stc", lit "rom"]
  else s

/-- The floppy listing block (lines 726-748). -/
def list_floppies_action (env : Env) (s : State) : State :=
  if s.list_floppies then
    let s := s.clear "list_floppies" (fun t => { t with list_floppies := false })
    list_files env s "FLOPPIES_FOLDER" [lit "st", lit "msa", lit "rw"]
  else s

/-- The floppy-database block (lines 751-818). -/
def query_floppy_db_action (env : Env) (s : State) : State :=
  if s.query_floppy_db then
    let s := s.clear "query_floppy_db" (fun t => { t with query_floppy_db := false })
    let s := s.call "dma_channel_set_irq1_enabled" [.flag false]
    let s := s.write 0 (List.replicate env.CONFIGURATOR_SHARED_MEMORY_SIZE_BYTES 0)
    let base_url := config_value env "FLOPPY_DB_URL"
    let url := cstr base_url ++ lit "/db/" ++ [s.query_floppy_letter] ++ lit ".csv"
    let s := s.call "get_floppy_db_files" [.str url]
    let s := { s with
      floppy_images_files := env.floppy_db_files url,
      filtered_num_floppy_images_files := (env.floppy_db_files url).length }
    let s := s.call "dma_channel_set_irq1_enabled" [.flag true]
    let s := encode_list env s
      ((s.floppy_images_files.take s.filtered_num_floppy_images_files).map (fun f => f.name)) 4
    s.write_token
  else s

/-- The statements of lines 823-828 on the field `floppy_name`: the scan for
the first zero byte and `strcpy(dest_ptr, ".st.rw")`. The result is the field
afterwards and whether every access stayed inside the field. The code bounds
neither the scan nor the copy: when the second component is false the code
stores the bytes `spilled` beyond the field, into the module variables that
lie behind `floppy_header`, which is undefined in C. The first component then
holds only the bytes that stay in the field; the block logs `Event.overrun`,
and what the model has it do from that event on is no statement about the
program. The theorems on the loop condition take states on which the second
component is true (`State.name_fits`). -/
def append_st_rw (field : List Nat) : List Nat × Bool :=
  let i := (cstr field).length
  ((field.take i ++ (lit ".st.rw" ++ [0]) ++ field.drop (i + 7)).take field.length,
    decide (i + 7 ≤ field.length))

/-- The create-floppy block (lines 820-849). -/
def create_floppy_action (env : Env) (s : State) : State :=
  if s.floppy_header.template > 0 then
    let r := append_st_rw s.floppy_header.floppy_name
    let s := { s with floppy_header := { s.floppy_header with floppy_name := r.1 } }
    let s := if r.2 then s else { s with log := s.log ++ [Event.overrun "floppy_header.floppy_name"] }
    let dir := config_value env "FLOPPIES_FOLDER"
    let s := s.call "create_blank_ST_image"
      [.str (cstr dir), .str (cstr s.floppy_header.floppy_name),
       .num s.floppy_header.num_tracks, .num s.floppy_header.num_sectors,
       .num s.floppy_header.num_sides, .str (cstr s.floppy_header.volume_name),
       .num s.floppy_header.overwrite]
    let s := s.clear "floppy_header.template"
      (fun t => { t with floppy_header := { t.floppy_header with template := 0 } })
    s.write_token
  else s

/-- The poll counter statement (line 852) on a `u_int16_t`. -/
def poll_counter_action (env : Env) (s : State) : State :=
  if s.network_poll_counter ≥ env.NETWORK_POLL_INTERVAL then
    { s with network_poll_counter := 0 }
  else
    { s with network_poll_counter := (s.network_poll_counter + 1) % 2 ^ 16 }

/-- The seed store `*((volatile uint32_t *)(memory_area - RANDOM_SEED_SIZE)) = rand() % 0xFFFFFFFF`
(line 855). -/
def seed_action (env : Env) (s : State) : State :=
  s.write (-4) (u32_bytes (env.rand % 0xFFFFFFFF))

/-- The blocks of the loop body, in the order of the source. -/
def loop_actions : List (Env → State → State) :=
  [scan_timer_action, wifi_auth_action, disconnect_action, status_poll_action,
   persist_config_action, microsd_status_action, latest_release_action,
   get_json_file_action, list_roms_action, list_floppies_action,
   query_floppy_db_action, create_floppy_action, poll_counter_action, seed_action]

/-- One pass of the loop body. -/
def loop_body (env : Env) (s : State) : State :=
  loop_actions.foldl (fun st action => action env st) s

/-! ## The stage after the loop (lines 858-1065) -/

/-- The element `list[index - 1]` of a C array of strings, and whether the
index is inside the array. The code reads the array unchecked (lines 867, 883,
905): outside the array the read is undefined in C, and the first component is
then no statement about the program. A routine that reads outside the array
logs `Event.overrun`, and what the model has it do from that event on is not a
statement about the program either; the theorems on the selected file take the
index inside the array and have no such event among the events they state. -/
def element_at (list : List (List Nat)) (selected : Int) : List Nat × Bool :=
  (list.getD (selected - 1).toNat [], decide (1 ≤ selected ∧ selected ≤ list.length))

/-- A logged array read outside the array. -/
def State.check_index (s : State) (inside : Bool) (object : String) : State :=
  if inside then s else { s with log := s.log ++ [Event.overrun object] }

/-- The local-ROM routine (lines 858-878). -/
def local_rom_routine (env : Env) (s : State) : State :=
  if s.rom_file_selected > 0 then
    let s := s.call "save_and_disable_interrupts" []
    let s := s.call "flash_range_erase"
      [.num env.FLASH_ROM_LOAD_OFFSET, .num (env.ROM_SIZE_BYTES * 2 : Nat)]
    let s := s.call "restore_interrupts" []
    let file := element_at s.filtered_local_list s.rom_file_selected
    let s := s.check_index file.2 "filtered_local_list"
    let s := s.call "load_rom_from_fs"
      [.str (cstr (config_value env "ROMS_FOLDER")), .str file.1, .num env.FLASH_ROM_LOAD_OFFSET]
    let _res := env.load_rom_from_fs_result
    let s := s.call "release_memory_files" [.str (lit "file_list")]
    let s := s.call "release_memory_files" [.str (lit "filtered_local_list")]
    let s := s.call "put_string" [.str (lit "BOOT_FEATURE"), .str (lit "ROM_EMULATOR")]
    let s := s.call "write_all_entries" []
    s.write_token
  else s

/-- The network-ROM routine (lines 880-896). -/
def network_rom_routine (env : Env) (s : State) : State :=
  if s.rom_network_selected > 0 then
    let file := element_at (s.network_files.map (fun r => r.url)) s.rom_network_selected
    let s := s.check_index file.2 "network_files"
    let s := s.call "download_rom" [.str file.1, .num env.FLASH_ROM_LOAD_OFFSET]
    let _res := env.download_rom_result
    let s := s.call "put_string" [.str (lit "BOOT_FEATURE"), .str (lit "ROM_EMULATOR")]
    let s := s.call "write_all_entries" []
    s.write_token
  else s

/-- Library `strcasecmp(a, b) == 0`. -/
def strcasecmp_eq (a b : List Nat) : Bool := decide (a.map tolower = b.map tolower)

/-- The local-floppy routine (lines 898-974). -/
def local_floppy_routine (env : Env) (s : State) : State :=
  if s.floppy_file_selected > 0 then
    let dir := cstr (config_value env "FLOPPIES_FOLDER")
    let file := element_at s.filtered_local_list s.floppy_file_selected
    let s := s.check_index file.2 "filtered_local_list"
    let filename := file.1
    let filename_length := filename.length
    let is_msa := decide (filename_length > 4) &&
      strcasecmp_eq (filename.drop (filename_length - 4)) (lit ".MSA")
    let r : State × Option (List Nat) :=
      if is_msa then
        let stFilename := filename.take (filename_length - 4) ++ lit ".ST"
        let s := s.call "dma_channel_set_irq1_enabled" [.flag false]
        let s := s.call "MSA_to_ST" [.str dir, .str filename, .str stFilename, .flag true]
        let s := s.call "dma_channel_set_irq1_enabled" [.flag true]
        if env.msa_to_st_result ≠ 0 then (s, none) else (s, some stFilename)
      else (s, some filename)
    let s := r.1
    let s :=
      match r.2 with
      | some old_floppy =>
        let use_existing_rw := decide (old_floppy.length > 3) &&
          decide (old_floppy.drop (old_floppy.length - 3) = lit ".rw")
        let r2 : State × List Nat :=
          if s.floppy_read_write && !use_existing_rw then
            let new_floppy := old_floppy ++ lit ".rw"
            let s := s.call "dma_channel_set_irq1_enabled" [.flag false]
            let s := s.call "copy_file" [.str dir, .str old_floppy, .str new_floppy, .flag false]
            let s := s.call "dma_channel_set_irq1_enabled" [.flag true]
            (s, new_floppy)
          else (s, old_floppy)
        let s := r2.1
        let s := s.call "put_string" [.str (lit "FLOPPY_IMAGE_A"), .str r2.2]
        let s := s.call "put_string" [.str (lit "BOOT_FEATURE"), .str (lit "FLOPPY_EMULATOR")]
        let s := s.call "write_all_entries" []
        let s := s.call "release_memory_files" [.str (lit "file_list")]
        let s := s.call "release_memory_files" [.str (lit "filtered_local_list")]
        s.call "blink_morse" [.str (lit "F")]
      | none => s
    s.write_token
  else s

/-- The part of a path after its last `/`, if the path has one. -/
def after_last_slash : List Nat → Option (List Nat)
  | [] => none
  | c :: cs =>
    match after_last_slash cs with
    | some r => some r
    | none => if c = 47 then some cs else none

/-- The nested function `extract_filename` (lines 978-988). -/
def extract_filename (path : List Nat) : List Nat :=
  match after_last_slash path with
  | some (c :: cs) => c :: cs
  | _ => path

/-- The floppy-download routine (lines 976-1050). -/
def floppy_download_routine (env : Env) (s : State) : State :=
  if s.floppy_image_selected > 0 then
    let remote := element_at (s.floppy_images_files.map (fun f => f.url)) s.floppy_image_selected
    let s := s.check_index remote.2 "floppy_images_files"
    let remote_uri := remote.1
    let base_url := cstr (config_value env "FLOPPY_DB_URL")
    let dest_filename := extract_filename remote_uri
    let dir := cstr (config_value env "FLOPPIES_FOLDER")
    let full_url :=
      if remote_uri.take 4 = lit "http" then remote_uri else base_url ++ lit "/" ++ remote_uri
    let s :=
      if env.directory_exists dir then
        let s := s.call "download_floppy" [.str full_url, .str dir, .str dest_filename, .flag true]
        if env.download_floppy_result ≠ 0 then
          { s with floppy_image_selected := 0, floppy_image_selected_status := 3 }
        else
          let s := s.call "put_string" [.str (lit "FLOPPY_IMAGE_A"), .str dest_filename]
          let s := s.call "put_string" [.str (lit "BOOT_FEATURE"), .str (lit "FLOPPY_EMULATOR")]
          let s := s.call "write_all_entries" []
          s.call "blink_morse" [.str (lit "F")]
      else
        { s with floppy_image_selected_status := 2, floppy_image_selected := 0 }
    let s := s.write 4 (u16_bytes (s.floppy_image_selected_status % 2 ^ 16).toNat)
    s.write_token
  else s

/-- The RTC routine (lines 1051-1057). -/
def rtc_boot_routine (_env : Env) (s : State) : State :=
  if s.rtc_boot then
    let s := s.call "put_string" [.str (lit "BOOT_FEATURE"), .str (lit "RTC_EMULATOR")]
    let s := s.call "write_all_entries" []
    s.write_token
  else s

/-- The reset routine (lines 1058-1063). -/
def reset_routine (_env : Env) (s : State) : State :=
  if s.reset_default then
    let s := s.call "reset_config_default" []
    s.write_token
  else s

/-- The routines of the stage after the loop, in the order of the source. -/
def post_loop_routines : List (Env → State → State) :=
  [local_rom_routine, network_rom_routine, local_floppy_routine, floppy_download_routine,
   rtc_boot_routine, reset_routine]

/-- The stage after the loop: the six routines, then `terminate_protocol_parser`. -/
def post_loop (env : Env) (s : State) : State :=
  (post_loop_routines.foldl (fun st routine => routine env st) s).call
    "terminate_protocol_parser" []

/-! ## The whole of `init_firmware` -/

/-- The statements before the loop (lines 405-474). -/
def pre_loop (env : Env) (s : State) : State :=
  let s := s.call "sd_init_driver" []
  let s := { s with microsd_initialized := env.sd_init_driver }
  let s :=
    if s.microsd_initialized then
      let s := s.call "f_mount" []
      { s with microsd_mounted := env.f_mount_ok }
    else s
  let s := { s with wifi_scan_poll_counter := 0, wifi_scan_poll_counter_mcs := 0 }
  let s :=
    match env.find_entry (lit "WIFI_SCAN_SECONDS") with
    | some value => { s with wifi_scan_poll_counter := (atoi (cstr value) % 2 ^ 16).toNat }
    | none => s
  let s := s.call "network_connect" [.flag false]
  let s := s.call "blink_morse" [.str (lit "C")]
  { s with network_poll_counter := 0 }

/-- What one pass of the loop meets: the collaborators as they answer during the
pass and the commands the interrupt handler delivers while the pass waits at
its top (lines 477-490). -/
structure Pass where
  env : Env
  triggers : List TransmissionProtocol

/-- One pass: the delivered commands are handled, then the body runs. -/
def loop_pass (p : Pass) (s : State) : State :=
  loop_body p.env (p.triggers.foldl (handle_protocol_command p.env) s)

/-- The `while` loop over the passes it is given; `none` when the guard still
holds after the last of them. -/
def firmware_loop : List Pass → State → Option State
  | [], s => if loop_guard s then none else some s
  | p :: ps, s => if loop_guard s then firmware_loop ps (loop_pass p s) else some s

/-- The function `init_firmware`. -/
def init_firmware (env : Env) (passes : List Pass) (s : State) : Option State :=
  (firmware_loop passes (pre_loop env s)).map (post_loop env)

/-! ## The other functions of the file -/

/-- The function `delete_FLASH` (lines 395-403). -/
def delete_FLASH (env : Env) (s : State) : State × Int :=
  (s.call "flash_range_erase"
    [.num env.FLASH_ROM_LOAD_OFFSET, .num ((env.ROM_SIZE_BYTES * 2 : Nat) - 1 : Int)], 0)

/-- The function `dma_irq_handler_lookup_callback` (lines 379-393) for the
captured address `addr`. -/
def dma_irq_handler_lookup_callback (env : Env) (s : State) (addr : Nat) : State :=
  let s := s.call "dma_hw_ints1_clear" []
  if addr % 2 ^ 32 ≥ env.ROM3_START_ADDRESS then
    s.call "parse_protocol" [.num ((addr % 2 ^ 32 &&& 0xFFFF) % 2 ^ 16 : Nat)]
  else s

/-! ## Sample inputs -/

/-- A concrete environment: a window of 64 bytes below address `0x10000`, two
configuration entries of 8 bytes, and collaborators that answer with fixed
data. -/
def Env.sample : Env where
  ROM3_START_ADDRESS := 0x10000
  CONFIGURATOR_SHARED_MEMORY_SIZE_BYTES := 64
  FLASH_ROM_LOAD_OFFSET := 0xE0000
  ROM_SIZE_BYTES := 0x10000
  NETWORK_POLL_INTERVAL := 5
  MAX_FOLDER_LENGTH := 4
  MAX_KEY_LENGTH := 4
  MAX_STRING_VALUE_LENGTH := 4
  sizeof_ConfigEntry := 8
  offsetof_value := 4
  RELEASE_VERSION := lit "v1"
  BADAUTH_ERROR := 7
  TIMEOUT_ERROR := 3
  INSUFFICIENT_RESOURCES_ERROR := 6
  configData := [1, 2, 3, 4, 65, 66, 0, 0, 49, 0, 0, 0, 67, 0, 0, 0, 50, 51, 0, 0, 2, 0, 0, 0]
  configData_count := 2
  wifiScanData := [1, 2, 3, 4]
  wifiScanData_count := 1
  network_swap_data := fun bytes _ => swap_pairs bytes
  connection_data := [5, 6, 7, 8]
  network_swap_connection_data := swap_pairs
  sizeof_WifiNetworkAuthInfo := 8
  read_auth := fun bytes =>
    { ssid := cstr (swap_pairs (bytes.take 4)), password := cstr (swap_pairs ((bytes.drop 4).take 2)),
      auth_mode := byte_at bytes 6 }
  sd_init_driver := true
  f_mount_ok := true
  find_entry := fun key => if key = lit "WIFI_SCAN_SECONDS" then some (lit "10") else some (lit "/roms")
  time_us_64 := fun k => 20000000 + k
  previous_status := 0
  current_status := 0
  sdcard_data := fun _ =>
    { roms_folder_count := 1, floppies_folder_count := 2, harddisks_folder_count := 3,
      sd_free_space := 4, sd_size := 5, rest := [] }
  sdcard_bytes := fun d => d.rest ++ u32_bytes d.sd_size
  latest_version := some (lit "v2")
  json_files := fun _ => [{ name := lit "a", size_kb := 64, url := lit "http://x/a" }]
  dir_files := fun _ => [lit "a.img", lit "b.ROM", lit "c.txt", lit "d.BIN"]
  floppy_db_files := fun _ => [{ name := lit "g", url := lit "g/g.st" }]
  load_rom_from_fs_result := 0
  download_rom_result := 0
  create_blank_ST_image_result := 0
  msa_to_st_result := 0
  directory_exists := fun _ => true
  download_floppy_result := 0
  rand := 12345

/-- A state at loop exit in which a local ROM and a reset are both selected. -/
def State.rom_and_reset : State :=
  { State.initial with
    microsd_initialized := true, microsd_mounted := true,
    filtered_local_list := [lit "a.img"], filtered_num_local_files := 1,
    rom_file_selected := 1, reset_default := true, random_token := 7 }

/-- The initial module state with the SD card mounted. -/
def State.mounted : State := { State.initial with microsd_initialized := true, microsd_mounted := true }

/-! ## Vocabulary of the statements -/

/-- An event that is a plain store into the window (not the token store). -/
def Event.is_store : Event → Bool
  | .store _ _ => true
  | _ => false

/-- An event that is the token store. -/
def Event.is_token : Event → Bool
  | .token _ => true
  | _ => false

/-- The events a step appends to the log: the log of the state after it,
without the events that were there before. -/
def new_events (s t : State) : List Event := t.log.drop s.log.length

/-- Among the events `d` the token store is the last write to the window:
whatever follows a token store in `d` is neither a store into the window nor
another token store. -/
def token_store_last (d : List Event) : Prop :=
  ∀ pre v post, d = pre ++ Event.token v :: post →
    ∀ e ∈ post, e.is_store = false ∧ e.is_token = false

/-- A step that changes nothing but the window and appends only plain stores. -/
def stores_only (s t : State) : Prop :=
  ∃ w d, t = { s with window := w, log := s.log ++ d } ∧ ∀ e ∈ d, e.is_store = true

/-- Every event but the last is something other than a token store. -/
def token_only_last (d : List Event) : Bool := d.dropLast.all (fun e => !e.is_token)

/-- The storage-gated deferred commands. -/
def storage_gated : List CommandId :=
  [.LOAD_ROM, .LIST_ROMS, .LOAD_FLOPPY_RO, .LOAD_FLOPPY_RW, .LIST_FLOPPIES, .DOWNLOAD_FLOPPY]

/-- The commands that set a variable of the loop condition. -/
def boot_selecting : List CommandId :=
  [.LOAD_ROM, .DOWNLOAD_ROM, .LOAD_FLOPPY_RO, .LOAD_FLOPPY_RW, .DOWNLOAD_FLOPPY, .RESET_DEVICE,
   .BOOT_RTC]

/-- The variables the loop condition reads. -/
def boot_requests (s : State) : Int × Int × Int × Int × Bool × Bool :=
  (s.rom_file_selected, s.rom_network_selected, s.floppy_file_selected,
   s.floppy_image_selected, s.reset_default, s.rtc_boot)

/-- What a block of the loop body does to the log, the token and the variables
of the loop condition: it only appends events, a token store is the last of
them, and it assigns neither `random_token` nor a variable of the loop
condition. -/
structure LoopStep (s t : State) : Prop where
  log_eq : t.log = s.log ++ new_events s t
  token_last : token_only_last (new_events s t) = true
  random_token : t.random_token = s.random_token
  boot_requests : boot_requests t = boot_requests s

/-- What a routine of the stage after the loop does to the log, the token and
the boot flags: it only appends events, a token store is the last of them, and
it assigns neither `random_token` nor `reset_default` nor `rtc_boot`. -/
structure RoutineStep (s t : State) : Prop where
  log_eq : t.log = s.log ++ new_events s t
  token_last : token_only_last (new_events s t) = true
  random_token : t.random_token = s.random_token
  reset_default : t.reset_default = s.reset_default
  rtc_boot : t.rtc_boot = s.rtc_boot

/-- Whether a command id equals one of the case labels. -/
def CommandId.is_known : CommandId → Bool
  | .unknown _ => false
  | _ => true

/-! ## Definitions for the loop blocks, the list encoders and the comparison -/

/-- In the events `d` the pending variable `flag` is reset before any
collaborator is called: the reset is the first event. -/
def cleared_first (d : List Event) (flag : String) : Prop :=
  d.head? = some (Event.clear flag)

/-- The sample environment with a ROM load and a ROM download that report
failure. -/
def Env.failing_rom : Env :=
  { Env.sample with load_rom_from_fs_result := 4, download_rom_result := -1 }

/-- A state at loop exit in which network ROM 1 is selected. -/
def State.network_rom_selected : State :=
  { State.initial with
    network_files := [{ name := lit "a", size_kb := 64, url := lit "http://x/a" }],
    filtered_num_network_files := 1, rom_network_selected := 1, random_token := 7 }

/-- A state in the loop with pending network credentials. -/
def State.pending_credentials : State :=
  { State.initial with wifi_auth := some { ssid := lit "net", password := lit "pw", auth_mode := 3 } }

/-- The characters of a C string: no byte of the list is the terminator. -/
def zero_free (s : List Nat) : Prop := ∀ c ∈ s, c ≠ 0

/-- The sign of the lexicographic comparison of two byte sequences, bytes taken
as unsigned numbers: -1 when the first is less, 0 when they are equal, 1 when
the first is greater; a proper initial segment is less than its extension. -/
def lex_sign : List Nat → List Nat → Int
  | [], [] => 0
  | [], _ :: _ => -1
  | _ :: _, [] => 1
  | a :: as, b :: bs => if a < b then -1 else if b < a then 1 else lex_sign as bs

instance zero_free_decidable (s : List Nat) : Decidable (zero_free s) :=
  inferInstanceAs (Decidable (∀ c ∈ s, c ≠ 0))

/-- Whether a file name has one of the allowed extensions, ignoring case: the
condition `filter` keeps a file by. -/
def allowed_extension (allowed_extensions : List (List Nat)) (name : List Nat) : Bool :=
  match extension name with
  | some e => allowed_extensions.contains (e.map tolower)
  | none => false

/-- The extensions the ROM listing block allows (line 714). -/
def rom_extensions : List (List Nat) := [lit "img", lit "bin", lit "stc", lit "rom"]

/-- The initial module state with the SD card mounted and a ROM listing
requested. -/
def State.listing_roms : State := { State.mounted with list_roms := true }

/-- Entry `i` of `configData.entries`, as the bytes it occupies in the struct:
`sizeof(ConfigEntry)` bytes after the 32-bit magic number and `i` entries. -/
def config_entry (env : Env) (i : Nat) : List Nat :=
  (env.configData.drop (4 + i * env.sizeof_ConfigEntry)).take env.sizeof_ConfigEntry

/-- A `PUT_CONFIG_STRING` request: the four token bytes, then the bytes of an
entry as the host read them from the window. -/
def put_string_request (tok entry : List Nat) : TransmissionProtocol :=
  { command_id := .PUT_CONFIG_STRING, payload_size := (tok ++ entry).length, payload := tok ++ entry }

/-- A `CREATE_FLOPPY` payload whose two name fields hold no zero byte: the
token, template 1, 80 tracks, 9 sectors, 2 sides, overwrite 0, then 14 and 256
times the letter `A`. -/
def full_names_payload : List Nat :=
  [1, 0, 0, 0, 1, 0, 80, 0, 9, 0, 2, 0, 0, 0] ++ List.replicate (14 + 256) 65

/-- A `CREATE_FLOPPY` payload with the volume name `VOL` and the floppy name
`disk`, both zero-terminated, as the host sends them (the two bytes of each
16-bit word exchanged). -/
def short_names_payload : List Nat :=
  [1, 0, 0, 0, 1, 0, 80, 0, 9, 0, 2, 0, 0, 0] ++
    swap_pairs (lit "VOL" ++ List.replicate 11 0 ++ lit "disk" ++ List.replicate 252 0)

/-- The strings of a list, each followed by one zero byte. -/
def entries_body : List (List Nat) → List Nat
  | [] => []
  | n :: rest => n ++ 0 :: entries_body rest

/-- The encoding of a list of strings: each string followed by one zero byte,
then one padding zero if the length so far is odd, then two zero bytes. -/
def encode_entries (strings : List (List Nat)) : List Nat :=
  entries_body strings ++ (if (entries_body strings).length % 2 = 1 then [0] else []) ++ [0, 0]

/-- Splitting bytes at zero bytes up to the first empty string; `cur` holds
the bytes of the string being read, last byte first. -/
def split_aux : List Nat → List Nat → List (List Nat)
  | [], _ => []
  | c :: rest, cur =>
    if c = 0 then (if cur = [] then [] else cur.reverse :: split_aux rest [])
    else split_aux rest (c :: cur)

/-- The strings of an encoded list: the bytes split at zero bytes, up to the
first empty string. -/
def split_names (bytes : List Nat) : List (List Nat) := split_aux bytes []

/-- The strings the JSON-index block encodes: one line per entry of the index. -/
def json_index_lines (env : Env) : List (List Nat) :=
  (env.json_files (config_value env "ROMS_YAML_URL")).map json_line

/-- The strings the floppy-database block encodes for a letter: the names of
the entries. -/
def floppy_db_names (env : Env) (letter : Nat) : List (List Nat) :=
  (env.floppy_db_files
    (cstr (config_value env "FLOPPY_DB_URL") ++ lit "/db/" ++ [letter] ++ lit ".csv")).map
    (fun f => f.name)

/-- A state in the loop with a JSON index requested. -/
def State.json_requested : State := { State.initial with get_json_file := true, random_token := 7 }

/-! ## Definitions for the routines after the loop, the timer and the window bounds -/

/-- The elapsed time exceeds the interval: the comparison of line 491 with the
true integer product of the seconds and 1000000. -/
def interval_elapsed (now mcs counter : Nat) : Bool :=
  decide (((now : Int) - (mcs : Int)) % 2 ^ 64 > (counter : Int) * 1000000)

/-- A state in the loop one second after the last scan, with a scan interval
of 4295 seconds. -/
def State.long_interval : State :=
  { State.initial with wifi_scan_poll_counter := 4295, wifi_scan_poll_counter_mcs := 19000000 }

/-- Whether an event stores only bytes at window offsets from -4 up to, and
not including, `size`; events that store nothing are inside. -/
def Event.inside_window (size : Nat) : Event → Bool
  | .store off len => decide (-4 ≤ off ∧ off + (len : Int) ≤ size)
  | .token _ => decide (4 ≤ size)
  | _ => true

/-- A state in the loop with the JSON index and the latest release requested,
every byte around the window holding 255. -/
def State.filled_window : State :=
  { State.initial with get_json_file := true, latest_release := true, window := fun _ => 255 }

/-- A `CREATE_FLOPPY` payload with the volume name `VOL` and a zero-terminated
floppy name of 250 times the letter `A`, as the host sends them (the two bytes
of each 16-bit word exchanged). -/
def long_name_payload : List Nat :=
  [1, 0, 0, 0, 1, 0, 80, 0, 9, 0, 2, 0, 0, 0] ++
    swap_pairs (lit "VOL" ++ List.replicate 11 0 ++ List.replicate 250 65 ++ List.replicate 6 0)

/-- The name the local-floppy routine works on, in the words of the
specification: the file name with its last 4 characters replaced by `.ST` when
it is longer than 4 characters and ends in `.msa` ignoring case, otherwise the
file name itself. -/
def spec_source_name (f : List Nat) : List Nat :=
  if f.length > 4 ∧ (f.drop (f.length - 4)).map tolower = lit ".msa" then
    f.take (f.length - 4) ++ lit ".ST"
  else f

/-- The name registered as `FLOPPY_IMAGE_A`, in the words of the
specification: the source name in read-only mode; in read-write mode the source
name itself when it is longer than 3 characters and ends in `.rw`, otherwise
the source name followed by `.rw`. -/
def spec_registered_name (f : List Nat) (read_write : Bool) : List Nat :=
  if read_write then
    if (spec_source_name f).length > 3 ∧
        (spec_source_name f).drop ((spec_source_name f).length - 3) = lit ".rw" then
      spec_source_name f
    else spec_source_name f ++ lit ".rw"
  else spec_source_name f

/-- The sample environment with a conversion from MSA that reports failure. -/
def Env.failing_msa : Env := { Env.sample with msa_to_st_result := 5 }

/-- A state at loop exit in which floppy 1 of the list `game.msa`, `work.st`,
`save.st.rw` is selected in read-only mode. -/
def State.floppy_selected : State :=
  { State.initial with
    filtered_local_list := [lit "game.msa", lit "work.st", lit "save.st.rw"],
    filtered_num_local_files := 3, floppy_file_selected := 1, floppy_read_write := false,
    random_token := 7 }

/-! ## Definitions for runs that stay inside their objects -/

/-- The variables of the file listing: the list, its count and the two
listing requests. -/
def list_view (s : State) : List (List Nat) × Nat × Bool × Bool :=
  (s.filtered_local_list, s.filtered_num_local_files, s.list_roms, s.list_floppies)

/-- Whether the create-floppy block (lines 820-849), run on this state, stays
inside `floppy_name`: no image is pending, or the scan of line 824 finds the
end of the name inside the field and the seven bytes that `strcpy` stores fit
the field. -/
def State.name_fits (s : State) : Bool :=
  decide (s.floppy_header.template = 0) || (append_st_rw s.floppy_header.floppy_name).2

/-- Whether the create-floppy block stays inside `floppy_name` in each of the
passes, run one after the other from `s`; the test is on the state a pass has
when its commands are handled. -/
def passes_inside : List Pass → State → Bool
  | [], _ => true
  | q :: rest, s =>
    (q.triggers.foldl (handle_protocol_command q.env) s).name_fits &&
      passes_inside rest (loop_pass q s)

/-- The bytes of `.st.rw` and its terminator that `strcpy` (line 828) stores
beyond the end of the field, when the name ends at the first zero byte of the
field. -/
def spilled (field : List Nat) : List Nat :=
  (lit ".st.rw" ++ [0]).drop (field.length - (cstr field).length)

/-- The sample environment with a floppies folder of its own, which holds one
image. -/
def Env.one_floppy : Env :=
  { Env.sample with
    find_entry := fun key =>
      if key = lit "FLOPPIES_FOLDER" then some (lit "/floppies") else Env.sample.find_entry key,
    dir_files := fun dir =>
      if dir = lit "/floppies" then [lit "x.st"] else Env.sample.dir_files dir }

/-- The state of the loop after the ROM listing of the sample directory: the
list holds `a.img`, `b.ROM` and `d.BIN`. -/
def State.roms_listed : State := list_roms_action Env.sample State.listing_roms

/-- A `CREATE_FLOPPY` payload with the volume name `VOL` and a zero-terminated
floppy name of 255 times the letter `A`, as the host sends them (the two bytes
of each 16-bit word exchanged). -/
def name_255_payload : List Nat :=
  [1, 0, 0, 0, 1, 0, 80, 0, 9, 0, 2, 0, 0, 0] ++
    swap_pairs (lit "VOL" ++ List.replicate 11 0 ++ List.replicate 255 65 ++ [0])

/-- An event that records an access outside its object. -/
def Event.is_overrun : Event → Bool
  | .overrun _ => true
  | _ => false

/-! # Theorems -/

theorem swap_halves_arith (v : Nat) (h : v < 2 ^ 32) :
    swap_halves v = v / 65536 + (v % 65536) * 65536 := by
  unfold swap_halves
  have h1 : (v &&& 0x0000FFFF) = v % 65536 := Nat.and_pow_two_sub_one_eq_mod v 16
  have h2 : (v &&& 0xFFFF0000) >>> 16 = v / 65536 := by
    apply Nat.eq_of_testBit_eq
    intro i
    simp only [Nat.testBit_shiftRight, Nat.testBit_and]
    have hm : (0xFFFF0000 : Nat) = (2 ^ 16 - 1) <<< 16 := by decide
    rw [hm, Nat.testBit_shiftLeft, Nat.testBit_two_pow_sub_one]
    have e : v / 65536 = v >>> 16 := by rw [Nat.shiftRight_eq_div_pow]
    rw [e, Nat.testBit_shiftRight]
    by_cases hi : i < 16
    · simp [hi]
    · have hb : v.testBit (16 + i) = false := by
        apply Nat.testBit_lt_two_pow
        calc v < 2 ^ 32 := h
          _ ≤ 2 ^ (16 + i) := Nat.pow_le_pow_right (by decide) (by omega)
      simp [hi, hb]
  rw [h1, h2, Nat.shiftLeft_eq]
  have h3 : v / 65536 < 2 ^ 16 := by omega
  have h4 : v / 65536 ||| v % 65536 * 2 ^ 16 = 2 ^ 16 * (v % 65536) + v / 65536 := by
    rw [Nat.mul_add_lt_is_or h3, Nat.or_comm, Nat.mul_comm]
  rw [h4]
  omega

/-- C2: on 32-bit words the half-word swap used to decode the token is its own
inverse, and it maps `0x00000001` to `0x00010000`. -/
theorem token_swap_round_trip (v : Nat) (h : v < 2 ^ 32) :
    swap_halves (swap_halves v) = v ∧ swap_halves 0x00000001 = 0x00010000 := by
  refine ⟨?_, by decide⟩
  rw [swap_halves_arith v h, swap_halves_arith _ (by omega)]
  omega

/-- C2 at `0x12345678`: the swap round-trips. -/
theorem token_swap_round_trip_witness :
    0x12345678 < 2 ^ 32 ∧
      (swap_halves (swap_halves 0x12345678) = 0x12345678 ∧ swap_halves 0x00000001 = 0x00010000) :=
  ⟨by decide, token_swap_round_trip 0x12345678 (by decide)⟩

theorem foldl_swap_region (f : Nat → Int) (n : Nat) (l : List Nat) (s : State) :
    ∃ w d, l.foldl (fun st i => st.swap_region (f i) n) s =
        { s with window := w, log := s.log ++ d } ∧ ∀ e ∈ d, e.is_store = true := by
  induction l generalizing s with
  | nil => exact ⟨s.window, [], by simp, by simp⟩
  | cons i rest ih =>
    obtain ⟨w, d, h, hd⟩ := ih (s.swap_region (f i) n)
    refine ⟨w, Event.store (f i) (swap_pairs (load_bytes s.window (f i) (2 * n))).length :: d, ?_, ?_⟩
    · rw [List.foldl_cons, h]
      simp [State.swap_region, State.write]
    · intro e he
      rcases List.mem_cons.mp he with rfl | h'
      · rfl
      · exact hd e h'

theorem swap_config_entries_frame (env : Env) (s : State) :
    ∃ w d, swap_config_entries env s = { s with window := w, log := s.log ++ d } ∧
      ∀ e ∈ d, e.is_store = true :=
  foldl_swap_region _ _ _ s

/-- What the handler leaves in `random_token`. -/
theorem handler_token (env : Env) (s : State) (p : TransmissionProtocol)
    (hk : p.command_id.is_known = true) :
    (handle_protocol_command env s p).random_token =
      if p.command_id = .CONNECT_NETWORK ∨ p.command_id = .DISCONNECT_NETWORK then s.random_token
      else swap_halves (u32_at p.payload) := by
  obtain ⟨cid, sz, payload⟩ := p
  cases cid
  case GET_CONFIG =>
    obtain ⟨w, d, h, -⟩ := swap_config_entries_frame env
      ((s.set_token ⟨.GET_CONFIG, sz, payload⟩).write 4 env.configData)
    simp only [handle_protocol_command]
    rw [h]
    simp [State.write_token, State.write, State.set_token, decode_token]
  case unknown id => simp [CommandId.is_known] at hk
  all_goals
    simp only [handle_protocol_command, reduceCtorEq, or_self, or_true, true_or, if_true, if_false]
    try split
    all_goals
      simp [State.write_token, State.write, State.set_token, State.call, null_words, decode_token]

/-- C3 (amended): for every known command id and every payload, after the
handler returns `random_token` is the half-word swap of the 32-bit word in
payload bytes 0..3, except for `CONNECT_NETWORK` and `DISCONNECT_NETWORK`, which
leave `random_token` as it was. -/
theorem token_decoded_except_network (env : Env) (s : State) (p : TransmissionProtocol)
    (hk : p.command_id.is_known = true) :
    (handle_protocol_command env s p).random_token =
      if p.command_id = .CONNECT_NETWORK ∨ p.command_id = .DISCONNECT_NETWORK then s.random_token
      else swap_halves (u32_at p.payload) :=
  handler_token env s p hk

/-- C3 (amended) at a concrete request: `LOAD_ROM` with the token bytes
`01 00 00 00`. -/
theorem token_decoded_except_network_witness :
    CommandId.is_known .LOAD_ROM = true ∧
      (handle_protocol_command Env.sample State.initial ⟨.LOAD_ROM, 6, [1, 0, 0, 0, 2, 0]⟩).random_token =
        if CommandId.LOAD_ROM = .CONNECT_NETWORK ∨ CommandId.LOAD_ROM = .DISCONNECT_NETWORK
        then State.initial.random_token else swap_halves (u32_at [1, 0, 0, 0, 2, 0]) :=
  ⟨rfl, token_decoded_except_network Env.sample State.initial ⟨.LOAD_ROM, 6, [1, 0, 0, 0, 2, 0]⟩ rfl⟩

/-- C3 as stated fails for `CONNECT_NETWORK`: on the initial state with the
token bytes `01 00 00 00` the handler leaves `random_token` at 0, not at the
half-word swap `0x00010000`. -/
theorem connect_network_keeps_token :
    (handle_protocol_command Env.sample State.initial
        ⟨.CONNECT_NETWORK, 4, [1, 0, 0, 0]⟩).random_token = 0 ∧
      swap_halves (u32_at [1, 0, 0, 0]) = 0x00010000 := by
  constructor
  · rfl
  · decide

/-! ## Steps that only store into the window -/

theorem stores_only_refl (s : State) : stores_only s s :=
  ⟨s.window, [], by simp, by simp⟩

theorem stores_only_trans {s t u : State} (h1 : stores_only s t) (h2 : stores_only t u) :
    stores_only s u := by
  obtain ⟨w1, d1, e1, hd1⟩ := h1
  obtain ⟨w2, d2, e2, hd2⟩ := h2
  refine ⟨w2, d1 ++ d2, ?_, ?_⟩
  · rw [e2, e1]; simp
  · intro e he
    rcases List.mem_append.mp he with h | h
    · exact hd1 e h
    · exact hd2 e h

theorem stores_only_write (s : State) (off : Int) (bs : List Nat) : stores_only s (s.write off bs) :=
  ⟨_, [Event.store off bs.length], rfl, by simp [Event.is_store]⟩

theorem stores_only_swap_region (s : State) (off : Int) (n : Nat) :
    stores_only s (s.swap_region off n) :=
  stores_only_write _ _ _

theorem stores_only_store_strings (strings : List (List Nat)) (s : State) (dest : Int) :
    stores_only s (store_strings s dest strings).1 := by
  unfold store_strings
  induction strings generalizing s dest with
  | nil => exact stores_only_refl s
  | cons str rest ih =>
    rw [List.foldl_cons]
    exact stores_only_trans (stores_only_write s dest (str ++ [0])) (ih _ _)

theorem stores_only_store_end_marker (env : Env) (s : State) (dest : Int) :
    stores_only s (store_end_marker env s dest).1 := by
  unfold store_end_marker
  split
  · exact stores_only_trans (stores_only_write _ _ _)
      (stores_only_trans (stores_only_write _ _ _) (stores_only_write _ _ _))
  · exact stores_only_trans (stores_only_write _ _ _) (stores_only_write _ _ _)

theorem stores_only_encode_list (env : Env) (s : State) (strings : List (List Nat)) (dest : Int) :
    stores_only s (encode_list env s strings dest) := by
  unfold encode_list network_swap_json_data
  exact stores_only_trans (stores_only_store_strings _ _ _)
    (stores_only_trans (stores_only_store_end_marker _ _ _) (stores_only_swap_region _ _ _))

theorem stores_only_swap_config_entries (env : Env) (s : State) :
    stores_only s (swap_config_entries env s) :=
  foldl_swap_region _ _ _ s

/-- A step that only stores, as a rewriting rule: the state after it is the
state before it with the window of the state after it and its new events. -/
theorem stores_only_eq {s t : State} (h : stores_only s t) :
    t = { s with window := t.window, log := s.log ++ new_events s t } := by
  obtain ⟨w, d, e, -⟩ := h
  rw [e]
  simp [new_events]

theorem stores_only_events {s t : State} (h : stores_only s t) :
    (new_events s t).all (fun e => !e.is_token) = true := by
  obtain ⟨w, d, e, hd⟩ := h
  rw [e]
  simp only [new_events, List.drop_left, List.all_eq_true]
  intro x hx
  have := hd x hx
  cases x <;> simp_all [Event.is_store, Event.is_token]

theorem encode_list_eq (env : Env) (s : State) (strings : List (List Nat)) (dest : Int) :
    encode_list env s strings dest =
      { s with window := (encode_list env s strings dest).window,
               log := s.log ++ new_events s (encode_list env s strings dest) } :=
  stores_only_eq (stores_only_encode_list env s strings dest)

theorem encode_list_events (env : Env) (s : State) (strings : List (List Nat)) (dest : Int) :
    (new_events s (encode_list env s strings dest)).all (fun e => !e.is_token) = true :=
  stores_only_events (stores_only_encode_list env s strings dest)

theorem encode_list_no_token (env : Env) (s : State) (strings : List (List Nat)) (dest : Int) :
    ∀ x ∈ new_events s (encode_list env s strings dest), x.is_token = false := by
  have h := encode_list_events env s strings dest
  simpa using h

theorem token_only_last_nil : token_only_last [] = true := rfl

theorem token_only_last_singleton (a : Event) : token_only_last [a] = true := rfl

theorem token_only_last_cons_cons (a b : Event) (l : List Event) :
    token_only_last (a :: b :: l) = (!a.is_token && token_only_last (b :: l)) := by
  simp [token_only_last]

theorem token_only_last_append (l1 l2 : List Event) (h : l2 ≠ []) :
    token_only_last (l1 ++ l2) = (l1.all (fun e => !e.is_token) && token_only_last l2) := by
  simp [token_only_last, List.dropLast_append_of_ne_nil _ h]

theorem token_only_last_cons_append (a : Event) (l1 l2 : List Event) (h : l2 ≠ []) :
    token_only_last (a :: (l1 ++ l2)) =
      (!a.is_token && (l1.all (fun e => !e.is_token) && token_only_last l2)) := by
  rw [← List.cons_append, token_only_last_append _ _ h]
  simp [Bool.and_assoc]

theorem token_only_last_snoc (l : List Event) (e : Event)
    (h : ∀ x ∈ l, x.is_token = false) : token_only_last (l ++ [e]) = true := by
  simp only [token_only_last, List.dropLast_concat, List.all_eq_true, Bool.not_eq_true']
  exact h

theorem token_only_last_quiet (d : List Event)
    (h : ∀ x ∈ d, x.is_token = false) : token_only_last d = true := by
  simp only [token_only_last, List.all_eq_true, Bool.not_eq_true']
  intro x hx
  exact h x (List.mem_of_mem_dropLast hx)

theorem loop_step_refl (s : State) : LoopStep s s :=
  ⟨by simp [new_events], by simp [new_events, token_only_last], rfl, rfl⟩

theorem scan_timer_step (env : Env) (s : State) : LoopStep s (scan_timer_action env s) := by
  unfold scan_timer_action
  repeat' split
  all_goals
    constructor <;>
        simp [new_events, boot_requests, State.clear, State.call, State.write_token, State.write,
          token_only_last_cons_cons, token_only_last_singleton, token_only_last_nil, Event.is_token]

theorem wifi_auth_step (env : Env) (s : State) : LoopStep s (wifi_auth_action env s) := by
  unfold wifi_auth_action
  repeat' split
  all_goals
    constructor <;>
        simp [new_events, boot_requests, State.clear, State.call, State.write_token, State.write,
          token_only_last_cons_cons, token_only_last_singleton, token_only_last_nil, Event.is_token]

theorem disconnect_step (env : Env) (s : State) : LoopStep s (disconnect_action env s) := by
  unfold disconnect_action restart_network clean_credentials
  repeat' split
  all_goals
    constructor <;>
        simp [new_events, boot_requests, State.clear, State.call, State.write_token, State.write,
          token_only_last_cons_cons, token_only_last_singleton, token_only_last_nil, Event.is_token]

theorem status_poll_step (env : Env) (s : State) : LoopStep s (status_poll_action env s) := by
  unfold status_poll_action restart_network clean_credentials
  repeat' split
  all_goals
    constructor <;>
        simp [new_events, boot_requests, State.clear, State.call, State.write_token, State.write,
          token_only_last_cons_cons, token_only_last_singleton, token_only_last_nil, Event.is_token]

theorem persist_config_step (env : Env) (s : State) : LoopStep s (persist_config_action env s) := by
  unfold persist_config_action
  repeat' split
  all_goals
    constructor <;>
        simp [new_events, boot_requests, State.clear, State.call, State.write_token, State.write,
          token_only_last_cons_cons, token_only_last_singleton, token_only_last_nil, Event.is_token]

theorem microsd_status_step (env : Env) (s : State) : LoopStep s (microsd_status_action env s) := by
  unfold microsd_status_action
  repeat' split
  all_goals
    constructor <;>
        simp [new_events, boot_requests, State.clear, State.call, State.write_token, State.write,
          State.swap_region,
          token_only_last_cons_cons, token_only_last_singleton, token_only_last_nil, Event.is_token]

theorem latest_release_step (env : Env) (s : State) : LoopStep s (latest_release_action env s) := by
  unfold latest_release_action
  repeat' split
  all_goals
    constructor <;>
        simp [new_events, boot_requests, State.clear, State.call, State.write_token, State.write,
          State.swap_region,
          token_only_last_cons_cons, token_only_last_singleton, token_only_last_nil, Event.is_token]

theorem get_json_file_step (env : Env) (s : State) : LoopStep s (get_json_file_action env s) := by
  unfold get_json_file_action
  split
  · simp only []
    constructor
    · rw [new_events, encode_list_eq]
      simp [State.clear, State.call, State.write_token, State.write]
    · rw [new_events, encode_list_eq]
      simp [State.clear, State.call, State.write_token, State.write,
        token_only_last_cons_cons, token_only_last_cons_append, token_only_last_append,
        token_only_last_singleton, Event.is_token]
      exact encode_list_no_token _ _ _ _
    · rw [encode_list_eq]
      simp [State.clear, State.call, State.write_token, State.write]
    · rw [encode_list_eq]
      simp [boot_requests, State.clear, State.call, State.write_token, State.write]
  · exact loop_step_refl s

theorem list_files_step (env : Env) (s t : State) (key : String) (allowed : List (List Nat))
    (d : List Event) (h : t.log = s.log ++ d) (hq : ∀ x ∈ d, x.is_token = false)
    (ht : t.random_token = s.random_token) (hb : boot_requests t = boot_requests s) :
    LoopStep s (list_files env t key allowed) := by
  unfold list_files store_file_list
  simp only []
  constructor
  · rw [new_events, encode_list_eq]
    simp [State.call, State.write_token, h]
  · rw [new_events, encode_list_eq]
    simp only [State.call, State.write_token, h, List.append_assoc, List.drop_left]
    rw [← List.append_assoc, ← List.append_assoc]
    apply token_only_last_snoc
    intro x hx
    simp only [List.mem_append, List.mem_singleton] at hx
    rcases hx with (hx | hx) | hx
    · exact hq x hx
    · subst hx; rfl
    · exact encode_list_no_token _ _ _ _ x hx
  · rw [encode_list_eq]
    simp [State.call, State.write_token, ht]
  · rw [encode_list_eq]
    simpa [boot_requests, State.call, State.write_token] using hb

theorem list_roms_step (env : Env) (s : State) : LoopStep s (list_roms_action env s) := by
  unfold list_roms_action
  split
  · apply list_files_step env s _ _ _ [Event.clear "list_roms"]
    · simp [State.clear]
    · simp [Event.is_token]
    · simp [State.clear]
    · simp [boot_requests, State.clear]
  · exact loop_step_refl s

theorem list_floppies_step (env : Env) (s : State) : LoopStep s (list_floppies_action env s) := by
  unfold list_floppies_action
  split
  · apply list_files_step env s _ _ _ [Event.clear "list_floppies"]
    · simp [State.clear]
    · simp [Event.is_token]
    · simp [State.clear]
    · simp [boot_requests, State.clear]
  · exact loop_step_refl s

theorem query_floppy_db_step (env : Env) (s : State) :
    LoopStep s (query_floppy_db_action env s) := by
  unfold query_floppy_db_action
  split
  · simp only []
    constructor
    · rw [new_events, encode_list_eq]
      simp [State.clear, State.call, State.write_token, State.write]
    · rw [new_events, encode_list_eq]
      simp [State.clear, State.call, State.write_token, State.write,
        token_only_last_cons_cons, token_only_last_cons_append, token_only_last_append,
        token_only_last_singleton, Event.is_token]
      exact encode_list_no_token _ _ _ _
    · rw [encode_list_eq]
      simp [State.clear, State.call, State.write_token, State.write]
    · rw [encode_list_eq]
      simp [boot_requests, State.clear, State.call, State.write_token, State.write]
  · exact loop_step_refl s

theorem create_floppy_step (env : Env) (s : State) : LoopStep s (create_floppy_action env s) := by
  unfold create_floppy_action
  split
  · by_cases h : (append_st_rw s.floppy_header.floppy_name).2 = true
    all_goals
      constructor <;>
        simp [h, new_events, boot_requests, State.clear, State.call, State.write_token, State.write,
          token_only_last_cons_cons, token_only_last_singleton, token_only_last_nil, Event.is_token]
  · exact loop_step_refl s

theorem poll_counter_step (env : Env) (s : State) : LoopStep s (poll_counter_action env s) := by
  unfold poll_counter_action
  repeat' split
  all_goals
    constructor <;>
        simp [new_events, boot_requests, token_only_last_nil]

theorem seed_step (env : Env) (s : State) : LoopStep s (seed_action env s) := by
  unfold seed_action
  constructor <;>
    simp [new_events, boot_requests, State.write, token_only_last_singleton]

/-- Every block of the loop body is a `LoopStep`. -/
theorem loop_actions_step (env : Env) (s : State) (action : Env → State → State)
    (h : action ∈ loop_actions) : LoopStep s (action env s) := by
  simp only [loop_actions, List.mem_cons, List.mem_singleton, List.not_mem_nil, or_false] at h
  rcases h with h | h | h | h | h | h | h | h | h | h | h | h | h | h <;> subst h
  · exact scan_timer_step env s
  · exact wifi_auth_step env s
  · exact disconnect_step env s
  · exact status_poll_step env s
  · exact persist_config_step env s
  · exact microsd_status_step env s
  · exact latest_release_step env s
  · exact get_json_file_step env s
  · exact list_roms_step env s
  · exact list_floppies_step env s
  · exact query_floppy_db_step env s
  · exact create_floppy_step env s
  · exact poll_counter_step env s
  · exact seed_step env s

theorem routine_step_refl (s : State) : RoutineStep s s :=
  ⟨by simp [new_events], by simp [new_events, token_only_last], rfl, rfl, rfl⟩

theorem local_rom_step (env : Env) (s : State) : RoutineStep s (local_rom_routine env s) := by
  unfold local_rom_routine State.check_index
  split
  · simp only []
    split_ifs <;> constructor <;>
      simp [new_events, State.call, State.write_token,
        token_only_last_cons_cons, token_only_last_singleton, token_only_last_nil, Event.is_token]
  · exact routine_step_refl s

theorem network_rom_step (env : Env) (s : State) : RoutineStep s (network_rom_routine env s) := by
  unfold network_rom_routine State.check_index
  split
  · simp only []
    split_ifs <;> constructor <;>
      simp [new_events, State.call, State.write_token,
        token_only_last_cons_cons, token_only_last_singleton, token_only_last_nil, Event.is_token]
  · exact routine_step_refl s

theorem local_floppy_step (env : Env) (s : State) : RoutineStep s (local_floppy_routine env s) := by
  unfold local_floppy_routine State.check_index
  split
  · simp only []
    split_ifs <;> constructor <;>
      (simp [new_events, State.call, State.write_token,
        token_only_last_cons_cons, token_only_last_singleton, token_only_last_nil, Event.is_token]
       try (split_ifs <;>
        simp [new_events, State.call, State.write_token,
          token_only_last_cons_cons, token_only_last_singleton, token_only_last_nil,
          Event.is_token]))
  · exact routine_step_refl s

theorem floppy_download_step (env : Env) (s : State) :
    RoutineStep s (floppy_download_routine env s) := by
  unfold floppy_download_routine State.check_index
  split
  · simp only []
    split_ifs <;> constructor <;>
      simp [new_events, State.call, State.write_token, State.write,
        token_only_last_cons_cons, token_only_last_singleton, token_only_last_nil, Event.is_token]
  · exact routine_step_refl s

theorem rtc_boot_step (env : Env) (s : State) : RoutineStep s (rtc_boot_routine env s) := by
  unfold rtc_boot_routine
  split
  · constructor <;>
      simp [new_events, State.call, State.write_token,
        token_only_last_cons_cons, token_only_last_singleton, token_only_last_nil, Event.is_token]
  · exact routine_step_refl s

theorem reset_step (env : Env) (s : State) : RoutineStep s (reset_routine env s) := by
  unfold reset_routine
  split
  · constructor <;>
      simp [new_events, State.call, State.write_token,
        token_only_last_cons_cons, token_only_last_singleton, token_only_last_nil, Event.is_token]
  · exact routine_step_refl s

/-- Every routine of the stage after the loop is a `RoutineStep`. -/
theorem post_loop_routines_step (env : Env) (s : State) (routine : Env → State → State)
    (h : routine ∈ post_loop_routines) : RoutineStep s (routine env s) := by
  simp only [post_loop_routines, List.mem_cons, List.mem_singleton, List.not_mem_nil, or_false] at h
  rcases h with h | h | h | h | h | h <;> subst h
  · exact local_rom_step env s
  · exact network_rom_step env s
  · exact local_floppy_step env s
  · exact floppy_download_step env s
  · exact rtc_boot_step env s
  · exact reset_step env s

theorem token_store_last_of_only_last (d : List Event) (h : token_only_last d = true) :
    token_store_last d := by
  intro pre v post hd e he
  exfalso
  have hne : post ≠ [] := List.ne_nil_of_mem he
  have hmem : Event.token v ∈ d.dropLast := by
    rw [hd, List.dropLast_append_of_ne_nil _ (by simp), List.dropLast_cons_of_ne_nil hne]
    simp
  simp only [token_only_last, List.all_eq_true, Bool.not_eq_true'] at h
  have := h _ hmem
  simp [Event.is_token] at this

theorem swap_config_entries_eq (env : Env) (s : State) :
    swap_config_entries env s =
      { s with window := (swap_config_entries env s).window,
               log := s.log ++ new_events s (swap_config_entries env s) } :=
  stores_only_eq (stores_only_swap_config_entries env s)

theorem swap_config_entries_no_token (env : Env) (s : State) :
    ∀ x ∈ new_events s (swap_config_entries env s), x.is_token = false := by
  have h := stores_only_events (stores_only_swap_config_entries env s)
  simpa using h

/-- Every case of the handler only appends events, and a token store is the
last of them. -/
theorem handler_step (env : Env) (s : State) (p : TransmissionProtocol) :
    (handle_protocol_command env s p).log = s.log ++ new_events s (handle_protocol_command env s p) ∧
      token_only_last (new_events s (handle_protocol_command env s p)) = true := by
  obtain ⟨cid, sz, payload⟩ := p
  cases cid
  case GET_CONFIG =>
    simp only [handle_protocol_command]
    constructor
    · rw [new_events, swap_config_entries_eq]
      simp [State.write_token, State.write, State.set_token]
    · rw [new_events, swap_config_entries_eq]
      simp [State.write_token, State.write, State.set_token,
        token_only_last_cons_cons, token_only_last_cons_append, token_only_last_append,
        token_only_last_singleton, Event.is_token]
      exact swap_config_entries_no_token _ _
  all_goals
    simp only [handle_protocol_command]
    try split
    all_goals
      constructor <;>
      simp [new_events, State.write_token, State.write, State.set_token, State.call, null_words,
        token_only_last_cons_cons, token_only_last_singleton, token_only_last_nil, Event.is_token]

/-- C1: in every case of `handle_protocol_command`, in every block of the loop
body of `init_firmware` and in every routine of the stage after the loop, the
events the case, block or routine appends to the log have the token store as
the last write to the shared window: nothing after a token store is a store
into the window. -/
theorem token_store_is_last_write (env : Env) (s : State) :
    (∀ p : TransmissionProtocol,
      (handle_protocol_command env s p).log =
          s.log ++ new_events s (handle_protocol_command env s p) ∧
        token_store_last (new_events s (handle_protocol_command env s p))) ∧
    (∀ action ∈ loop_actions,
      (action env s).log = s.log ++ new_events s (action env s) ∧
        token_store_last (new_events s (action env s))) ∧
    (∀ routine ∈ post_loop_routines,
      (routine env s).log = s.log ++ new_events s (routine env s) ∧
        token_store_last (new_events s (routine env s))) := by
  refine ⟨fun p => ?_, fun action h => ?_, fun routine h => ?_⟩
  · exact ⟨(handler_step env s p).1, token_store_last_of_only_last _ (handler_step env s p).2⟩
  · have hs := loop_actions_step env s action h
    exact ⟨hs.log_eq, token_store_last_of_only_last _ hs.token_last⟩
  · have hs := post_loop_routines_step env s routine h
    exact ⟨hs.log_eq, token_store_last_of_only_last _ hs.token_last⟩

/-- C1 at a concrete routine: the reset routine on a state with `reset_default`
set appends the call of `reset_config_default` and then the token store, and
the token store is the last write among them. -/
theorem token_store_is_last_write_witness :
    new_events State.rom_and_reset (reset_routine Env.sample State.rom_and_reset) =
        [Event.call "reset_config_default" [], Event.token 7] ∧
      token_store_last
        (new_events State.rom_and_reset (reset_routine Env.sample State.rom_and_reset)) :=
  ⟨by decide,
    ((token_store_is_last_write Env.sample State.rom_and_reset).2.2 reset_routine
      (by simp [post_loop_routines])).2⟩

/-! ## The window -/

theorem load_bytes_length (w : Window) (off : Int) (n : Nat) : (load_bytes w off n).length = n := by
  simp [load_bytes]

theorem store_bytes_inside (w : Window) (off : Int) (bs : List Nat) (k : Nat) (hk : k < bs.length) :
    store_bytes w off bs (off + k) = bs.getD k 0 := by
  unfold store_bytes
  have h1 : off ≤ off + (k : Int) ∧ off + (k : Int) < off + (bs.length : Int) := by omega
  rw [if_pos h1]
  congr 1
  omega

theorem store_bytes_outside (w : Window) (off : Int) (bs : List Nat) (i : Int)
    (h : i < off ∨ off + bs.length ≤ i) : store_bytes w off bs i = w i := by
  unfold store_bytes
  rw [if_neg]
  omega

theorem load_store_same (w : Window) (off : Int) (bs : List Nat) :
    load_bytes (store_bytes w off bs) off bs.length = bs := by
  apply List.ext_getElem
  · simp [load_bytes]
  · intro k h1 h2
    simp only [load_bytes, List.getElem_map, List.getElem_range]
    rw [store_bytes_inside w off bs k h2, List.getD_eq_getElem _ _ h2]

theorem load_store_disjoint (w : Window) (off off2 : Int) (bs : List Nat) (n : Nat)
    (h : off2 + n ≤ off ∨ off + bs.length ≤ off2) :
    load_bytes (store_bytes w off bs) off2 n = load_bytes w off2 n := by
  apply List.ext_getElem
  · simp [load_bytes]
  · intro k h1 h2
    simp only [load_bytes_length] at h1
    simp only [load_bytes, List.getElem_map, List.getElem_range]
    apply store_bytes_outside
    omega

theorem swap_pairs_length (l : List Nat) : (swap_pairs l).length = l.length := by
  induction l using swap_pairs.induct with
  | case1 a b rest ih => simp [swap_pairs, ih]
  | case2 rest h =>
    unfold swap_pairs
    split
    · exact absurd rfl (h _ _ _)
    · rfl

theorem u16_at_lt (p : List Nat) (i : Nat) : u16_at p i < 2 ^ 16 := by
  unfold u16_at
  exact Nat.mod_lt _ (by decide)

theorem local_floppy_serviced (env : Env) (s : State) (h : s.floppy_file_selected > 0) :
    (new_events s (local_floppy_routine env s)).getLast? = some (Event.token s.random_token) := by
  unfold local_floppy_routine State.check_index
  rw [if_pos h]
  simp only []
  split_ifs <;>
    (simp [new_events, State.call, State.write_token]
     try (split_ifs <;> simp [new_events, State.call, State.write_token]))

theorem floppy_download_serviced (env : Env) (s : State) (h : s.floppy_image_selected > 0) :
    (new_events s (floppy_download_routine env s)).getLast? = some (Event.token s.random_token) := by
  unfold floppy_download_routine State.check_index
  rw [if_pos h]
  simp only []
  split_ifs <;> simp [new_events, State.call, State.write_token, State.write]

theorem null_words_window (s : State) (n : Nat) (i : Int) (h0 : 0 ≤ i) (hn : i < n) :
    (null_words s 0 n).window i = 0 := by
  obtain ⟨k, rfl⟩ : ∃ k : Nat, i = k := ⟨i.toNat, by omega⟩
  have hk : k < n := by omega
  simp only [null_words, State.write]
  have := store_bytes_inside s.window 0 (List.replicate n 0) k (by simpa using hk)
  simp only [zero_add] at this
  rw [this]
  simp [List.getD_eq_getElem?_getD, hk]

/-- What the handler does for a storage-gated command while the SD card is not
mounted. -/
theorem unmounted_handler (env : Env) (s : State) (p : TransmissionProtocol)
    (hc : p.command_id ∈ storage_gated) (hm : s.microsd_mounted = false) :
    (p.command_id ≠ .DOWNLOAD_FLOPPY →
      handle_protocol_command env s p =
        { s with
          random_token := decode_token p.payload,
          window := (null_words s 0 env.CONFIGURATOR_SHARED_MEMORY_SIZE_BYTES).window,
          log := s.log ++ [Event.store 0 env.CONFIGURATOR_SHARED_MEMORY_SIZE_BYTES] }) ∧
    (p.command_id = .DOWNLOAD_FLOPPY →
      handle_protocol_command env s p =
        { s with
          random_token := decode_token p.payload,
          floppy_image_selected_status := 1,
          floppy_image_selected := 0,
          window := (null_words s 0 env.CONFIGURATOR_SHARED_MEMORY_SIZE_BYTES).window,
          log := s.log ++ [Event.store 0 env.CONFIGURATOR_SHARED_MEMORY_SIZE_BYTES] }) := by
  obtain ⟨cid, sz, payload⟩ := p
  simp only [storage_gated, List.mem_cons, List.mem_singleton, List.not_mem_nil, or_false] at hc
  rcases hc with h | h | h | h | h | h <;> subst h <;>
    simp [handle_protocol_command, State.set_token, null_words, State.write, hm]

/-- C7: `LOAD_ROM` handled while the SD card is not mounted leaves every byte
of the shared window zero, changes no module variable other than
`random_token` (so `rom_file_selected` and every pending flag keep their
values), and appends a single event, the zeroing store: no token store. -/
theorem load_rom_unmounted (env : Env) (s : State) (p : TransmissionProtocol)
    (hc : p.command_id = .LOAD_ROM) (hm : s.microsd_mounted = false) :
    (∀ i : Int, 0 ≤ i → i < env.CONFIGURATOR_SHARED_MEMORY_SIZE_BYTES →
      (handle_protocol_command env s p).window i = 0) ∧
    handle_protocol_command env s p =
      { s with
        random_token := decode_token p.payload,
        window := (handle_protocol_command env s p).window,
        log := s.log ++ [Event.store 0 env.CONFIGURATOR_SHARED_MEMORY_SIZE_BYTES] } ∧
    (handle_protocol_command env s p).rom_file_selected = s.rom_file_selected ∧
    new_events s (handle_protocol_command env s p) =
      [Event.store 0 env.CONFIGURATOR_SHARED_MEMORY_SIZE_BYTES] := by
  have h := (unmounted_handler env s p (by rw [hc]; simp [storage_gated]) hm).1
    (by rw [hc]; simp)
  rw [h]
  refine ⟨fun i h0 hn => null_words_window s _ i h0 hn, rfl, rfl, ?_⟩
  simp [new_events]

/-- C7 at a concrete request: `LOAD_ROM` on the initial state, where the SD card
is not mounted. -/
theorem load_rom_unmounted_witness :
    State.initial.microsd_mounted = false ∧
      new_events State.initial
          (handle_protocol_command Env.sample State.initial ⟨.LOAD_ROM, 6, [1, 0, 0, 0, 2, 0]⟩) =
        [Event.store 0 64] :=
  ⟨rfl, (load_rom_unmounted Env.sample State.initial ⟨.LOAD_ROM, 6, [1, 0, 0, 0, 2, 0]⟩ rfl rfl).2.2.2⟩

theorem loop_guard_congr (s t : State) (h : boot_requests t = boot_requests s) :
    loop_guard t = loop_guard s := by
  simp only [boot_requests, Prod.mk.injEq] at h
  obtain ⟨h1, h2, h3, h4, h5, h6⟩ := h
  simp [loop_guard, h1, h2, h3, h4, h5, h6]

theorem handler_boot_requests (env : Env) (s : State) (p : TransmissionProtocol)
    (h : p.command_id ∉ boot_selecting) :
    boot_requests (handle_protocol_command env s p) = boot_requests s := by
  obtain ⟨cid, sz, payload⟩ := p
  cases cid
  case GET_CONFIG =>
    simp only [handle_protocol_command]
    rw [swap_config_entries_eq]
    simp [boot_requests, State.write_token, State.write, State.set_token]
  all_goals
    first
    | (exfalso; apply h; simp [boot_selecting]; done)
    | (simp only [handle_protocol_command]
       try split
       all_goals
         simp [boot_requests, State.write_token, State.write, State.set_token, State.call,
           null_words])

theorem foldl_handler_boot_requests (env : Env) (triggers : List TransmissionProtocol) (s : State)
    (h : ∀ p ∈ triggers, p.command_id ∉ boot_selecting) :
    boot_requests (triggers.foldl (handle_protocol_command env) s) = boot_requests s := by
  induction triggers generalizing s with
  | nil => rfl
  | cons p rest ih =>
    rw [List.foldl_cons, ih _ (fun q hq => h q (List.mem_cons_of_mem _ hq))]
    exact handler_boot_requests env s p (h p (List.mem_cons_self _ _))

theorem foldl_actions_boot_requests (env : Env) (actions : List (Env → State → State))
    (h : ∀ action ∈ actions, ∀ u : State, boot_requests (action env u) = boot_requests u)
    (s : State) :
    boot_requests (actions.foldl (fun st action => action env st) s) = boot_requests s := by
  induction actions generalizing s with
  | nil => rfl
  | cons a rest ih =>
    rw [List.foldl_cons, ih (fun b hb => h b (List.mem_cons_of_mem _ hb))]
    exact h a (List.mem_cons_self _ _) s

theorem loop_body_boot_requests (env : Env) (s : State) :
    boot_requests (loop_body env s) = boot_requests s :=
  foldl_actions_boot_requests env loop_actions
    (fun action h u => (loop_actions_step env u action h).boot_requests) s

theorem pre_loop_boot_requests (env : Env) (s : State) :
    boot_requests (pre_loop env s) = boot_requests s := by
  unfold pre_loop
  simp only []
  repeat' split
  all_goals simp [boot_requests, State.call]

theorem firmware_loop_runs_on (passes : List Pass) (s : State)
    (h : ∀ q ∈ passes, ∀ p ∈ q.triggers, p.command_id ∉ boot_selecting)
    (hg : loop_guard s = true) : firmware_loop passes s = none := by
  induction passes generalizing s with
  | nil => simp [firmware_loop, hg]
  | cons q rest ih =>
    rw [firmware_loop, if_pos hg]
    apply ih _ (fun r hr => h r (List.mem_cons_of_mem _ hr))
    rw [← hg]
    apply loop_guard_congr
    unfold loop_pass
    rw [loop_body_boot_requests]
    exact foldl_handler_boot_requests q.env q.triggers s (h q (List.mem_cons_self _ _))

/-! ## The stage after the loop -/

theorem local_rom_events (env : Env) (s : State) (h : s.rom_file_selected > 0) :
    ∃ pre, new_events s (local_rom_routine env s) =
      pre ++ [Event.call "put_string" [.str (lit "BOOT_FEATURE"), .str (lit "ROM_EMULATOR")],
        Event.call "write_all_entries" [], Event.token s.random_token] := by
  unfold local_rom_routine State.check_index
  rw [if_pos h]
  simp only []
  split_ifs
  · exact ⟨[Event.call "save_and_disable_interrupts" [],
      Event.call "flash_range_erase"
        [.num env.FLASH_ROM_LOAD_OFFSET, .num (env.ROM_SIZE_BYTES * 2 : Nat)],
      Event.call "restore_interrupts" [],
      Event.call "load_rom_from_fs"
        [.str (cstr (config_value env "ROMS_FOLDER")),
         .str (element_at s.filtered_local_list s.rom_file_selected).1,
         .num env.FLASH_ROM_LOAD_OFFSET],
      Event.call "release_memory_files" [.str (lit "file_list")],
      Event.call "release_memory_files" [.str (lit "filtered_local_list")]],
      by simp [new_events, State.call, State.write_token]⟩
  · exact ⟨[Event.call "save_and_disable_interrupts" [],
      Event.call "flash_range_erase"
        [.num env.FLASH_ROM_LOAD_OFFSET, .num (env.ROM_SIZE_BYTES * 2 : Nat)],
      Event.call "restore_interrupts" [],
      Event.overrun "filtered_local_list",
      Event.call "load_rom_from_fs"
        [.str (cstr (config_value env "ROMS_FOLDER")),
         .str (element_at s.filtered_local_list s.rom_file_selected).1,
         .num env.FLASH_ROM_LOAD_OFFSET],
      Event.call "release_memory_files" [.str (lit "file_list")],
      Event.call "release_memory_files" [.str (lit "filtered_local_list")]],
      by simp [new_events, State.call, State.write_token]⟩

theorem reset_events (env : Env) (s : State) (h : s.reset_default = true) :
    new_events s (reset_routine env s) =
      [Event.call "reset_config_default" [], Event.token s.random_token] := by
  simp [reset_routine, h, new_events, State.call, State.write_token]

/-- The log of the stage after the loop: the events of the local-ROM routine,
then those of the next four routines, then those of the reset routine, then
the call of `terminate_protocol_parser`; the state the reset routine starts
from has the `reset_default` and the `random_token` of the start. -/
theorem post_loop_chain (env : Env) (s : State) :
    ∃ (u : State) (mid : List Event),
      new_events s (post_loop env s) =
        new_events s (local_rom_routine env s) ++ mid ++ new_events u (reset_routine env u) ++
          [Event.call "terminate_protocol_parser" []] ∧
      u.reset_default = s.reset_default ∧ u.random_token = s.random_token := by
  have hlog : (post_loop env s).log =
      (reset_routine env (rtc_boot_routine env (floppy_download_routine env
        (local_floppy_routine env (network_rom_routine env (local_rom_routine env s)))))).log ++
        [Event.call "terminate_protocol_parser" []] := rfl
  have h1 := local_rom_step env s
  generalize local_rom_routine env s = s1 at h1 hlog ⊢
  have h2 := network_rom_step env s1
  generalize network_rom_routine env s1 = s2 at h2 hlog
  have h3 := local_floppy_step env s2
  generalize local_floppy_routine env s2 = s3 at h3 hlog
  have h4 := floppy_download_step env s3
  generalize floppy_download_routine env s3 = s4 at h4 hlog
  have h5 := rtc_boot_step env s4
  generalize rtc_boot_routine env s4 = s5 at h5 hlog
  have h6 := reset_step env s5
  refine ⟨s5, new_events s1 s2 ++ new_events s2 s3 ++ new_events s3 s4 ++ new_events s4 s5,
    ?_, ?_, ?_⟩
  · conv_lhs => rw [new_events, hlog, h6.log_eq, h5.log_eq, h4.log_eq, h3.log_eq, h2.log_eq, h1.log_eq]
    simp only [List.append_assoc, List.drop_left]
  · rw [h5.reset_default, h4.reset_default, h3.reset_default, h2.reset_default, h1.reset_default]
  · rw [h5.random_token, h4.random_token, h3.random_token, h2.random_token, h1.random_token]

theorem firmware_loop_exit (passes : List Pass) (s : State) (h : loop_guard s = false) :
    firmware_loop passes s = some s := by
  cases passes <;> simp [firmware_loop, h]

theorem load_rom_mounted (env : Env) (s : State) (p : TransmissionProtocol)
    (hc : p.command_id = .LOAD_ROM) (hm : s.microsd_mounted = true) :
    handle_protocol_command env s p =
      { s with random_token := decode_token p.payload, rom_file_selected := u16_at p.payload 4 } := by
  obtain ⟨cid, sz, payload⟩ := p
  simp only at hc
  subst hc
  simp [handle_protocol_command, State.set_token, hm]

/-- C9 (amended): when at loop exit both a local ROM selection
(`rom_file_selected > 0`) and `reset_default` are set, the stage after the loop
runs the local-ROM routine first (boot feature, persist, token) and later also
the reset routine: `reset_config_default` is called and the token is stored
again, just before `terminate_protocol_parser`. The routines run in the order
local ROM, network ROM, local floppy, floppy download, RTC emulator, reset,
each one whose own selection is set. -/
theorem rom_and_reset_both_serviced (env : Env) (s : State)
    (hrom : s.rom_file_selected > 0) (hreset : s.reset_default = true) :
    (∃ pre mid,
      new_events s (post_loop env s) =
        pre ++ [Event.call "put_string" [.str (lit "BOOT_FEATURE"), .str (lit "ROM_EMULATOR")],
          Event.call "write_all_entries" [], Event.token s.random_token] ++ mid ++
        [Event.call "reset_config_default" [], Event.token s.random_token,
          Event.call "terminate_protocol_parser" []]) ∧
    Event.call "reset_config_default" [] ∈ (post_loop env s).log ∧
    post_loop env s =
      (reset_routine env (rtc_boot_routine env (floppy_download_routine env
        (local_floppy_routine env (network_rom_routine env (local_rom_routine env s)))))).call
        "terminate_protocol_parser" [] := by
  obtain ⟨u, mid, hchain, hu1, hu2⟩ := post_loop_chain env s
  obtain ⟨pre, hpre⟩ := local_rom_events env s hrom
  have hr := reset_events env u (by rw [hu1]; exact hreset)
  have hev : new_events s (post_loop env s) =
      pre ++ [Event.call "put_string" [.str (lit "BOOT_FEATURE"), .str (lit "ROM_EMULATOR")],
          Event.call "write_all_entries" [], Event.token s.random_token] ++ mid ++
        [Event.call "reset_config_default" [], Event.token s.random_token,
          Event.call "terminate_protocol_parser" []] := by
    rw [hchain, hpre, hr, hu2]
    simp only [List.append_assoc, List.cons_append, List.nil_append]
  refine ⟨⟨pre, mid, hev⟩, ?_, rfl⟩
  have hsub : ∀ e ∈ new_events s (post_loop env s), e ∈ (post_loop env s).log :=
    fun e he => List.mem_of_mem_drop he
  apply hsub
  rw [hev]
  simp

/-- C9 (amended) at a concrete state: local ROM 1 and reset both selected. -/
theorem rom_and_reset_both_serviced_witness :
    State.rom_and_reset.rom_file_selected > 0 ∧ State.rom_and_reset.reset_default = true ∧
      Event.call "reset_config_default" [] ∈ (post_loop Env.sample State.rom_and_reset).log :=
  ⟨by decide, rfl,
    (rom_and_reset_both_serviced Env.sample State.rom_and_reset (by decide) rfl).2.1⟩

/-- C9 as stated fails: with local ROM 1 and reset both selected at loop exit,
the stage after the loop runs the local-ROM routine and then calls
`reset_config_default` as well. -/
theorem reset_runs_after_local_rom :
    State.rom_and_reset.rom_file_selected > 0 ∧ State.rom_and_reset.reset_default = true ∧
      (post_loop Env.sample State.rom_and_reset).log =
        [Event.call "save_and_disable_interrupts" [],
         Event.call "flash_range_erase" [.num 0xE0000, .num 0x20000],
         Event.call "restore_interrupts" [],
         Event.call "load_rom_from_fs" [.str (lit "/roms"), .str (lit "a.img"), .num 0xE0000],
         Event.call "release_memory_files" [.str (lit "file_list")],
         Event.call "release_memory_files" [.str (lit "filtered_local_list")],
         Event.call "put_string" [.str (lit "BOOT_FEATURE"), .str (lit "ROM_EMULATOR")],
         Event.call "write_all_entries" [],
         Event.token 7,
         Event.call "reset_config_default" [],
         Event.token 7,
         Event.call "terminate_protocol_parser" []] := by
  refine ⟨by decide, rfl, by decide⟩

/-! ## The order of the flag reset and the work (C11) -/

/-- C11 (amended): in the seven blocks of the loop that are armed by a flag
(persist config, SD status, latest release, JSON index, list ROMs, list
floppies, floppy database query) the flag is reset before any collaborator is
called: the reset is the first event of the block and the flag is false
afterwards. The two blocks that are armed by a parameter read it during their
work and reset it afterwards: the credentials block resets `wifi_auth` as its
last event, after `network_connect`, and the create-floppy block resets
`floppy_header.template` after `create_blank_ST_image`, just before the token
store. -/
theorem flags_cleared_before_work (env : Env) (s : State) :
    (s.persist_config = true →
      cleared_first (new_events s (persist_config_action env s)) "persist_config" ∧
      (persist_config_action env s).persist_config = false) ∧
    (s.microsd_status = true →
      cleared_first (new_events s (microsd_status_action env s)) "microsd_status" ∧
      (microsd_status_action env s).microsd_status = false) ∧
    (s.latest_release = true →
      cleared_first (new_events s (latest_release_action env s)) "latest_release" ∧
      (latest_release_action env s).latest_release = false) ∧
    (s.get_json_file = true →
      cleared_first (new_events s (get_json_file_action env s)) "get_json_file" ∧
      (get_json_file_action env s).get_json_file = false) ∧
    (s.list_roms = true →
      cleared_first (new_events s (list_roms_action env s)) "list_roms" ∧
      (list_roms_action env s).list_roms = false) ∧
    (s.list_floppies = true →
      cleared_first (new_events s (list_floppies_action env s)) "list_floppies" ∧
      (list_floppies_action env s).list_floppies = false) ∧
    (s.query_floppy_db = true →
      cleared_first (new_events s (query_floppy_db_action env s)) "query_floppy_db" ∧
      (query_floppy_db_action env s).query_floppy_db = false) ∧
    (∀ auth, s.wifi_auth = some auth →
      new_events s (wifi_auth_action env s) =
        [Event.call "put_string" [.str (lit "WIFI_SSID"), .str auth.ssid],
         Event.call "put_string" [.str (lit "WIFI_PASSWORD"), .str auth.password],
         Event.call "put_integer" [.str (lit "WIFI_AUTH"), .num auth.auth_mode],
         Event.call "write_all_entries" [],
         Event.call "network_connect" [.flag true],
         Event.clear "wifi_auth"] ∧
      (wifi_auth_action env s).wifi_auth = none) ∧
    (s.floppy_header.template > 0 →
      (∃ pre args, new_events s (create_floppy_action env s) =
        pre ++ [Event.call "create_blank_ST_image" args, Event.clear "floppy_header.template",
          Event.token s.random_token]) ∧
      (create_floppy_action env s).floppy_header.template = 0) := by
  refine ⟨?_, ?_, ?_, ?_, ?_, ?_, ?_, ?_, ?_⟩
  · intro h
    simp [cleared_first, persist_config_action, h, new_events, State.clear, State.call,
      State.write_token]
  · intro h
    simp [cleared_first, microsd_status_action, h, new_events, State.clear, State.call,
      State.write_token, State.write, State.swap_region]
  · intro h
    unfold latest_release_action
    rw [if_pos h]
    simp only []
    constructor
    · repeat' split
      all_goals
        simp [cleared_first, new_events, State.clear, State.call, State.write_token, State.write,
          State.swap_region]
    · repeat' split
      all_goals
        simp [State.clear, State.call, State.write_token, State.write, State.swap_region]
  · intro h
    unfold get_json_file_action
    rw [if_pos h]
    simp only []
    constructor
    · rw [new_events, encode_list_eq]
      simp [cleared_first, State.clear, State.call, State.write_token, State.write]
    · rw [encode_list_eq]
      simp [State.clear, State.call, State.write_token, State.write]
  · intro h
    unfold list_roms_action list_files store_file_list
    rw [if_pos h]
    simp only []
    constructor
    · rw [new_events, encode_list_eq]
      simp [cleared_first, State.clear, State.call, State.write_token]
    · rw [encode_list_eq]
      simp [State.clear, State.call, State.write_token]
  · intro h
    unfold list_floppies_action list_files store_file_list
    rw [if_pos h]
    simp only []
    constructor
    · rw [new_events, encode_list_eq]
      simp [cleared_first, State.clear, State.call, State.write_token]
    · rw [encode_list_eq]
      simp [State.clear, State.call, State.write_token]
  · intro h
    unfold query_floppy_db_action
    rw [if_pos h]
    simp only []
    constructor
    · rw [new_events, encode_list_eq]
      simp [cleared_first, State.clear, State.call, State.write_token, State.write]
    · rw [encode_list_eq]
      simp [State.clear, State.call, State.write_token, State.write]
  · intro auth h
    simp [wifi_auth_action, h, new_events, State.clear, State.call]
  · intro h
    unfold create_floppy_action
    rw [if_pos h]
    constructor
    · by_cases hr : (append_st_rw s.floppy_header.floppy_name).2 = true
      · exact ⟨[],
          [.str (cstr (config_value env "FLOPPIES_FOLDER")),
           .str (cstr (append_st_rw s.floppy_header.floppy_name).1),
           .num s.floppy_header.num_tracks, .num s.floppy_header.num_sectors,
           .num s.floppy_header.num_sides, .str (cstr s.floppy_header.volume_name),
           .num s.floppy_header.overwrite],
          by simp [hr, new_events, State.clear, State.call, State.write_token]⟩
      · exact ⟨[Event.overrun "floppy_header.floppy_name"],
          [.str (cstr (config_value env "FLOPPIES_FOLDER")),
           .str (cstr (append_st_rw s.floppy_header.floppy_name).1),
           .num s.floppy_header.num_tracks, .num s.floppy_header.num_sectors,
           .num s.floppy_header.num_sides, .str (cstr s.floppy_header.volume_name),
           .num s.floppy_header.overwrite],
          by simp [hr, new_events, State.clear, State.call, State.write_token]⟩
    · by_cases hr : (append_st_rw s.floppy_header.floppy_name).2 = true <;>
        simp [hr, State.clear, State.call, State.write_token]

/-- C11 as stated fails for the pending network credentials: the block calls
`put_string`, `put_integer`, `write_all_entries` and `network_connect` while
`wifi_auth` is still set and resets it as its last step. -/
theorem credentials_cleared_after_connect :
    new_events State.pending_credentials
        (wifi_auth_action Env.sample State.pending_credentials) =
      [Event.call "put_string" [.str (lit "WIFI_SSID"), .str (lit "net")],
       Event.call "put_string" [.str (lit "WIFI_PASSWORD"), .str (lit "pw")],
       Event.call "put_integer" [.str (lit "WIFI_AUTH"), .num 3],
       Event.call "write_all_entries" [],
       Event.call "network_connect" [.flag true],
       Event.clear "wifi_auth"] := by
  decide

/-- C11 (amended) at a concrete state: pending credentials on the sample
environment. -/
theorem flags_cleared_before_work_witness :
    (wifi_auth_action Env.sample State.pending_credentials).wifi_auth = none :=
  ((flags_cleared_before_work Env.sample State.pending_credentials).2.2.2.2.2.2.2.1 _ rfl).2

/-! ## The boot feature after a failed load (C12) -/

/-- C12 fails on the code for the two ROM routines: with a ROM load, or a ROM
download, that reports failure, the routine still registers the boot feature
(`put_string("BOOT_FEATURE", "ROM_EMULATOR")` and `write_all_entries`) before it
stores the token. -/
theorem rom_registered_after_failed_load :
    Env.failing_rom.load_rom_from_fs_result ≠ 0 ∧ Env.failing_rom.download_rom_result ≠ 0 ∧
    new_events State.rom_and_reset (local_rom_routine Env.failing_rom State.rom_and_reset) =
      [Event.call "save_and_disable_interrupts" [],
       Event.call "flash_range_erase" [.num 0xE0000, .num 0x20000],
       Event.call "restore_interrupts" [],
       Event.call "load_rom_from_fs" [.str (lit "/roms"), .str (lit "a.img"), .num 0xE0000],
       Event.call "release_memory_files" [.str (lit "file_list")],
       Event.call "release_memory_files" [.str (lit "filtered_local_list")],
       Event.call "put_string" [.str (lit "BOOT_FEATURE"), .str (lit "ROM_EMULATOR")],
       Event.call "write_all_entries" [],
       Event.token 7] ∧
    new_events State.network_rom_selected
        (network_rom_routine Env.failing_rom State.network_rom_selected) =
      [Event.call "download_rom" [.str (lit "http://x/a"), .num 0xE0000],
       Event.call "put_string" [.str (lit "BOOT_FEATURE"), .str (lit "ROM_EMULATOR")],
       Event.call "write_all_entries" [],
       Event.token 7] := by
  refine ⟨by decide, by decide, by decide, by decide⟩

/-- The two floppy routines do what C12 says: when the conversion from MSA, or
the download, reports failure, the routine stores the token as its last event
and calls neither `put_string` nor `write_all_entries`. -/
theorem floppy_not_registered_after_failure (env : Env) (s : State) :
    (s.floppy_image_selected > 0 → env.download_floppy_result ≠ 0 →
      (new_events s (floppy_download_routine env s)).getLast? = some (Event.token s.random_token) ∧
      ∀ e ∈ new_events s (floppy_download_routine env s), ∀ args,
        e ≠ Event.call "put_string" args ∧ e ≠ Event.call "write_all_entries" args) ∧
    (s.floppy_file_selected > 0 → env.msa_to_st_result ≠ 0 →
      strcasecmp_eq
        ((element_at s.filtered_local_list s.floppy_file_selected).1.drop
          ((element_at s.filtered_local_list s.floppy_file_selected).1.length - 4))
        (lit ".MSA") = true →
      (element_at s.filtered_local_list s.floppy_file_selected).1.length > 4 →
      (new_events s (local_floppy_routine env s)).getLast? = some (Event.token s.random_token) ∧
      ∀ e ∈ new_events s (local_floppy_routine env s), ∀ args,
        e ≠ Event.call "put_string" args ∧ e ≠ Event.call "write_all_entries" args) := by
  constructor
  · intro h herr
    refine ⟨floppy_download_serviced env s h, ?_⟩
    unfold floppy_download_routine State.check_index
    rw [if_pos h]
    simp only []
    split_ifs <;>
      simp [new_events, State.call, State.write_token, State.write]
  · intro h herr hmsa hlen
    refine ⟨local_floppy_serviced env s h, ?_⟩
    have his : (decide ((element_at s.filtered_local_list s.floppy_file_selected).1.length > 4) &&
        strcasecmp_eq
          ((element_at s.filtered_local_list s.floppy_file_selected).1.drop
            ((element_at s.filtered_local_list s.floppy_file_selected).1.length - 4))
          (lit ".MSA")) = true := by
      simp [hlen, hmsa]
    unfold local_floppy_routine State.check_index
    rw [if_pos h]
    simp only [his, if_true, herr, ne_eq, not_false_eq_true]
    split_ifs <;>
      simp [new_events, State.call, State.write_token]

/-! ## Unknown commands and the DMA callback (C13, C14) -/

/-- C13: for every command id that matches none of the case labels and every
payload, the handler returns the state it was given: no module variable
changes, nothing is stored into the window and nothing is logged. -/
theorem unknown_command_no_effect (env : Env) (s : State) (p : TransmissionProtocol)
    (h : p.command_id.is_known = false) : handle_protocol_command env s p = s := by
  obtain ⟨cid, sz, payload⟩ := p
  cases cid <;> simp [CommandId.is_known] at h
  rfl

/-- C13 at a concrete request: the id 999 with four payload bytes. -/
theorem unknown_command_no_effect_witness :
    CommandId.is_known (.unknown 999) = false ∧
      handle_protocol_command Env.sample State.mounted ⟨.unknown 999, 4, [1, 2, 3, 4]⟩ =
        State.mounted :=
  ⟨rfl, unknown_command_no_effect Env.sample State.mounted ⟨.unknown 999, 4, [1, 2, 3, 4]⟩ rfl⟩

/-- C14: for every captured 32-bit address `addr` the interrupt callback first
clears the DMA interrupt and then calls `parse_protocol` with the offset
`addr mod 2^16` exactly when `addr >= ROM3_START_ADDRESS`; for any other address
the clearing is its only effect. Nothing else of the state changes. -/
theorem dma_callback_dispatch (env : Env) (s : State) (addr : Nat) (h : addr < 2 ^ 32) :
    dma_irq_handler_lookup_callback env s addr =
      { s with log := s.log ++
          Event.call "dma_hw_ints1_clear" [] ::
            (if env.ROM3_START_ADDRESS ≤ addr
             then [Event.call "parse_protocol" [.num ((addr % 2 ^ 16 : Nat) : Int)]] else []) } := by
  have hm : addr % 2 ^ 32 = addr := Nat.mod_eq_of_lt h
  have ha : addr &&& 0xFFFF = addr % 2 ^ 16 := Nat.and_pow_two_sub_one_eq_mod addr 16
  unfold dma_irq_handler_lookup_callback
  simp only [hm, ha, Nat.mod_mod]
  by_cases hge : env.ROM3_START_ADDRESS ≤ addr
  · simp [hge, State.call]
  · simp [hge, State.call]

/-- C14 at a concrete address inside the window of the sample environment. -/
theorem dma_callback_dispatch_witness :
    0x1ABCD < 2 ^ 32 ∧
      new_events State.initial (dma_irq_handler_lookup_callback Env.sample State.initial 0x1ABCD) =
        [Event.call "dma_hw_ints1_clear" [], Event.call "parse_protocol" [.num 0xABCD]] :=
  ⟨by decide, by
    rw [dma_callback_dispatch Env.sample State.initial 0x1ABCD (by decide)]
    decide⟩

/-! ## The fields of `CREATE_FLOPPY` (C15) -/

set_option maxRecDepth 100000

theorem copy_until_zero_length (src : List Nat) (bound : Nat) :
    (copy_until_zero src bound).length ≤ bound := by
  induction bound generalizing src with
  | zero => simp [copy_until_zero]
  | succ n ih =>
    cases src with
    | nil => simp [copy_until_zero]
    | cons c cs =>
      simp only [copy_until_zero]
      split
      · simp
      · simp only [List.length_cons]
        exact Nat.succ_le_succ (ih cs)

/-- The copy loop stores nothing beyond its bound: the bytes of the field from
the bound on are the old ones. -/
theorem read_name_beyond (field src : List Nat) (bound : Nat) :
    (read_name field src bound).drop bound = field.drop bound := by
  have h := copy_until_zero_length src bound
  unfold read_name
  rw [List.drop_append_eq_append_drop, List.drop_of_length_le h, List.nil_append, List.drop_drop]
  congr 1
  omega

/-- When the source has a zero byte within the bound, the loop stores the
bytes before it and the zero. -/
theorem copy_until_zero_terminated (name rest : List Nat) (bound : Nat)
    (hz : ∀ c ∈ name, c ≠ 0) (hlen : name.length < bound) :
    copy_until_zero (name ++ 0 :: rest) bound = name ++ [0] := by
  induction name generalizing bound with
  | nil =>
    cases bound with
    | zero => exact absurd hlen (Nat.not_lt_zero _)
    | succ n => simp [copy_until_zero]
  | cons c cs ih =>
    cases bound with
    | zero => exact absurd hlen (Nat.not_lt_zero _)
    | succ n =>
      have hc : c ≠ 0 := hz c (List.mem_cons_self _ _)
      simp only [List.cons_append, copy_until_zero, if_neg hc, List.cons.injEq, true_and]
      exact ih n (fun x hx => hz x (List.mem_cons_of_mem _ hx))
        (by simpa using Nat.lt_of_succ_lt_succ hlen)

/-- When the first `bound` bytes of the source hold no zero byte, the loop
stores exactly these bytes and no terminator. -/
theorem copy_until_zero_unterminated (src : List Nat) (bound : Nat)
    (hz : ∀ c ∈ src.take bound, c ≠ 0) (hlen : bound ≤ src.length) :
    copy_until_zero src bound = src.take bound := by
  induction bound generalizing src with
  | zero => simp [copy_until_zero]
  | succ n ih =>
    cases src with
    | nil => simp at hlen
    | cons c cs =>
      have hc : c ≠ 0 := hz c (by simp)
      simp only [copy_until_zero, if_neg hc, List.take_succ_cons, List.cons.injEq, true_and]
      exact ih cs (fun x hx => hz x (by simp [hx])) (by simpa using hlen)

/-- The 16-bit fields of `CREATE_FLOPPY` are the little-endian values at
payload offsets 4, 6, 8, 10 and 12, and the two name fields keep their
lengths' tails: nothing is stored beyond the bounds 14 and 256. -/
theorem create_floppy_fields (env : Env) (s : State) (p : TransmissionProtocol)
    (hc : p.command_id = .CREATE_FLOPPY) :
    (handle_protocol_command env s p).floppy_header.template = u16_at p.payload 4 ∧
    (handle_protocol_command env s p).floppy_header.num_tracks = u16_at p.payload 6 ∧
    (handle_protocol_command env s p).floppy_header.num_sectors = u16_at p.payload 8 ∧
    (handle_protocol_command env s p).floppy_header.num_sides = u16_at p.payload 10 ∧
    (handle_protocol_command env s p).floppy_header.overwrite = u16_at p.payload 12 ∧
    (handle_protocol_command env s p).floppy_header.volume_name.drop 14 =
      s.floppy_header.volume_name.drop 14 ∧
    (handle_protocol_command env s p).floppy_header.floppy_name.drop 256 =
      s.floppy_header.floppy_name.drop 256 := by
  obtain ⟨cid, sz, payload⟩ := p
  simp only at hc
  subst hc
  simp only [handle_protocol_command, State.set_token, true_and]
  exact ⟨read_name_beyond _ _ _, read_name_beyond _ _ _⟩

/-- C15 fails for names without a zero byte within the bound: `CREATE_FLOPPY`
with 14 and 256 non-zero name bytes leaves both name fields filled with
non-zero bytes, so neither stored name is zero-terminated; the create-floppy
block of the loop then scans `floppy_name` for its terminator beyond the end of
the field. With zero-terminated names the stored names are terminated. -/
theorem create_floppy_names_unterminated :
    (handle_protocol_command Env.sample State.initial
        ⟨.CREATE_FLOPPY, 284, full_names_payload⟩).floppy_header.volume_name =
      List.replicate 14 65 ∧
    (handle_protocol_command Env.sample State.initial
        ⟨.CREATE_FLOPPY, 284, full_names_payload⟩).floppy_header.floppy_name =
      List.replicate 256 65 ∧
    0 ∉ (handle_protocol_command Env.sample State.initial
        ⟨.CREATE_FLOPPY, 284, full_names_payload⟩).floppy_header.volume_name ∧
    0 ∉ (handle_protocol_command Env.sample State.initial
        ⟨.CREATE_FLOPPY, 284, full_names_payload⟩).floppy_header.floppy_name ∧
    Event.overrun "floppy_header.floppy_name" ∈
      new_events
        (handle_protocol_command Env.sample State.initial ⟨.CREATE_FLOPPY, 284, full_names_payload⟩)
        (create_floppy_action Env.sample
          (handle_protocol_command Env.sample State.initial
            ⟨.CREATE_FLOPPY, 284, full_names_payload⟩)) ∧
    cstr (handle_protocol_command Env.sample State.initial
        ⟨.CREATE_FLOPPY, 284, short_names_payload⟩).floppy_header.volume_name = lit "VOL" ∧
    cstr (handle_protocol_command Env.sample State.initial
        ⟨.CREATE_FLOPPY, 284, short_names_payload⟩).floppy_header.floppy_name = lit "disk" := by
  refine ⟨by decide, by decide, by decide, by decide, by decide, by decide, by decide⟩

/-! ## The configuration entry round trip (C19) -/

theorem swap_pairs_involutive (l : List Nat) : swap_pairs (swap_pairs l) = l := by
  induction l using swap_pairs.induct with
  | case1 a b rest ih => simp [swap_pairs, ih]
  | case2 rest h =>
    have e : swap_pairs rest = rest := by
      unfold swap_pairs
      split
      · exact absurd rfl (h _ _ _)
      · rfl
    rw [e, e]

theorem swap_data_length (env : Env) (e : List Nat) : (swap_data env e).length = e.length := by
  simp only [swap_data, List.length_append, swap_pairs_length, List.length_take, List.length_drop]
  omega

theorem swap_data_involutive (env : Env) (e : List Nat) : swap_data env (swap_data env e) = e := by
  unfold swap_data
  generalize 2 * swap_data_words env = m
  by_cases h : m ≤ e.length
  · have hl : (swap_pairs (e.take m)).length = m := by
      rw [swap_pairs_length, List.length_take]
      omega
    rw [List.take_left' hl, List.drop_left' hl, swap_pairs_involutive, List.take_append_drop]
  · have h1 : e.take m = e := List.take_of_length_le (by omega)
    have h2 : e.drop m = [] := List.drop_of_length_le (by omega)
    rw [h1, h2, List.append_nil]
    have h3 : (swap_pairs e).take m = swap_pairs e :=
      List.take_of_length_le (by rw [swap_pairs_length]; omega)
    have h4 : (swap_pairs e).drop m = [] :=
      List.drop_of_length_le (by rw [swap_pairs_length]; omega)
    rw [h3, h4, List.append_nil, swap_pairs_involutive]

theorem load_bytes_split (w : Window) (off : Int) (a n : Nat) (h : a ≤ n) :
    load_bytes w off n = load_bytes w off a ++ load_bytes w (off + a) (n - a) := by
  apply List.ext_getElem
  · simp [load_bytes]
    omega
  · intro k h1 h2
    simp only [load_bytes, List.length_map, List.length_range] at h1
    by_cases hk : k < a
    · rw [List.getElem_append_left (by simpa [load_bytes] using hk)]
      simp [load_bytes]
    · rw [List.getElem_append_right (by simpa [load_bytes] using hk)]
      simp only [load_bytes, List.getElem_map, List.getElem_range, List.length_map,
        List.length_range]
      congr 1
      omega

theorem load_bytes_take (w : Window) (off : Int) (a n : Nat) (h : a ≤ n) :
    (load_bytes w off n).take a = load_bytes w off a := by
  rw [load_bytes_split w off a n h, List.take_left' (load_bytes_length _ _ _)]

theorem load_bytes_drop (w : Window) (off : Int) (a n : Nat) (h : a ≤ n) :
    (load_bytes w off n).drop a = load_bytes w (off + a) (n - a) := by
  rw [load_bytes_split w off a n h, List.drop_left' (load_bytes_length _ _ _)]

theorem load_store_sub (w : Window) (off : Int) (bs : List Nat) (a n : Nat)
    (h : a + n ≤ bs.length) :
    load_bytes (store_bytes w off bs) (off + a) n = (bs.drop a).take n := by
  apply List.ext_getElem
  · simp [load_bytes]
    omega
  · intro k h1 h2
    simp only [load_bytes, List.length_map, List.length_range] at h1
    simp only [load_bytes, List.getElem_map, List.getElem_range, List.getElem_take,
      List.getElem_drop]
    have e : off + (a : Int) + (k : Int) = off + ((a + k : Nat) : Int) := by
      push_cast
      omega
    rw [e, store_bytes_inside w off bs (a + k) (by omega), List.getD_eq_getElem _ _ (by omega)]

/-- The bytes of a region of the window after `swap_region` on its first `n`
words: the transform `swap_data` with that word count. -/
theorem swap_region_load (s : State) (off : Int) (n N : Nat) (h : 2 * n ≤ N) :
    load_bytes (s.swap_region off n).window off N =
      swap_pairs ((load_bytes s.window off N).take (2 * n)) ++
        (load_bytes s.window off N).drop (2 * n) := by
  have hl : (swap_pairs (load_bytes s.window off (2 * n))).length = 2 * n := by
    rw [swap_pairs_length, load_bytes_length]
  rw [load_bytes_take _ _ _ _ h, load_bytes_drop _ _ _ _ h, load_bytes_split _ off (2 * n) N h]
  simp only [State.swap_region, State.write]
  congr 1
  · have := load_store_same s.window off (swap_pairs (load_bytes s.window off (2 * n)))
    rw [hl] at this
    exact this
  · apply load_store_disjoint
    right
    rw [hl]

theorem swap_region_load_disjoint (s : State) (off off2 : Int) (n N : Nat)
    (h : off2 + N ≤ off ∨ off + (2 * n : Nat) ≤ off2) :
    load_bytes (s.swap_region off n).window off2 N = load_bytes s.window off2 N := by
  simp only [State.swap_region, State.write]
  apply load_store_disjoint
  rw [swap_pairs_length, load_bytes_length]
  exact h

theorem foldl_swap_load (s : State) (stride n : Nat) (hfit : 2 * n ≤ stride) (c : Nat) :
    (∀ i, i < c →
      load_bytes ((List.range c).foldl
          (fun st i => st.swap_region (8 + ((i * stride : Nat) : Int)) n) s).window
          (8 + ((i * stride : Nat) : Int)) stride =
        swap_pairs ((load_bytes s.window (8 + ((i * stride : Nat) : Int)) stride).take (2 * n)) ++
          (load_bytes s.window (8 + ((i * stride : Nat) : Int)) stride).drop (2 * n)) ∧
    (∀ i, c ≤ i →
      load_bytes ((List.range c).foldl
          (fun st i => st.swap_region (8 + ((i * stride : Nat) : Int)) n) s).window
          (8 + ((i * stride : Nat) : Int)) stride =
        load_bytes s.window (8 + ((i * stride : Nat) : Int)) stride) := by
  induction c with
  | zero =>
    refine ⟨fun i hi => absurd hi (Nat.not_lt_zero i), fun i _ => ?_⟩
    simp
  | succ c ih =>
    obtain ⟨ih1, ih2⟩ := ih
    rw [List.range_succ, List.foldl_append]
    simp only [List.foldl_cons, List.foldl_nil]
    constructor
    · intro i hi
      by_cases hic : i = c
      · subst hic
        rw [swap_region_load _ _ _ _ hfit, ih2 i (Nat.le_refl i)]
      · have hlt : i < c := by omega
        have hmul : i * stride + stride ≤ c * stride := by
          have := Nat.mul_le_mul_right stride (Nat.succ_le_of_lt hlt)
          rw [Nat.succ_mul] at this
          exact this
        rw [swap_region_load_disjoint _ _ _ _ _ (by left; push_cast; omega)]
        exact ih1 i hlt
    · intro i hi
      have hmul : c * stride + stride ≤ i * stride := by
        have := Nat.mul_le_mul_right stride hi
        rw [Nat.succ_mul] at this
        exact this
      rw [swap_region_load_disjoint _ _ _ _ _ (by right; push_cast; omega)]
      exact ih2 i (by omega)

/-- The window after `GET_CONFIG` holds entry `i` of `configData` at offset
`8 + i * sizeof(ConfigEntry)`, transformed by `swap_data`. -/
theorem get_config_entry (env : Env) (s : State) (p : TransmissionProtocol) (i : Nat)
    (hc : p.command_id = .GET_CONFIG) (heven : env.sizeof_ConfigEntry % 2 = 0)
    (hfit : 2 * swap_data_words env ≤ env.sizeof_ConfigEntry)
    (hlen : 4 + env.configData_count * env.sizeof_ConfigEntry ≤ env.configData.length)
    (hi : i < env.configData_count) :
    load_bytes (handle_protocol_command env s p).window
        (8 + ((i * env.sizeof_ConfigEntry : Nat) : Int)) env.sizeof_ConfigEntry =
      swap_data env (config_entry env i) := by
  obtain ⟨cid, sz, payload⟩ := p
  simp only at hc
  subst hc
  have hstride : 2 * (env.sizeof_ConfigEntry / 2) = env.sizeof_ConfigEntry := by omega
  have hmul : i * env.sizeof_ConfigEntry + env.sizeof_ConfigEntry ≤
      env.configData_count * env.sizeof_ConfigEntry := by
    have := Nat.mul_le_mul_right env.sizeof_ConfigEntry (Nat.succ_le_of_lt hi)
    rw [Nat.succ_mul] at this
    exact this
  obtain ⟨h1, -⟩ := foldl_swap_load
    ((s.set_token ⟨.GET_CONFIG, sz, payload⟩).write 4 env.configData)
    env.sizeof_ConfigEntry (swap_data_words env) hfit env.configData_count
  simp only [handle_protocol_command, State.write_token]
  rw [load_store_disjoint _ _ _ _ _ (by
    right
    simp only [u32_bytes, List.length_cons, List.length_nil]
    push_cast
    omega)]
  unfold swap_config_entries
  rw [hstride, h1 i hi]
  simp only [State.write, State.set_token]
  have e : (8 : Int) + ((i * env.sizeof_ConfigEntry : Nat) : Int) =
      4 + ((4 + i * env.sizeof_ConfigEntry : Nat) : Int) := by
    push_cast
    omega
  rw [e, load_store_sub _ _ _ _ _ (by omega)]
  rfl

theorem payload_bytes_entry (tok e : List Nat) (n : Nat) (htok : tok.length = 4)
    (hn : e.length = n) (hb : ∀ b ∈ e, b < 256) :
    (payload_bytes (tok ++ e) (4 + n)).drop 4 = e := by
  apply List.ext_getElem
  · simp [payload_bytes, hn]
  · intro k h1 h2
    simp only [payload_bytes, List.getElem_drop, List.getElem_map, List.getElem_range, byte_at]
    rw [List.getD_eq_getElem _ _ (by simp; omega)]
    rw [List.getElem_append_right (by omega)]
    simp only [htok, Nat.add_sub_cancel_left]
    exact Nat.mod_eq_of_lt (hb _ (List.getElem_mem _))

/-- C19: for every entry `i` of `configData`, whatever bytes its key and value
hold, the bytes `GET_CONFIG` leaves in the window for the entry are the entry
transformed by `swap_data`, and a `PUT_CONFIG_STRING` request that carries
those window bytes back decodes them, by `swap_data` again, to the original
entry: it calls `put_string` with the original key and value. -/
theorem config_entry_round_trip (env : Env) (s s2 : State) (p : TransmissionProtocol)
    (tok : List Nat) (i : Nat)
    (hc : p.command_id = .GET_CONFIG) (heven : env.sizeof_ConfigEntry % 2 = 0)
    (hfit : 2 * swap_data_words env ≤ env.sizeof_ConfigEntry)
    (hlen : 4 + env.configData_count * env.sizeof_ConfigEntry ≤ env.configData.length)
    (hb : ∀ b ∈ env.configData, b < 256) (htok : tok.length = 4)
    (hi : i < env.configData_count) :
    load_bytes (handle_protocol_command env s p).window
        (8 + ((i * env.sizeof_ConfigEntry : Nat) : Int)) env.sizeof_ConfigEntry =
      swap_data env (config_entry env i) ∧
    swap_data env (swap_data env (config_entry env i)) = config_entry env i ∧
    received_entry env
        (put_string_request tok
          (load_bytes (handle_protocol_command env s p).window
            (8 + ((i * env.sizeof_ConfigEntry : Nat) : Int)) env.sizeof_ConfigEntry)) =
      config_entry env i ∧
    new_events s2
        (handle_protocol_command env s2
          (put_string_request tok
            (load_bytes (handle_protocol_command env s p).window
              (8 + ((i * env.sizeof_ConfigEntry : Nat) : Int)) env.sizeof_ConfigEntry))) =
      [Event.call "put_string"
          [.str (entry_key (config_entry env i)), .str (entry_value env (config_entry env i))],
        Event.token (decode_token (tok ++ swap_data env (config_entry env i)))] := by
  have hw := get_config_entry env s p i hc heven hfit hlen hi
  have hmul : i * env.sizeof_ConfigEntry + env.sizeof_ConfigEntry ≤
      env.configData_count * env.sizeof_ConfigEntry := by
    have := Nat.mul_le_mul_right env.sizeof_ConfigEntry (Nat.succ_le_of_lt hi)
    rw [Nat.succ_mul] at this
    exact this
  have hel : (config_entry env i).length = env.sizeof_ConfigEntry := by
    simp only [config_entry, List.length_take, List.length_drop]
    omega
  have hbe : ∀ b ∈ swap_data env (config_entry env i), b < 256 := by
    intro b hb2
    apply hb
    have hperm : ∀ l : List Nat, ∀ x ∈ swap_pairs l, x ∈ l := by
      intro l
      induction l using swap_pairs.induct with
      | case1 a b rest ih =>
        intro x hx
        simp only [swap_pairs, List.mem_cons] at hx ⊢
        rcases hx with h | h | h
        · exact Or.inr (Or.inl h)
        · exact Or.inl h
        · exact Or.inr (Or.inr (ih x h))
      | case2 rest h =>
        intro x hx
        have e : swap_pairs rest = rest := by
          unfold swap_pairs
          split
          · exact absurd rfl (h _ _ _)
          · rfl
        rw [e] at hx
        exact hx
    simp only [swap_data, List.mem_append] at hb2
    have hsub : b ∈ config_entry env i := by
      rcases hb2 with h | h
      · exact List.mem_of_mem_take (hperm _ _ h)
      · exact List.mem_of_mem_drop h
    exact List.mem_of_mem_drop (List.mem_of_mem_take hsub)
  have hrec : received_entry env (put_string_request tok (swap_data env (config_entry env i))) =
      config_entry env i := by
    simp only [received_entry, put_string_request]
    rw [payload_bytes_entry tok _ env.sizeof_ConfigEntry htok
      (by rw [swap_data_length, hel]) hbe, swap_data_involutive]
  refine ⟨hw, swap_data_involutive env _, ?_, ?_⟩
  · rw [hw, hrec]
  · rw [hw]
    have hcmd : (put_string_request tok (swap_data env (config_entry env i))).command_id =
        .PUT_CONFIG_STRING := rfl
    generalize hq : put_string_request tok (swap_data env (config_entry env i)) = q at hrec hcmd
    obtain ⟨cid, sz, payload⟩ := q
    simp only at hcmd
    subst hcmd
    have hpay : payload = tok ++ swap_data env (config_entry env i) := by
      simp only [put_string_request, TransmissionProtocol.mk.injEq] at hq
      exact hq.2.2.symm
    simp only [handle_protocol_command, hrec]
    simp [new_events, State.call, State.write_token, State.set_token, hpay]

/-- C19 on the sample configuration: entry 0 has key `AB` and value `1`. -/
theorem config_entry_round_trip_witness :
    Env.sample.sizeof_ConfigEntry % 2 = 0 ∧ 0 < Env.sample.configData_count ∧
      entry_key (config_entry Env.sample 0) = lit "AB" ∧
      entry_value Env.sample (config_entry Env.sample 0) = lit "1" ∧
      load_bytes (handle_protocol_command Env.sample State.initial ⟨.GET_CONFIG, 4, [1, 0, 0, 0]⟩).window
          (8 + ((0 * Env.sample.sizeof_ConfigEntry : Nat) : Int)) Env.sample.sizeof_ConfigEntry =
        swap_data Env.sample (config_entry Env.sample 0) :=
  ⟨by decide, by decide, by decide, by decide,
    (config_entry_round_trip Env.sample State.initial State.initial ⟨.GET_CONFIG, 4, [1, 0, 0, 0]⟩
      [2, 0, 0, 0] 0 rfl (by decide) (by decide) (by decide) (by decide) rfl (by decide)).1⟩

/-! ## The list encoders (C16) -/

theorem load_bytes_congr (w1 w2 : Window) (off : Int) (n : Nat)
    (h : ∀ k : Nat, k < n → w1 (off + k) = w2 (off + k)) :
    load_bytes w1 off n = load_bytes w2 off n := by
  apply List.ext_getElem
  · simp [load_bytes]
  · intro k h1 h2
    simp only [load_bytes, List.length_map, List.length_range] at h1
    simp only [load_bytes, List.getElem_map, List.getElem_range]
    exact h k h1

theorem load_store_end (w : Window) (off : Int) (a : Nat) (bs : List Nat) :
    load_bytes (store_bytes w (off + a) bs) off (a + bs.length) = load_bytes w off a ++ bs := by
  rw [load_bytes_split _ off a (a + bs.length) (Nat.le_add_right _ _), Nat.add_sub_cancel_left,
    load_store_same, load_store_disjoint _ _ _ _ _ (Or.inl (Int.le_refl _))]

theorem store_strings_cons (s : State) (dest : Int) (n : List Nat) (rest : List (List Nat)) :
    store_strings s dest (n :: rest) =
      store_strings (s.write dest (n ++ [0])) (dest + (n.length + 1 : Nat)) rest := by
  simp [store_strings]

/-- The copy loop leaves the strings, each followed by a zero byte, from
`dest` on, ends at the byte after them and stores nothing below `dest`. -/
theorem store_strings_window (s : State) (dest : Int) (strings : List (List Nat)) :
    (store_strings s dest strings).2 = dest + ((entries_body strings).length : Nat) ∧
    load_bytes (store_strings s dest strings).1.window dest (entries_body strings).length =
      entries_body strings ∧
    (∀ x : Int, x < dest → (store_strings s dest strings).1.window x = s.window x) := by
  induction strings generalizing s dest with
  | nil => simp [store_strings, entries_body, load_bytes]
  | cons n rest ih =>
    obtain ⟨h1, h2, h3⟩ := ih (s.write dest (n ++ [0])) (dest + (n.length + 1 : Nat))
    rw [store_strings_cons]
    have hlen : (entries_body (n :: rest)).length = (n.length + 1) + (entries_body rest).length := by
      simp [entries_body]
      omega
    refine ⟨?_, ?_, ?_⟩
    · rw [h1, hlen]
      push_cast
      omega
    · rw [hlen, load_bytes_split _ dest (n.length + 1) _ (Nat.le_add_right _ _),
        Nat.add_sub_cancel_left, h2]
      have hfirst : load_bytes
          (store_strings (s.write dest (n ++ [0])) (dest + (n.length + 1 : Nat)) rest).1.window
          dest (n.length + 1) = n ++ [0] := by
        rw [load_bytes_congr _ (s.write dest (n ++ [0])).window dest (n.length + 1)
          (fun k hk => h3 _ (by push_cast; omega))]
        have := load_store_same s.window dest (n ++ [0])
        simpa [State.write] using this
      rw [hfirst]
      simp [entries_body]
    · intro x hx
      rw [h3 x (by push_cast; omega)]
      simp only [State.write]
      exact store_bytes_outside _ _ _ _ (Or.inl hx)

theorem encode_entries_length (strings : List (List Nat)) :
    (encode_entries strings).length % 2 = 0 := by
  unfold encode_entries
  split <;> simp <;> omega

/-- The copy loop and the end marker together leave the encoding of the
strings from `dest` on, when `dest` is an even offset of an even address. -/
theorem encoded_window (env : Env) (s : State) (dest : Int) (strings : List (List Nat))
    (hmem : memory_area env % 2 = 0) (hdest : dest % 2 = 0) :
    load_bytes
        (store_end_marker env (store_strings s dest strings).1 (store_strings s dest strings).2).1.window
        dest (encode_entries strings).length = encode_entries strings ∧
    (store_end_marker env (store_strings s dest strings).1 (store_strings s dest strings).2).2 =
      dest + ((encode_entries strings).length : Nat) := by
  obtain ⟨h1, h2, -⟩ := store_strings_window s dest strings
  generalize store_strings s dest strings = r at h1 h2
  obtain ⟨t, d⟩ := r
  simp only at h1 h2
  subst h1
  unfold store_end_marker encode_entries
  by_cases hodd : (entries_body strings).length % 2 = 1
  · have hp : (memory_area env + (dest + ((entries_body strings).length : Nat))) % 2 = 1 := by
      omega
    simp only [hp, hodd, if_true, State.write]
    constructor
    · have e1 : (entries_body strings ++ [0] ++ [0, 0]).length =
          ((entries_body strings).length + 1 + 1) + [0].length := by simp
      have e2 : dest + ((entries_body strings).length : Nat) + 1 + 1 =
          dest + (((entries_body strings).length + 1 + 1 : Nat) : Int) := by
        push_cast
        omega
      have e3 : dest + ((entries_body strings).length : Nat) + 1 =
          dest + (((entries_body strings).length + 1 : Nat) : Int) := by
        push_cast
        omega
      rw [e1, e2, load_store_end, e3]
      have e4 : (entries_body strings).length + 1 + 1 =
          ((entries_body strings).length + 1) + [0].length := by simp
      rw [e4, load_store_end]
      have e5 : (entries_body strings).length + 1 = (entries_body strings).length + [0].length := by
        simp
      rw [e5, load_store_end, h2]
      simp
    · simp
      omega
  · have hp : ¬ (memory_area env + (dest + ((entries_body strings).length : Nat))) % 2 = 1 := by
      omega
    simp only [hp, hodd, if_false, State.write]
    constructor
    · have e1 : (entries_body strings ++ [] ++ [0, 0]).length =
          ((entries_body strings).length + 1) + [0].length := by simp
      have e3 : dest + ((entries_body strings).length : Nat) + 1 =
          dest + (((entries_body strings).length + 1 : Nat) : Int) := by
        push_cast
        omega
      rw [e1, e3, load_store_end]
      have e5 : (entries_body strings).length + 1 = (entries_body strings).length + [0].length := by
        simp
      rw [e5, load_store_end, h2]
      simp
    · simp
      omega

theorem split_aux_entry (n rest cur : List Nat) (hz : ∀ c ∈ n, c ≠ 0) (hne : cur.reverse ++ n ≠ []) :
    split_aux (n ++ 0 :: rest) cur = (cur.reverse ++ n) :: split_aux rest [] := by
  induction n generalizing cur with
  | nil =>
    have hc : cur ≠ [] := by
      intro h
      apply hne
      simp [h]
    simp [split_aux, hc]
  | cons c cs ih =>
    have hc : c ≠ 0 := hz c (List.mem_cons_self _ _)
    have e : split_aux (c :: cs ++ 0 :: rest) cur = split_aux (cs ++ 0 :: rest) (c :: cur) := by
      show split_aux (c :: (cs ++ 0 :: rest)) cur = _
      rw [split_aux, if_neg hc]
    rw [e, ih (c :: cur) (fun x hx => hz x (List.mem_cons_of_mem _ hx)) (by simp)]
    simp

theorem split_names_body (strings : List (List Nat)) (tail : List Nat)
    (h : ∀ n ∈ strings, n ≠ [] ∧ ∀ c ∈ n, c ≠ 0) :
    split_names (entries_body strings ++ 0 :: tail) = strings := by
  induction strings with
  | nil => simp [split_names, entries_body, split_aux]
  | cons n rest ih =>
    obtain ⟨hne, hz⟩ := h n (List.mem_cons_self _ _)
    have e : entries_body (n :: rest) ++ 0 :: tail = n ++ 0 :: (entries_body rest ++ 0 :: tail) := by
      simp [entries_body]
    unfold split_names at ih ⊢
    rw [e, split_aux_entry n _ [] hz (by simpa using hne),
      ih (fun m hm => h m (List.mem_cons_of_mem _ hm))]
    simp

theorem split_names_encode (strings : List (List Nat))
    (h : ∀ n ∈ strings, n ≠ [] ∧ ∀ c ∈ n, c ≠ 0) :
    split_names (encode_entries strings) = strings := by
  unfold encode_entries
  split
  · have := split_names_body strings [0, 0] h
    simpa using this
  · have := split_names_body strings [0] h
    simpa using this

/-- The window after the whole encoder, the swap by `network_swap_json_data`
included: the encoding with the two bytes of every 16-bit word exchanged. -/
theorem encode_list_window (env : Env) (s : State) (strings : List (List Nat))
    (hmem : memory_area env % 2 = 0) :
    load_bytes (encode_list env s strings 4).window 4 (encode_entries strings).length =
      swap_pairs (encode_entries strings) := by
  obtain ⟨h1, h2⟩ := encoded_window env s 4 strings hmem (by decide)
  have heven := encode_entries_length strings
  unfold encode_list network_swap_json_data
  simp only []
  generalize store_end_marker env (store_strings s 4 strings).1 (store_strings s 4 strings).2 = r
    at h1 h2
  obtain ⟨t, d⟩ := r
  simp only at h1 h2
  subst h2
  have hw : ((4 + ((encode_entries strings).length : Nat) - 4 : Int).toNat + 1) / 2 =
      (encode_entries strings).length / 2 := by
    have : (4 + ((encode_entries strings).length : Nat) - 4 : Int).toNat =
        (encode_entries strings).length := by omega
    rw [this]
    omega
  rw [hw, swap_region_load t 4 ((encode_entries strings).length / 2) _ (by omega), h1]
  have h2n : 2 * ((encode_entries strings).length / 2) = (encode_entries strings).length := by omega
  rw [h2n, List.take_length, List.drop_length, List.append_nil]

theorem json_action_window (env : Env) (s : State) (hmem : memory_area env % 2 = 0)
    (h : s.get_json_file = true) :
    load_bytes (get_json_file_action env s).window 4 (encode_entries (json_index_lines env)).length =
      swap_pairs (encode_entries (json_index_lines env)) := by
  unfold get_json_file_action
  rw [if_pos h]
  simp only [State.write_token, List.take_length]
  rw [load_store_disjoint _ _ _ _ _ (by
    right
    simp only [u32_bytes, List.length_cons, List.length_nil]
    omega)]
  simp only [State.call, State.clear, State.write, json_index_lines, List.take_length]
  rw [encode_list_window env _ _ hmem]

theorem floppy_db_action_window (env : Env) (s : State) (hmem : memory_area env % 2 = 0)
    (h : s.query_floppy_db = true) :
    load_bytes (query_floppy_db_action env s).window 4
        (encode_entries (floppy_db_names env s.query_floppy_letter)).length =
      swap_pairs (encode_entries (floppy_db_names env s.query_floppy_letter)) := by
  unfold query_floppy_db_action
  rw [if_pos h]
  simp only [State.write_token, List.take_length]
  rw [load_store_disjoint _ _ _ _ _ (by
    right
    simp only [u32_bytes, List.length_cons, List.length_nil]
    omega)]
  simp only [State.call, State.clear, State.write, floppy_db_names, List.take_length]
  rw [encode_list_window env _ _ hmem]

/-- C16 (amended): the copy loop and end marker of the list encoders, started
at an even window offset of an even address, leave for every list of strings
each string followed by one zero byte, then one padding zero if the length so
far is odd, then two zero bytes; the encoded length is even, and when the
strings are non-empty and hold no zero byte, splitting the encoded bytes at
zero bytes up to the first empty string returns the strings in order. The
floppy-database block encodes the entry names; the JSON-index block encodes for
each entry the line made of the name, a tab and the size in parentheses, not
the bare name. In both blocks the window then holds the encoding from offset
4 with the two bytes of every 16-bit word exchanged. -/
theorem list_encoder_layout (env : Env) (s : State) (dest : Int) (strings : List (List Nat))
    (hmem : memory_area env % 2 = 0) (hdest : dest % 2 = 0) :
    load_bytes
        (store_end_marker env (store_strings s dest strings).1 (store_strings s dest strings).2).1.window
        dest (encode_entries strings).length = encode_entries strings ∧
    (encode_entries strings).length % 2 = 0 ∧
    ((∀ n ∈ strings, n ≠ [] ∧ zero_free n) → split_names (encode_entries strings) = strings) ∧
    (s.query_floppy_db = true →
      load_bytes (query_floppy_db_action env s).window 4
          (encode_entries (floppy_db_names env s.query_floppy_letter)).length =
        swap_pairs (encode_entries (floppy_db_names env s.query_floppy_letter))) ∧
    (s.get_json_file = true →
      load_bytes (get_json_file_action env s).window 4
          (encode_entries (json_index_lines env)).length =
        swap_pairs (encode_entries (json_index_lines env))) :=
  ⟨(encoded_window env s dest strings hmem hdest).1, encode_entries_length strings,
    split_names_encode strings, floppy_db_action_window env s hmem,
    json_action_window env s hmem⟩

/-- C16 (amended) on the sample environment: the names `ab` and `c` are encoded
from offset 4 as `ab`, zero, `c`, zero, one padding zero and two zeros. -/
theorem list_encoder_layout_witness :
    memory_area Env.sample % 2 = 0 ∧
      load_bytes
          (store_end_marker Env.sample (store_strings State.initial 4 [lit "ab", lit "c"]).1
            (store_strings State.initial 4 [lit "ab", lit "c"]).2).1.window
          4 (encode_entries [lit "ab", lit "c"]).length = [97, 98, 0, 99, 0, 0, 0, 0] :=
  ⟨by decide,
    (list_encoder_layout Env.sample State.initial 4 [lit "ab", lit "c"]
      (by decide) (by decide)).1⟩

/-- C16 as stated fails for the JSON-index block: for the sample index, whose
one entry has the name `a` and the size 64, the block encodes the line
`a<TAB>(64 Kb)`, so the window does not hold the encoding of the name `a`, and
splitting the encoded bytes returns the line, not the name. -/
theorem json_index_encodes_lines :
    (Env.sample.json_files (config_value Env.sample "ROMS_YAML_URL")).map (fun r => r.name) =
      [lit "a"] ∧
    load_bytes (get_json_file_action Env.sample State.json_requested).window 4 12 =
      swap_pairs (lit "a\t(64 Kb)" ++ [0, 0, 0]) ∧
    load_bytes (get_json_file_action Env.sample State.json_requested).window 4 4 ≠
      swap_pairs (encode_entries [lit "a"]) ∧
    split_names
        (swap_pairs (load_bytes (get_json_file_action Env.sample State.json_requested).window 4 12)) =
      [lit "a\t(64 Kb)"] ∧
    [lit "a\t(64 Kb)"] ≠ [lit "a"] := by
  refine ⟨by decide, by decide, by decide, by decide, by decide⟩

/-! ## The comparison of file names (C18) -/

/-! ## The comparison function -/

theorem tolower_pos (c : Nat) (h : c ≠ 0) : 0 < tolower c := by
  unfold tolower
  split <;> omega

theorem compare_strings_sign (a b : List Nat) (ha : zero_free a) (hb : zero_free b) :
    Int.sign (compare_strings a b) = lex_sign (a.map tolower) (b.map tolower) := by
  induction a generalizing b with
  | nil =>
    cases b with
    | nil => simp [compare_strings, lex_sign]
    | cons y ys =>
      have hy := tolower_pos y (hb y (List.mem_cons_self _ _))
      have h0 : tolower 0 = 0 := by decide
      simp only [compare_strings, List.map_nil, List.map_cons, lex_sign, h0]
      apply Int.sign_eq_neg_one_of_neg
      omega
  | cons x xs ih =>
    cases b with
    | nil =>
      have hx := tolower_pos x (ha x (List.mem_cons_self _ _))
      have h0 : tolower 0 = 0 := by decide
      simp only [compare_strings, List.map_nil, List.map_cons, lex_sign, h0]
      apply Int.sign_eq_one_of_pos
      omega
    | cons y ys =>
      simp only [compare_strings, List.map_cons, lex_sign]
      by_cases he : tolower x = tolower y
      · rw [if_pos he, he, if_neg (Nat.lt_irrefl _), if_neg (Nat.lt_irrefl _)]
        exact ih ys (fun c hc => ha c (List.mem_cons_of_mem _ hc))
          (fun c hc => hb c (List.mem_cons_of_mem _ hc))
      · rw [if_neg he]
        by_cases hlt : tolower x < tolower y
        · rw [if_pos hlt]
          apply Int.sign_eq_neg_one_of_neg
          omega
        · rw [if_neg hlt, if_pos (by omega)]
          apply Int.sign_eq_one_of_pos
          omega

theorem lex_sign_range (x y : List Nat) :
    lex_sign x y = -1 ∨ lex_sign x y = 0 ∨ lex_sign x y = 1 := by
  induction x generalizing y with
  | nil => cases y <;> simp [lex_sign]
  | cons a as ih =>
    cases y with
    | nil => simp [lex_sign]
    | cons b bs =>
      simp only [lex_sign]
      split_ifs
      · simp
      · simp
      · exact ih bs

theorem lex_sign_eq_zero (x y : List Nat) : lex_sign x y = 0 ↔ x = y := by
  induction x generalizing y with
  | nil => cases y <;> simp [lex_sign]
  | cons a as ih =>
    cases y with
    | nil => simp [lex_sign]
    | cons b bs =>
      simp only [lex_sign, List.cons.injEq]
      split_ifs with h1 h2
      · simp; omega
      · simp; omega
      · rw [ih bs]
        have : a = b := by omega
        simp [this]

theorem lex_sign_swap (x y : List Nat) : lex_sign y x = -lex_sign x y := by
  induction x generalizing y with
  | nil => cases y <;> simp [lex_sign]
  | cons a as ih =>
    cases y with
    | nil => simp [lex_sign]
    | cons b bs =>
      simp only [lex_sign]
      split_ifs <;> first | omega | rfl | exact ih bs

theorem lex_sign_trans (x y z : List Nat) (h1 : lex_sign x y ≤ 0) (h2 : lex_sign y z ≤ 0) :
    lex_sign x z ≤ 0 := by
  induction x generalizing y z with
  | nil => cases z <;> simp [lex_sign]
  | cons a as ih =>
    cases y with
    | nil => simp [lex_sign] at h1
    | cons b bs =>
      cases z with
      | nil => simp [lex_sign] at h2
      | cons c cs =>
        simp only [lex_sign] at h1 h2 ⊢
        split_ifs at h1 h2 ⊢ <;> first | omega | exact ih bs cs h1 h2

theorem lex_sign_extension (x ext : List Nat) (h : ext ≠ []) : lex_sign x (x ++ ext) = -1 := by
  induction x with
  | nil =>
    cases ext with
    | nil => exact absurd rfl h
    | cons e es => rfl
  | cons a as ih => simp [lex_sign, ih]

theorem sign_nonpos_iff (n : Int) : Int.sign n ≤ 0 ↔ n ≤ 0 := by
  rcases Int.lt_trichotomy n 0 with h | h | h
  · rw [Int.sign_eq_neg_one_of_neg h]; omega
  · subst h; simp
  · rw [Int.sign_eq_one_of_pos h]; omega

theorem compare_strings_le_iff (a b : List Nat) (ha : zero_free a) (hb : zero_free b) :
    compare_strings a b ≤ 0 ↔ lex_sign (a.map tolower) (b.map tolower) ≤ 0 := by
  rw [← compare_strings_sign a b ha hb, sign_nonpos_iff]

theorem compare_strings_total (a b : List Nat) (ha : zero_free a) (hb : zero_free b) :
    compare_strings a b ≤ 0 ∨ compare_strings b a ≤ 0 := by
  rw [compare_strings_le_iff a b ha hb, compare_strings_le_iff b a hb ha, lex_sign_swap]
  omega

theorem compare_strings_trans (a b c : List Nat) (ha : zero_free a) (hb : zero_free b)
    (hc : zero_free c) (h1 : compare_strings a b ≤ 0) (h2 : compare_strings b c ≤ 0) :
    compare_strings a c ≤ 0 := by
  rw [compare_strings_le_iff _ _ ha hc]
  rw [compare_strings_le_iff _ _ ha hb] at h1
  rw [compare_strings_le_iff _ _ hb hc] at h2
  exact lex_sign_trans _ _ _ h1 h2

/-- C18: for all C strings `a` and `b` (no zero byte before the terminator) the
sign of `compare_strings a b` is the sign of the lexicographic comparison of
the lowercased byte sequences; it is 0 exactly when the two are equal ignoring
ASCII case; a string compares less than every proper extension of it; the
comparison is antisymmetric (swapping the arguments negates the sign) and
transitive, and any two strings are comparable. -/
theorem compare_strings_order (a b : List Nat) (ha : zero_free a) (hb : zero_free b) :
    Int.sign (compare_strings a b) = lex_sign (a.map tolower) (b.map tolower) ∧
    (compare_strings a b = 0 ↔ a.map tolower = b.map tolower) ∧
    (∀ ext, ext ≠ [] → zero_free ext → compare_strings a (a ++ ext) < 0) ∧
    Int.sign (compare_strings b a) = -Int.sign (compare_strings a b) ∧
    (compare_strings a b ≤ 0 → compare_strings b a ≤ 0 → a.map tolower = b.map tolower) ∧
    (∀ c, zero_free c → compare_strings a b ≤ 0 → compare_strings b c ≤ 0 →
      compare_strings a c ≤ 0) ∧
    (compare_strings a b ≤ 0 ∨ compare_strings b a ≤ 0) := by
  have hs := compare_strings_sign a b ha hb
  refine ⟨hs, ?_, ?_, ?_, ?_, ?_, compare_strings_total a b ha hb⟩
  · rw [← lex_sign_eq_zero, ← hs, Int.sign_eq_zero_iff_zero]
  · intro ext hne hext
    have hz : zero_free (a ++ ext) := by
      intro c hc
      rcases List.mem_append.mp hc with h | h
      · exact ha c h
      · exact hext c h
    have h := compare_strings_sign a (a ++ ext) ha hz
    rw [List.map_append, lex_sign_extension _ _ (by simpa using hne)] at h
    exact Int.sign_eq_neg_one_iff_neg.mp h
  · rw [compare_strings_sign b a hb ha, hs, lex_sign_swap]
  · intro h1 h2
    rw [compare_strings_le_iff a b ha hb] at h1
    rw [compare_strings_le_iff b a hb ha, lex_sign_swap] at h2
    rw [← lex_sign_eq_zero]
    omega
  · intro c hc h1 h2
    exact compare_strings_trans a b c ha hb hc h1 h2

/-- C18 at concrete strings: `b.ROM` against `d.BIN`. -/
theorem compare_strings_order_witness :
    zero_free (lit "b.ROM") ∧ zero_free (lit "d.BIN") ∧
      Int.sign (compare_strings (lit "b.ROM") (lit "d.BIN")) =
        lex_sign ((lit "b.ROM").map tolower) ((lit "d.BIN").map tolower) :=
  ⟨by decide, by decide,
    (compare_strings_order (lit "b.ROM") (lit "d.BIN") (by decide) (by decide)).1⟩

/-! ## The ROM listing (C17) -/

/-! ## The listing blocks -/

theorem filter_eq (files allowed : List (List Nat)) :
    filter files allowed = files.filter (allowed_extension allowed) := rfl

theorem pairwise_orderedInsert (a : List Nat) (l : List (List Nat)) (ha : zero_free a)
    (hz : ∀ x ∈ l, zero_free x) (hl : l.Pairwise (fun x y => compare_strings x y ≤ 0)) :
    (l.orderedInsert (fun x y => compare_strings x y ≤ 0) a).Pairwise
      (fun x y => compare_strings x y ≤ 0) := by
  induction l with
  | nil => simp
  | cons b l ih =>
    have hb : zero_free b := hz b (List.mem_cons_self _ _)
    have hzl : ∀ x ∈ l, zero_free x := fun x hx => hz x (List.mem_cons_of_mem _ hx)
    rw [List.pairwise_cons] at hl
    simp only [List.orderedInsert]
    split_ifs with h
    · rw [List.pairwise_cons]
      refine ⟨?_, List.pairwise_cons.mpr hl⟩
      intro x hx
      rcases List.mem_cons.mp hx with rfl | hx
      · exact h
      · exact compare_strings_trans a b x ha hb (hzl x hx) h (hl.1 x hx)
    · rw [List.pairwise_cons]
      refine ⟨?_, ih hzl hl.2⟩
      intro x hx
      rcases (List.mem_orderedInsert _).mp hx with rfl | hx
      · rcases compare_strings_total x b ha hb with h' | h'
        · exact absurd h' h
        · exact h'
      · exact hl.1 x hx

theorem qsort_sorted (l : List (List Nat)) (hz : ∀ x ∈ l, zero_free x) :
    (qsort l).Pairwise (fun x y => compare_strings x y ≤ 0) := by
  unfold qsort
  induction l with
  | nil => simp
  | cons a l ih =>
    simp only [List.insertionSort]
    apply pairwise_orderedInsert a _ (hz a (List.mem_cons_self _ _))
    · intro x hx
      exact hz x (List.mem_cons_of_mem _ ((List.mem_insertionSort _).mp hx))
    · exact ih (fun x hx => hz x (List.mem_cons_of_mem _ hx))

theorem qsort_perm (l : List (List Nat)) : (qsort l).Perm l :=
  List.perm_insertionSort _ l

theorem list_files_result (env : Env) (s : State) (key : String) (allowed : List (List Nat)) :
    (list_files env s key allowed).filtered_local_list =
        qsort (filter (env.dir_files (cstr (config_value env key))) allowed) ∧
      (list_files env s key allowed).filtered_num_local_files =
        (list_files env s key allowed).filtered_local_list.length := by
  unfold list_files store_file_list
  simp only []
  rw [encode_list_eq]
  simp [State.call, State.write_token, qsort, List.length_insertionSort]

theorem eq_of_perm_sorted_strict (le : List Nat → List Nat → Prop) (t r : List (List Nat))
    (hp : r.Perm t) (hr : r.Pairwise le) (ht : t.Pairwise (fun a b => ¬ le b a)) : r = t := by
  induction t generalizing r with
  | nil => exact hp.eq_nil
  | cons x t ih =>
    cases r with
    | nil => exact absurd hp.symm.eq_nil (by simp)
    | cons y r =>
      rw [List.pairwise_cons] at hr ht
      by_cases hxy : y = x
      · subst hxy
        rw [ih r (List.Perm.cons_inv hp) hr.2 ht.2]
      · exfalso
        have hx : x ∈ r := by
          have : x ∈ y :: r := hp.symm.subset (List.mem_cons_self _ _)
          rcases List.mem_cons.mp this with h | h
          · exact absurd h.symm hxy
          · exact h
        have hy : y ∈ t := by
          have : y ∈ x :: t := hp.subset (List.mem_cons_self _ _)
          rcases List.mem_cons.mp this with h | h
          · exact absurd h hxy
          · exact h
        exact ht.1 y hy (hr.1 x hx)

/-- C17: the ROM listing block leaves in `filtered_local_list` exactly the files
of the directory listing whose extension is one of `img`, `bin`, `stc`, `rom`
(ignoring case), ordered so that no file compares greater than a later one
under `compare_strings`; for the listing `a.img, b.ROM, c.txt, d.BIN`, in any
order, the list is `[a.img, b.ROM, d.BIN]`. -/
theorem list_roms_filtered_sorted (env : Env) (s : State) (h : s.list_roms = true)
    (hz : ∀ f ∈ env.dir_files (cstr (config_value env "ROMS_FOLDER")), zero_free f) :
    (∀ f, f ∈ (list_roms_action env s).filtered_local_list ↔
      f ∈ env.dir_files (cstr (config_value env "ROMS_FOLDER")) ∧
        allowed_extension rom_extensions f = true) ∧
    (list_roms_action env s).filtered_local_list.Perm
      ((env.dir_files (cstr (config_value env "ROMS_FOLDER"))).filter
        (allowed_extension rom_extensions)) ∧
    (list_roms_action env s).filtered_local_list.Pairwise
      (fun a b => compare_strings a b ≤ 0) ∧
    ((env.dir_files (cstr (config_value env "ROMS_FOLDER"))).Perm
        [lit "a.img", lit "b.ROM", lit "c.txt", lit "d.BIN"] →
      (list_roms_action env s).filtered_local_list = [lit "a.img", lit "b.ROM", lit "d.BIN"]) := by
  have hres : (list_roms_action env s).filtered_local_list =
      qsort ((env.dir_files (cstr (config_value env "ROMS_FOLDER"))).filter
        (allowed_extension rom_extensions)) := by
    unfold list_roms_action
    rw [if_pos h]
    exact (list_files_result env _ "ROMS_FOLDER" _).1
  have hperm := qsort_perm ((env.dir_files (cstr (config_value env "ROMS_FOLDER"))).filter
    (allowed_extension rom_extensions))
  have hsorted := qsort_sorted ((env.dir_files (cstr (config_value env "ROMS_FOLDER"))).filter
    (allowed_extension rom_extensions)) (fun x hx => hz x (List.mem_filter.mp hx).1)
  rw [hres]
  refine ⟨fun f => ?_, hperm, hsorted, fun hl => ?_⟩
  · rw [hperm.mem_iff, List.mem_filter]
  · apply eq_of_perm_sorted_strict (fun a b => compare_strings a b ≤ 0) _ _ _ hsorted
    · decide
    · have h4 : ([lit "a.img", lit "b.ROM", lit "c.txt", lit "d.BIN"].filter
          (allowed_extension rom_extensions)) = [lit "a.img", lit "b.ROM", lit "d.BIN"] := by
        decide
      rw [← h4]
      exact hperm.trans (hl.filter _)

/-- C17 on the sample environment, whose directory listing is
`a.img, b.ROM, c.txt, d.BIN`. -/
theorem list_roms_filtered_sorted_witness :
    State.listing_roms.list_roms = true ∧
      (list_roms_action Env.sample State.listing_roms).filtered_local_list =
        [lit "a.img", lit "b.ROM", lit "d.BIN"] :=
  ⟨rfl,
    (list_roms_filtered_sorted Env.sample State.listing_roms rfl (by decide)).2.2.2
      (List.Perm.refl _)⟩

/-! ## The index of `LOAD_ROM` (C20) -/

theorem local_rom_in_range (env : Env) (s : State) (k : Nat) (hsel : s.rom_file_selected = k)
    (h1 : 1 ≤ k) (h2 : k - 1 < s.filtered_local_list.length) :
    new_events s (local_rom_routine env s) =
      [Event.call "save_and_disable_interrupts" [],
       Event.call "flash_range_erase"
         [.num env.FLASH_ROM_LOAD_OFFSET, .num (env.ROM_SIZE_BYTES * 2 : Nat)],
       Event.call "restore_interrupts" [],
       Event.call "load_rom_from_fs"
         [.str (cstr (config_value env "ROMS_FOLDER")),
          .str (s.filtered_local_list.getD (k - 1) []),
          .num env.FLASH_ROM_LOAD_OFFSET],
       Event.call "release_memory_files" [.str (lit "file_list")],
       Event.call "release_memory_files" [.str (lit "filtered_local_list")],
       Event.call "put_string" [.str (lit "BOOT_FEATURE"), .str (lit "ROM_EMULATOR")],
       Event.call "write_all_entries" [],
       Event.token s.random_token] := by
  have hpos : s.rom_file_selected > 0 := by
    rw [hsel]
    omega
  have hidx : (s.rom_file_selected - 1).toNat = k - 1 := by
    rw [hsel]
    omega
  unfold local_rom_routine State.check_index
  rw [if_pos hpos]
  simp only []
  split_ifs with hin
  · simp [new_events, State.call, State.write_token, element_at, hidx]
  · exfalso
    apply hin
    simp only [element_at, State.call, decide_eq_true_eq]
    rw [hsel]
    omega

/-! ## The function `extract_filename` (C21) -/

theorem after_last_slash_none (p : List Nat) : after_last_slash p = none ↔ 47 ∉ p := by
  induction p with
  | nil => simp [after_last_slash]
  | cons c cs ih =>
    simp only [after_last_slash, List.mem_cons, not_or]
    cases h : after_last_slash cs with
    | some r =>
      have : ¬ (47 ∉ cs) := fun hn => by
        rw [ih.mpr hn] at h
        exact Option.noConfusion h
      simp [this]
    | none =>
      have hn : 47 ∉ cs := ih.mp h
      by_cases hc : c = 47
      · simp [hc]
      · simp only [if_neg hc, true_iff]
        exact ⟨fun e => hc e.symm, hn⟩

theorem after_last_slash_some (pre r : List Nat) (hr : 47 ∉ r) :
    after_last_slash (pre ++ 47 :: r) = some r := by
  induction pre with
  | nil =>
    simp only [List.nil_append, after_last_slash]
    rw [(after_last_slash_none r).mpr hr]
    simp
  | cons c cs ih =>
    show after_last_slash (c :: (cs ++ 47 :: r)) = some r
    rw [after_last_slash, ih]

theorem after_last_slash_split (p r : List Nat) (h : after_last_slash p = some r) :
    ∃ pre, p = pre ++ 47 :: r ∧ 47 ∉ r := by
  induction p with
  | nil => simp [after_last_slash] at h
  | cons c cs ih =>
    simp only [after_last_slash] at h
    cases h2 : after_last_slash cs with
    | some r2 =>
      rw [h2] at h
      simp only [Option.some.injEq] at h
      subst h
      obtain ⟨pre, hp, hn⟩ := ih h2
      exact ⟨c :: pre, by rw [hp]; rfl, hn⟩
    | none =>
      rw [h2] at h
      simp only at h
      by_cases hc : c = 47
      · rw [if_pos hc] at h
        simp only [Option.some.injEq] at h
        subst h
        subst hc
        exact ⟨[], rfl, (after_last_slash_none cs).mp h2⟩
      · rw [if_neg hc] at h
        exact Option.noConfusion h

/-- C21 (amended): `extract_filename` returns the part of the path after its
last `/` when the path contains a `/` and does not end with one; it returns the
whole path when the path contains no `/` and also when the path ends with
`/`. So the whole path is returned exactly when the path has no `/` or its
last character is `/`. -/
theorem extract_filename_after_last_slash (path : List Nat) :
    (47 ∉ path → extract_filename path = path) ∧
    (∀ pre r : List Nat, path = pre ++ 47 :: r → 47 ∉ r → r ≠ [] → extract_filename path = r) ∧
    (∀ pre : List Nat, path = pre ++ [47] → extract_filename path = path) ∧
    (extract_filename path = path ↔ 47 ∉ path ∨ path.getLast? = some 47) := by
  have hnone : 47 ∉ path → extract_filename path = path := by
    intro h
    simp [extract_filename, (after_last_slash_none path).mpr h]
  have hsome : ∀ pre r : List Nat, path = pre ++ 47 :: r → 47 ∉ r → r ≠ [] →
      extract_filename path = r := by
    intro pre r hp hr hne
    rw [hp]
    unfold extract_filename
    rw [after_last_slash_some pre r hr]
    cases r with
    | nil => exact absurd rfl hne
    | cons c cs => rfl
  have hend : ∀ pre : List Nat, path = pre ++ [47] → extract_filename path = path := by
    intro pre hp
    rw [hp]
    unfold extract_filename
    rw [after_last_slash_some pre [] (by simp)]
  refine ⟨hnone, hsome, hend, ?_⟩
  constructor
  · intro h
    by_cases hin : 47 ∈ path
    · right
      cases h2 : after_last_slash path with
      | none => exact absurd hin ((after_last_slash_none path).mp h2)
      | some r =>
        obtain ⟨pre, hp, hr⟩ := after_last_slash_split path r h2
        cases r with
        | nil =>
          rw [hp]
          simp
        | cons c cs =>
          exfalso
          have e := hsome pre (c :: cs) hp hr (by simp)
          rw [h] at e
          have hl := congrArg List.length e
          rw [hp] at hl
          simp at hl
          omega
    · exact Or.inl hin
  · intro h
    rcases h with h | h
    · exact hnone h
    · obtain ⟨pre, hp⟩ : ∃ pre, path = pre ++ [47] := by
        cases hd : path.reverse with
        | nil =>
          have : path = [] := by simpa using hd
          rw [this] at h
          simp at h
        | cons c cs =>
          have hp : path = cs.reverse ++ [c] := by
            have := congrArg List.reverse hd
            simpa using this
          rw [hp] at h
          simp only [List.getLast?_append, List.getLast?_singleton, Option.or_some,
            Option.some.injEq] at h
          exact ⟨cs.reverse, by rw [hp, h]⟩
      exact hend pre hp

/-- C21 as stated fails for a path that ends with `/`: the path `a/b/` contains
a `/`, the part after its last `/` is empty, and `extract_filename` returns the
whole path. -/
theorem extract_filename_trailing_slash :
    47 ∈ lit "a/b/" ∧ after_last_slash (lit "a/b/") = some [] ∧
      extract_filename (lit "a/b/") = lit "a/b/" ∧
      extract_filename (lit "a/b/") ≠ [] ∧
      extract_filename (lit "db/a/game.st") = lit "game.st" := by
  decide

/-! ## The name the local-floppy routine registers (C22) -/

theorem drop_suffix (a b : List Nat) : (a ++ b).drop ((a ++ b).length - b.length) = b := by
  have : (a ++ b).length - b.length = a.length := by simp
  rw [this, List.drop_left]

/-- In read-write mode the name of the specification ends in `.rw`. -/
theorem spec_registered_name_rw (f : List Nat) :
    (spec_registered_name f true).drop ((spec_registered_name f true).length - 3) = lit ".rw" := by
  unfold spec_registered_name
  simp only [if_true]
  split
  · rename_i h
    exact h.2
  · exact drop_suffix (spec_source_name f) (lit ".rw")

theorem strcasecmp_msa (a : List Nat) :
    strcasecmp_eq a (lit ".MSA") = decide (a.map tolower = lit ".msa") := by
  have : (lit ".MSA").map tolower = lit ".msa" := by decide
  simp [strcasecmp_eq, this]

/-- The events of the local-floppy routine for the selected file `f`, by the
cases of the conversion and of the copy. -/
theorem local_floppy_events (env : Env) (s : State) (k : Nat)
    (hsel : s.floppy_file_selected = k) (h1 : 1 ≤ k) (h2 : k - 1 < s.filtered_local_list.length) :
    ((s.filtered_local_list.getD (k - 1) []).length > 4 ∧
        ((s.filtered_local_list.getD (k - 1) []).drop
          ((s.filtered_local_list.getD (k - 1) []).length - 4)).map tolower = lit ".msa" →
      env.msa_to_st_result ≠ 0 →
      new_events s (local_floppy_routine env s) =
        [Event.call "dma_channel_set_irq1_enabled" [.flag false],
         Event.call "MSA_to_ST"
           [.str (cstr (config_value env "FLOPPIES_FOLDER")),
            .str (s.filtered_local_list.getD (k - 1) []),
            .str (spec_source_name (s.filtered_local_list.getD (k - 1) [])), .flag true],
         Event.call "dma_channel_set_irq1_enabled" [.flag true],
         Event.token s.random_token]) ∧
    (((s.filtered_local_list.getD (k - 1) []).length > 4 ∧
        ((s.filtered_local_list.getD (k - 1) []).drop
          ((s.filtered_local_list.getD (k - 1) []).length - 4)).map tolower = lit ".msa" →
      env.msa_to_st_result = 0) →
      ∃ pre : List Event,
        new_events s (local_floppy_routine env s) =
          pre ++
            [Event.call "put_string"
               [.str (lit "FLOPPY_IMAGE_A"),
                .str (spec_registered_name (s.filtered_local_list.getD (k - 1) [])
                  s.floppy_read_write)],
             Event.call "put_string" [.str (lit "BOOT_FEATURE"), .str (lit "FLOPPY_EMULATOR")],
             Event.call "write_all_entries" [],
             Event.call "release_memory_files" [.str (lit "file_list")],
             Event.call "release_memory_files" [.str (lit "filtered_local_list")],
             Event.call "blink_morse" [.str (lit "F")],
             Event.token s.random_token] ∧
        ∀ e ∈ pre, ∀ args, e ≠ Event.call "put_string" args) := by
  have hpos : s.floppy_file_selected > 0 := by
    rw [hsel]
    omega
  have hidx : (s.floppy_file_selected - 1).toNat = k - 1 := by
    rw [hsel]
    omega
  have hin : (1 : Int) ≤ s.floppy_file_selected ∧
      s.floppy_file_selected ≤ (s.filtered_local_list.length : Int) := by
    rw [hsel]
    omega
  generalize hf : s.filtered_local_list.getD (k - 1) [] = f
  have hfile : element_at s.filtered_local_list s.floppy_file_selected = (f, true) := by
    simp only [element_at, hidx, hf, hin, and_self, decide_True]
  unfold local_floppy_routine State.check_index
  rw [if_pos hpos, hfile]
  simp only [if_true, strcasecmp_msa]
  by_cases hm : f.length > 4 ∧ (f.drop (f.length - 4)).map tolower = lit ".msa"
  · have his : (decide (f.length > 4) &&
        decide ((f.drop (f.length - 4)).map tolower = lit ".msa")) = true := by
      simp [hm.1, hm.2]
    have hsrc : spec_source_name f = f.take (f.length - 4) ++ lit ".ST" := by
      simp only [spec_source_name, if_pos hm]
    simp only [his, if_true]
    constructor
    · intro _ herr
      simp only [herr, ne_eq, not_false_eq_true, if_true, hsrc]
      simp [new_events, State.call, State.write_token]
    · intro hok
      have hr := hok hm
      simp only [hr, ne_eq, not_true_eq_false, if_false]
      unfold spec_registered_name
      rw [hsrc]
      by_cases hrw : s.floppy_read_write = true
      · by_cases hu : (f.take (f.length - 4) ++ lit ".ST").length > 3 ∧
            (f.take (f.length - 4) ++ lit ".ST").drop
              ((f.take (f.length - 4) ++ lit ".ST").length - 3) = lit ".rw"
        · refine ⟨[Event.call "dma_channel_set_irq1_enabled" [.flag false],
            Event.call "MSA_to_ST"
              [.str (cstr (config_value env "FLOPPIES_FOLDER")), .str f,
               .str (f.take (f.length - 4) ++ lit ".ST"), .flag true],
            Event.call "dma_channel_set_irq1_enabled" [.flag true]], ?_, ?_⟩
          · have hu2 : (decide ((f.take (f.length - 4) ++ lit ".ST").length > 3) &&
                decide ((f.take (f.length - 4) ++ lit ".ST").drop
                  ((f.take (f.length - 4) ++ lit ".ST").length - 3) = lit ".rw")) = true := by
              simp only [hu.1, hu.2, decide_True, Bool.and_self]
            simp only [if_pos hrw, if_pos hu, State.call, hrw, hu2, Bool.not_true, Bool.and_false,
              Bool.false_eq_true, if_false]
            simp [new_events, State.write_token]
          · intro e he args
            simp only [List.mem_cons, List.mem_singleton, List.not_mem_nil, or_false] at he
            rcases he with rfl | rfl | rfl <;> simp
        · refine ⟨[Event.call "dma_channel_set_irq1_enabled" [.flag false],
            Event.call "MSA_to_ST"
              [.str (cstr (config_value env "FLOPPIES_FOLDER")), .str f,
               .str (f.take (f.length - 4) ++ lit ".ST"), .flag true],
            Event.call "dma_channel_set_irq1_enabled" [.flag true],
            Event.call "dma_channel_set_irq1_enabled" [.flag false],
            Event.call "copy_file"
              [.str (cstr (config_value env "FLOPPIES_FOLDER")),
               .str (f.take (f.length - 4) ++ lit ".ST"),
               .str (f.take (f.length - 4) ++ lit ".ST" ++ lit ".rw"), .flag false],
            Event.call "dma_channel_set_irq1_enabled" [.flag true]], ?_, ?_⟩
          · have hu2 : (decide ((f.take (f.length - 4) ++ lit ".ST").length > 3) &&
                decide ((f.take (f.length - 4) ++ lit ".ST").drop
                  ((f.take (f.length - 4) ++ lit ".ST").length - 3) = lit ".rw")) = false := by
              have hd := decide_eq_false hu
              rwa [Bool.decide_and] at hd
            simp only [if_pos hrw, if_neg hu, State.call, hrw, hu2, Bool.not_false, Bool.and_self,
              if_true]
            simp [new_events, State.write_token]
          · intro e he args
            simp only [List.mem_cons, List.mem_singleton, List.not_mem_nil, or_false] at he
            rcases he with rfl | rfl | rfl | rfl | rfl | rfl <;> simp
      · have hrw2 : s.floppy_read_write = false := by simpa using hrw
        refine ⟨[Event.call "dma_channel_set_irq1_enabled" [.flag false],
          Event.call "MSA_to_ST"
            [.str (cstr (config_value env "FLOPPIES_FOLDER")), .str f,
             .str (f.take (f.length - 4) ++ lit ".ST"), .flag true],
          Event.call "dma_channel_set_irq1_enabled" [.flag true]], ?_, ?_⟩
        · simp only [hrw2, Bool.false_eq_true, if_false, State.call, Bool.false_and]
          simp [new_events, State.write_token]
        · intro e he args
          simp only [List.mem_cons, List.mem_singleton, List.not_mem_nil, or_false] at he
          rcases he with rfl | rfl | rfl <;> simp
  · have his : (decide (f.length > 4) &&
        decide ((f.drop (f.length - 4)).map tolower = lit ".msa")) = false := by
      simpa using hm
    have hsrc : spec_source_name f = f := by
      simp only [spec_source_name, if_neg hm]
    simp only [his, Bool.false_eq_true, if_false]
    constructor
    · intro hm2
      exact absurd hm2 hm
    · intro _
      unfold spec_registered_name
      rw [hsrc]
      by_cases hrw : s.floppy_read_write = true
      · by_cases hu : f.length > 3 ∧ f.drop (f.length - 3) = lit ".rw"
        · refine ⟨[], ?_, ?_⟩
          · have hu2 : (decide (f.length > 3) && decide (f.drop (f.length - 3) = lit ".rw")) =
                true := by
              simp only [hu.1, hu.2, decide_True, Bool.and_self]
            simp only [if_pos hrw, if_pos hu, hrw, hu2, Bool.not_true, Bool.and_false,
              Bool.false_eq_true, if_false, State.call]
            simp [new_events, State.write_token]
          · intro e he
            simp at he
        · refine ⟨[Event.call "dma_channel_set_irq1_enabled" [.flag false],
            Event.call "copy_file"
              [.str (cstr (config_value env "FLOPPIES_FOLDER")), .str f,
               .str (f ++ lit ".rw"), .flag false],
            Event.call "dma_channel_set_irq1_enabled" [.flag true]], ?_, ?_⟩
          · have hu2 : (decide (f.length > 3) && decide (f.drop (f.length - 3) = lit ".rw")) =
                false := by
              have hd := decide_eq_false hu
              rwa [Bool.decide_and] at hd
            simp only [if_pos hrw, if_neg hu, hrw, hu2, Bool.not_false, Bool.and_self, if_true,
              State.call]
            simp [new_events, State.write_token]
          · intro e he args
            simp only [List.mem_cons, List.mem_singleton, List.not_mem_nil, or_false] at he
            rcases he with rfl | rfl | rfl <;> simp
      · have hrw2 : s.floppy_read_write = false := by simpa using hrw
        refine ⟨[], ?_, ?_⟩
        · simp only [hrw2, Bool.false_eq_true, if_false, State.call, Bool.false_and]
          simp [new_events, State.write_token]
        · intro e he
          simp at he

theorem load_floppy_mode (env : Env) (s : State) (p : TransmissionProtocol)
    (hm : s.microsd_mounted = true) :
    (p.command_id = .LOAD_FLOPPY_RO →
      (handle_protocol_command env s p).floppy_read_write = false ∧
      (handle_protocol_command env s p).floppy_file_selected = u16_at p.payload 4) ∧
    (p.command_id = .LOAD_FLOPPY_RW →
      (handle_protocol_command env s p).floppy_read_write = true ∧
      (handle_protocol_command env s p).floppy_file_selected = u16_at p.payload 4) := by
  obtain ⟨cid, sz, payload⟩ := p
  constructor
  · intro hc
    simp only at hc
    subst hc
    simp [handle_protocol_command, State.set_token, hm]
  · intro hc
    simp only at hc
    subst hc
    simp [handle_protocol_command, State.set_token, hm]

/-- C22 (amended): for the selected file `f` of the list, when `f` is longer
than 4 characters and ends in `.msa` ignoring case and the conversion reports
failure, the local-floppy routine registers nothing: after the calls of the
conversion it only stores the token. In every other case it registers as
`FLOPPY_IMAGE_A` the name of the specification: with the source name `f` or,
after a conversion, `f` with its last 4 characters replaced by `.ST`, the
source name in read-only mode, and in read-write mode the source name itself
when it is longer than 3 characters and ends in `.rw`, otherwise the source
name followed by `.rw`; so in read-write mode the registered name ends in
`.rw`. The mode is the one of the request: `LOAD_FLOPPY_RO` clears
`floppy_read_write` and `LOAD_FLOPPY_RW` sets it. -/
theorem floppy_registered_name (env : Env) (s : State) (k : Nat)
    (hsel : s.floppy_file_selected = k) (h1 : 1 ≤ k) (h2 : k - 1 < s.filtered_local_list.length) :
    ((s.filtered_local_list.getD (k - 1) []).length > 4 ∧
        ((s.filtered_local_list.getD (k - 1) []).drop
          ((s.filtered_local_list.getD (k - 1) []).length - 4)).map tolower = lit ".msa" →
      env.msa_to_st_result ≠ 0 →
      new_events s (local_floppy_routine env s) =
        [Event.call "dma_channel_set_irq1_enabled" [.flag false],
         Event.call "MSA_to_ST"
           [.str (cstr (config_value env "FLOPPIES_FOLDER")),
            .str (s.filtered_local_list.getD (k - 1) []),
            .str (spec_source_name (s.filtered_local_list.getD (k - 1) [])), .flag true],
         Event.call "dma_channel_set_irq1_enabled" [.flag true],
         Event.token s.random_token]) ∧
    (((s.filtered_local_list.getD (k - 1) []).length > 4 ∧
        ((s.filtered_local_list.getD (k - 1) []).drop
          ((s.filtered_local_list.getD (k - 1) []).length - 4)).map tolower = lit ".msa" →
      env.msa_to_st_result = 0) →
      ∃ pre : List Event,
        new_events s (local_floppy_routine env s) =
          pre ++
            [Event.call "put_string"
               [.str (lit "FLOPPY_IMAGE_A"),
                .str (spec_registered_name (s.filtered_local_list.getD (k - 1) [])
                  s.floppy_read_write)],
             Event.call "put_string" [.str (lit "BOOT_FEATURE"), .str (lit "FLOPPY_EMULATOR")],
             Event.call "write_all_entries" [],
             Event.call "release_memory_files" [.str (lit "file_list")],
             Event.call "release_memory_files" [.str (lit "filtered_local_list")],
             Event.call "blink_morse" [.str (lit "F")],
             Event.token s.random_token] ∧
        ∀ e ∈ pre, ∀ args, e ≠ Event.call "put_string" args) ∧
    (spec_registered_name (s.filtered_local_list.getD (k - 1) []) true).drop
        ((spec_registered_name (s.filtered_local_list.getD (k - 1) []) true).length - 3) =
      lit ".rw" ∧
    (∀ (env2 : Env) (s2 : State) (p : TransmissionProtocol), s2.microsd_mounted = true →
      (p.command_id = .LOAD_FLOPPY_RO →
        (handle_protocol_command env2 s2 p).floppy_read_write = false ∧
        (handle_protocol_command env2 s2 p).floppy_file_selected = u16_at p.payload 4) ∧
      (p.command_id = .LOAD_FLOPPY_RW →
        (handle_protocol_command env2 s2 p).floppy_read_write = true ∧
        (handle_protocol_command env2 s2 p).floppy_file_selected = u16_at p.payload 4)) :=
  ⟨(local_floppy_events env s k hsel h1 h2).1, (local_floppy_events env s k hsel h1 h2).2,
    spec_registered_name_rw _, fun env2 s2 p hm => load_floppy_mode env2 s2 p hm⟩

/-- C22 (amended) at a concrete selection: `game.msa` in read-only mode with a
conversion that succeeds is registered as `game.ST`. -/
theorem floppy_registered_name_witness :
    State.floppy_selected.floppy_file_selected = 1 ∧
    spec_registered_name (lit "game.msa") false = lit "game.ST" ∧
    ∃ pre : List Event,
      new_events State.floppy_selected (local_floppy_routine Env.sample State.floppy_selected) =
        pre ++
          [Event.call "put_string"
             [.str (lit "FLOPPY_IMAGE_A"), .str (spec_registered_name (lit "game.msa") false)],
           Event.call "put_string" [.str (lit "BOOT_FEATURE"), .str (lit "FLOPPY_EMULATOR")],
           Event.call "write_all_entries" [],
           Event.call "release_memory_files" [.str (lit "file_list")],
           Event.call "release_memory_files" [.str (lit "filtered_local_list")],
           Event.call "blink_morse" [.str (lit "F")],
           Event.token 7] ∧
      ∀ e ∈ pre, ∀ args, e ≠ Event.call "put_string" args :=
  ⟨rfl, by decide,
    (floppy_registered_name Env.sample State.floppy_selected 1 rfl (by decide) (by decide)).2.1
      (fun _ => rfl)⟩

/-- C22 as stated fails when the conversion fails: for `game.msa` in read-only
mode the claim, with the conversion not succeeded, has the source name
`game.msa` registered, but the routine calls the conversion, registers nothing
and only stores the token. The names of the other cases are as claimed:
`work.st` is registered as `work.st.rw` in read-write mode and `save.st.rw`
as it is. -/
theorem failed_conversion_registers_nothing :
    Env.failing_msa.msa_to_st_result ≠ 0 ∧
    new_events State.floppy_selected (local_floppy_routine Env.failing_msa State.floppy_selected) =
      [Event.call "dma_channel_set_irq1_enabled" [.flag false],
       Event.call "MSA_to_ST"
         [.str (lit "/roms"), .str (lit "game.msa"), .str (lit "game.ST"), .flag true],
       Event.call "dma_channel_set_irq1_enabled" [.flag true],
       Event.token 7] ∧
    spec_registered_name (lit "work.st") true = lit "work.st.rw" ∧
    spec_registered_name (lit "save.st.rw") true = lit "save.st.rw" ∧
    spec_registered_name (lit "GAME.MSA") true = lit "GAME.ST.rw" := by
  refine ⟨by decide, by decide, by decide, by decide, by decide⟩

/-! ## The erased range and the scan timer (C23, C24) -/

/-- The call `delete_FLASH` makes: one byte less than the two banks. -/
theorem delete_FLASH_events (env : Env) (s : State) :
    new_events s (delete_FLASH env s).1 =
      [Event.call "flash_range_erase"
        [.num env.FLASH_ROM_LOAD_OFFSET, .num ((2 * env.ROM_SIZE_BYTES : Nat) - 1 : Int)]] ∧
    (delete_FLASH env s).2 = 0 ∧
    ((2 * env.ROM_SIZE_BYTES : Nat) - 1 : Int) ≠ (2 * env.ROM_SIZE_BYTES : Nat) := by
  refine ⟨?_, rfl, by omega⟩
  simp [delete_FLASH, new_events, State.call, Nat.mul_comm]

/-- C23 fails: with `ROM_SIZE_BYTES` 0x10000, `delete_FLASH` passes the byte
count 0x1FFFF to `flash_range_erase`, one byte less than the two banks, while
the local-ROM routine erases 0x20000 bytes from the same offset. -/
theorem delete_FLASH_one_byte_short :
    Env.sample.ROM_SIZE_BYTES = 0x10000 ∧
    new_events State.initial (delete_FLASH Env.sample State.initial).1 =
      [Event.call "flash_range_erase" [.num 0xE0000, .num 0x1FFFF]] ∧
    Event.call "flash_range_erase" [.num 0xE0000, .num 0x20000] ∈
      new_events State.rom_and_reset (local_rom_routine Env.sample State.rom_and_reset) ∧
    (0x1FFFF : Int) ≠ 2 * Env.sample.ROM_SIZE_BYTES := by
  refine ⟨rfl, by decide, by decide, by decide⟩

theorem wrap_int32_small (x : Int) (h0 : 0 ≤ x) (h1 : x < 2 ^ 31) : wrap_int32 x = x := by
  unfold wrap_int32
  omega

/-- The scan timer compares with the true product as long as the product fits
a 32-bit `int`, that is for intervals up to 2147 seconds; and without the
entry `WIFI_SCAN_SECONDS` the block calls nothing. -/
theorem scan_timer_small_interval (env : Env) (s : State) (now mcs counter : Nat)
    (h : counter ≤ 2147) :
    scan_timer_due now mcs counter = interval_elapsed now mcs counter ∧
    (env.find_entry (lit "WIFI_SCAN_SECONDS") = none → scan_timer_action env s = s) := by
  constructor
  · unfold scan_timer_due interval_elapsed
    rw [wrap_int32_small _ (by omega) (by omega)]
    have : ((counter : Int) * 1000000) % 2 ^ 64 = (counter : Int) * 1000000 := by omega
    rw [this]
  · intro hn
    unfold scan_timer_action
    rw [hn]
    simp

/-- C24 fails for intervals from 2148 seconds on: the product is taken in a
32-bit `int`. With an interval of 4295 seconds the product wraps to 32704, so
the block triggers a scan one second after the last one; with an interval of
3000 seconds the product wraps to a negative value, which the comparison reads
as a huge unsigned one, so the block triggers no scan after 4000 seconds. -/
theorem scan_timer_product_wraps :
    wrap_int32 (4295 * 1000000) = 32704 ∧
    scan_timer_due 20000000 19000000 4295 = true ∧
    interval_elapsed 20000000 19000000 4295 = false ∧
    new_events State.long_interval (scan_timer_action Env.sample State.long_interval) =
      [Event.call "network_scan" []] ∧
    wrap_int32 (3000 * 1000000) = -1294967296 ∧
    scan_timer_due 4000000000 0 3000 = false ∧
    interval_elapsed 4000000000 0 3000 = true := by
  refine ⟨by decide, by decide, by decide, by decide, by decide, by decide, by decide⟩

/-! ## The bounds of the window (C25) -/

/-- The clears of the latest-release and JSON-index blocks store
`CONFIGURATOR_SHARED_MEMORY_SIZE_BYTES` zero bytes from offset 4, the clear of
the floppy-database block stores them from offset 0. -/
theorem clear_events (env : Env) (s : State) :
    (s.latest_release = true →
      Event.store 4 env.CONFIGURATOR_SHARED_MEMORY_SIZE_BYTES ∈
        new_events s (latest_release_action env s)) ∧
    (s.get_json_file = true →
      Event.store 4 env.CONFIGURATOR_SHARED_MEMORY_SIZE_BYTES ∈
        new_events s (get_json_file_action env s)) ∧
    (s.query_floppy_db = true →
      Event.store 0 env.CONFIGURATOR_SHARED_MEMORY_SIZE_BYTES ∈
        new_events s (query_floppy_db_action env s)) ∧
    Event.inside_window env.CONFIGURATOR_SHARED_MEMORY_SIZE_BYTES
      (Event.store 4 env.CONFIGURATOR_SHARED_MEMORY_SIZE_BYTES) = false ∧
    Event.inside_window env.CONFIGURATOR_SHARED_MEMORY_SIZE_BYTES
      (Event.store 0 env.CONFIGURATOR_SHARED_MEMORY_SIZE_BYTES) = true := by
  refine ⟨fun h => ?_, fun h => ?_, fun h => ?_, ?_, ?_⟩
  · unfold latest_release_action
    rw [if_pos h]
    simp only []
    split
    · split_ifs <;>
        simp [new_events, State.call, State.write_token, State.write, State.clear,
          State.swap_region]
    · simp [new_events, State.call, State.write_token, State.write, State.clear]
  · unfold get_json_file_action
    rw [if_pos h]
    simp only []
    rw [new_events, encode_list_eq]
    simp [State.call, State.write_token, State.write, State.clear]
  · unfold query_floppy_db_action
    rw [if_pos h]
    simp only []
    rw [new_events, encode_list_eq]
    simp [State.call, State.write_token, State.write, State.clear]
  · simp [Event.inside_window]
  · simp [Event.inside_window]

/-- C25 fails for the clears of the latest-release and JSON-index blocks: with
a window of 64 bytes each block stores 64 zero bytes from offset 4, so the
bytes at offsets 64 to 67, the first four from `ROM3_START_ADDRESS` on, are
overwritten; the floppy-database block clears from offset 0 and leaves them. -/
theorem clear_overruns_window :
    Env.sample.CONFIGURATOR_SHARED_MEMORY_SIZE_BYTES = 64 ∧
    State.filled_window.window 67 = 255 ∧
    Event.store 4 64 ∈
      new_events State.filled_window (get_json_file_action Env.sample State.filled_window) ∧
    (get_json_file_action Env.sample State.filled_window).window 64 = 0 ∧
    (get_json_file_action Env.sample State.filled_window).window 67 = 0 ∧
    Event.store 4 64 ∈
      new_events State.filled_window (latest_release_action Env.sample State.filled_window) ∧
    (latest_release_action Env.sample State.filled_window).window 67 = 0 ∧
    (query_floppy_db_action Env.sample
      { State.filled_window with query_floppy_db := true }).window 67 = 255 ∧
    (new_events State.filled_window (loop_body Env.sample State.filled_window)).all
      (Event.inside_window 64) = false := by
  refine ⟨rfl, rfl, by decide, by decide, by decide, by decide, by decide, by decide, by decide⟩

/-! ## The suffix of the floppy name (C26) -/

/-- The suffix is appended inside the field exactly when the name, its seven
new bytes included, fits the field. -/
theorem append_st_rw_inside (field : List Nat) :
    (append_st_rw field).2 = true ↔ (cstr field).length + 7 ≤ field.length := by
  simp [append_st_rw]

/-- The create-floppy block stays inside `floppy_name` when the decoded name
is shorter than 250 characters. -/
theorem create_floppy_short_name (env : Env) (s : State)
    (h : (cstr s.floppy_header.floppy_name).length + 7 ≤ s.floppy_header.floppy_name.length) :
    Event.overrun "floppy_header.floppy_name" ∉ new_events s (create_floppy_action env s) := by
  have hin := (append_st_rw_inside s.floppy_header.floppy_name).mpr h
  unfold create_floppy_action
  split
  · simp only [hin, if_true]
    simp [new_events, State.call, State.write_token, State.clear]
  · simp [new_events]

/-- C26 fails for names of 250 to 255 characters: `CREATE_FLOPPY` with a
zero-terminated floppy name of 250 characters leaves the name, terminated,
in the 256-byte field; the create-floppy block finds its end at position 250
and `strcpy` stores the seven bytes of `.st.rw` and its terminator at positions
250 to 256, the last one beyond the field. A name of 4 characters stays
inside. -/
theorem create_floppy_suffix_overruns :
    u16_at long_name_payload 4 = 1 ∧
    (handle_protocol_command Env.sample State.initial
        ⟨.CREATE_FLOPPY, 284, long_name_payload⟩).floppy_header.floppy_name.length = 256 ∧
    cstr (handle_protocol_command Env.sample State.initial
        ⟨.CREATE_FLOPPY, 284, long_name_payload⟩).floppy_header.floppy_name =
      List.replicate 250 65 ∧
    (append_st_rw (handle_protocol_command Env.sample State.initial
        ⟨.CREATE_FLOPPY, 284, long_name_payload⟩).floppy_header.floppy_name).2 = false ∧
    Event.overrun "floppy_header.floppy_name" ∈
      new_events
        (handle_protocol_command Env.sample State.initial ⟨.CREATE_FLOPPY, 284, long_name_payload⟩)
        (create_floppy_action Env.sample
          (handle_protocol_command Env.sample State.initial
            ⟨.CREATE_FLOPPY, 284, long_name_payload⟩)) ∧
    Event.overrun "floppy_header.floppy_name" ∉
      new_events
        (handle_protocol_command Env.sample State.initial ⟨.CREATE_FLOPPY, 284, short_names_payload⟩)
        (create_floppy_action Env.sample
          (handle_protocol_command Env.sample State.initial
            ⟨.CREATE_FLOPPY, 284, short_names_payload⟩)) := by
  refine ⟨by decide, by decide, by decide, by decide, by decide, by decide⟩

/-! ## A pass of the loop body that stays inside its objects -/

/-- With no listing requested, a block of the loop body leaves the list, its
count and the two requests as they are. -/
theorem list_view_action (env : Env) (s : State) (action : Env → State → State)
    (h : action ∈ loop_actions) (hr : s.list_roms = false) (hf : s.list_floppies = false) :
    list_view (action env s) = list_view s := by
  simp only [loop_actions, List.mem_cons, List.mem_singleton, List.not_mem_nil, or_false] at h
  rcases h with h | h | h | h | h | h | h | h | h | h | h | h | h | h <;> subst h
  · unfold scan_timer_action
    repeat' split
    all_goals simp [list_view, State.call]
  · unfold wifi_auth_action
    repeat' split
    all_goals simp [list_view, State.call, State.clear]
  · unfold disconnect_action restart_network clean_credentials
    repeat' split
    all_goals simp [list_view, State.call, State.clear]
  · unfold status_poll_action restart_network clean_credentials
    repeat' split
    all_goals simp [list_view, State.call, State.clear]
  · unfold persist_config_action
    repeat' split
    all_goals simp [list_view, State.call, State.clear, State.write_token]
  · unfold microsd_status_action
    repeat' split
    all_goals simp [list_view, State.call, State.clear, State.write_token, State.write,
      State.swap_region]
  · unfold latest_release_action
    repeat' split
    all_goals simp [list_view, State.call, State.clear, State.write_token, State.write,
      State.swap_region]
  · unfold get_json_file_action
    split
    · simp only []
      rw [encode_list_eq]
      simp [list_view, State.call, State.clear, State.write_token, State.write]
    · rfl
  · unfold list_roms_action
    rw [if_neg (by simp [hr])]
  · unfold list_floppies_action
    rw [if_neg (by simp [hf])]
  · unfold query_floppy_db_action
    split
    · simp only []
      rw [encode_list_eq]
      simp [list_view, State.call, State.clear, State.write_token, State.write]
    · rfl
  · unfold create_floppy_action
    split
    · by_cases h : (append_st_rw s.floppy_header.floppy_name).2 = true
      all_goals simp [h, list_view, State.call, State.clear, State.write_token]
    · rfl
  · unfold poll_counter_action
    repeat' split
    all_goals simp [list_view]
  · unfold seed_action
    simp [list_view, State.write]

theorem foldl_actions_list_view (env : Env) (actions : List (Env → State → State))
    (h : ∀ action ∈ actions, action ∈ loop_actions) (s : State)
    (hr : s.list_roms = false) (hf : s.list_floppies = false) :
    list_view (actions.foldl (fun st action => action env st) s) = list_view s := by
  induction actions generalizing s with
  | nil => rfl
  | cons a rest ih =>
    have ha := list_view_action env s a (h a (List.mem_cons_self _ _)) hr hf
    have hr2 : (a env s).list_roms = false := by
      have := congrArg (fun v => v.2.2.1) ha
      simpa [list_view, hr] using this
    have hf2 : (a env s).list_floppies = false := by
      have := congrArg (fun v => v.2.2.2) ha
      simpa [list_view, hf] using this
    rw [List.foldl_cons, ih (fun b hb => h b (List.mem_cons_of_mem _ hb)) _ hr2 hf2, ha]

/-- With no listing requested, a pass of the loop body leaves the list and its
count as they are. -/
theorem loop_body_list_view (env : Env) (s : State)
    (hr : s.list_roms = false) (hf : s.list_floppies = false) :
    list_view (loop_body env s) = list_view s :=
  foldl_actions_list_view env loop_actions (fun _ h => h) s hr hf

theorem foldl_actions_random_token (env : Env) (actions : List (Env → State → State))
    (h : ∀ action ∈ actions, ∀ u : State, (action env u).random_token = u.random_token)
    (s : State) :
    (actions.foldl (fun st action => action env st) s).random_token = s.random_token := by
  induction actions generalizing s with
  | nil => rfl
  | cons a rest ih =>
    rw [List.foldl_cons, ih (fun b hb => h b (List.mem_cons_of_mem _ hb))]
    exact h a (List.mem_cons_self _ _) s

theorem loop_body_random_token (env : Env) (s : State) :
    (loop_body env s).random_token = s.random_token :=
  foldl_actions_random_token env loop_actions
    (fun action h u => (loop_actions_step env u action h).random_token) s

/-- The count of the list is the length of the list in the initial module
state, and every block of the loop body keeps it so: the listing blocks assign
both together and no other block assigns either. -/
theorem list_count_action (env : Env) (s : State) (action : Env → State → State)
    (h : action ∈ loop_actions)
    (hinv : s.filtered_num_local_files = s.filtered_local_list.length) :
    (action env s).filtered_num_local_files = (action env s).filtered_local_list.length := by
  simp only [loop_actions, List.mem_cons, List.mem_singleton, List.not_mem_nil, or_false] at h
  rcases h with h | h | h | h | h | h | h | h | h | h | h | h | h | h <;> subst h
  · unfold scan_timer_action
    repeat' split
    all_goals simp [State.call, hinv]
  · unfold wifi_auth_action
    repeat' split
    all_goals simp [State.call, State.clear, hinv]
  · unfold disconnect_action restart_network clean_credentials
    repeat' split
    all_goals simp [State.call, State.clear, hinv]
  · unfold status_poll_action restart_network clean_credentials
    repeat' split
    all_goals simp [State.call, State.clear, hinv]
  · unfold persist_config_action
    repeat' split
    all_goals simp [State.call, State.clear, State.write_token, hinv]
  · unfold microsd_status_action
    repeat' split
    all_goals simp [State.call, State.clear, State.write_token, State.write,
      State.swap_region, hinv]
  · unfold latest_release_action
    repeat' split
    all_goals simp [State.call, State.clear, State.write_token, State.write,
      State.swap_region, hinv]
  · unfold get_json_file_action
    split
    · simp only []
      rw [encode_list_eq]
      simp [State.call, State.clear, State.write_token, State.write, hinv]
    · exact hinv
  · unfold list_roms_action
    split
    · exact (list_files_result env _ _ _).2
    · exact hinv
  · unfold list_floppies_action
    split
    · exact (list_files_result env _ _ _).2
    · exact hinv
  · unfold query_floppy_db_action
    split
    · simp only []
      rw [encode_list_eq]
      simp [State.call, State.clear, State.write_token, State.write, hinv]
    · exact hinv
  · unfold create_floppy_action
    split
    · by_cases h : (append_st_rw s.floppy_header.floppy_name).2 = true
      all_goals simp [h, State.call, State.clear, State.write_token, hinv]
    · exact hinv
  · unfold poll_counter_action
    repeat' split
    all_goals simp [hinv]
  · unfold seed_action
    simp [State.write, hinv]

theorem list_count_handler (env : Env) (s : State) (p : TransmissionProtocol)
    (hinv : s.filtered_num_local_files = s.filtered_local_list.length) :
    (handle_protocol_command env s p).filtered_num_local_files =
      (handle_protocol_command env s p).filtered_local_list.length := by
  obtain ⟨cid, sz, payload⟩ := p
  cases cid
  case GET_CONFIG =>
    simp only [handle_protocol_command]
    rw [swap_config_entries_eq]
    simp [State.write_token, State.write, State.set_token, hinv]
  all_goals
    simp only [handle_protocol_command]
    try split
    all_goals
      simp [State.write_token, State.write, State.set_token, State.call, null_words, hinv]

theorem encode_list_inside (env : Env) (s : State) (strings : List (List Nat)) (dest : Int) :
    ∀ e ∈ new_events s (encode_list env s strings dest), e.is_overrun = false := by
  obtain ⟨w, d, e, hd⟩ := stores_only_encode_list env s strings dest
  rw [e]
  simp only [new_events, List.drop_left]
  intro x hx
  have := hd x hx
  cases x <;> simp_all [Event.is_store, Event.is_overrun]

/-- A block of the loop body, run on a state on which the create-floppy block
stays inside `floppy_name`, logs no access outside an object and leaves such a
state. -/
theorem inside_action (env : Env) (s : State) (action : Env → State → State)
    (h : action ∈ loop_actions) (hn : s.name_fits = true) :
    (∀ e ∈ new_events s (action env s), e.is_overrun = false) ∧
      (action env s).name_fits = true := by
  simp only [loop_actions, List.mem_cons, List.mem_singleton, List.not_mem_nil, or_false] at h
  rcases h with h | h | h | h | h | h | h | h | h | h | h | h | h | h <;> subst h
  · unfold scan_timer_action
    repeat' split
    all_goals
      constructor
      · simp [new_events, State.call, Event.is_overrun]
      · simpa [State.name_fits, State.call] using hn
  · unfold wifi_auth_action
    repeat' split
    all_goals
      constructor
      · simp [new_events, State.call, State.clear, Event.is_overrun]
      · simpa [State.name_fits, State.call, State.clear] using hn
  · unfold disconnect_action restart_network clean_credentials
    repeat' split
    all_goals
      constructor
      · simp [new_events, State.call, State.clear, Event.is_overrun]
      · simpa [State.name_fits, State.call, State.clear] using hn
  · unfold status_poll_action restart_network clean_credentials
    repeat' split
    all_goals
      constructor
      · simp [new_events, State.call, State.clear, Event.is_overrun]
      · simpa [State.name_fits, State.call, State.clear] using hn
  · unfold persist_config_action
    repeat' split
    all_goals
      constructor
      · simp [new_events, State.call, State.clear, State.write_token, Event.is_overrun]
      · simpa [State.name_fits, State.call, State.clear, State.write_token] using hn
  · unfold microsd_status_action
    repeat' split
    all_goals
      constructor
      · simp [new_events, State.call, State.clear, State.write_token, State.write,
          State.swap_region, Event.is_overrun]
      · simpa [State.name_fits, State.call, State.clear, State.write_token, State.write,
          State.swap_region] using hn
  · unfold latest_release_action
    repeat' split
    all_goals
      constructor
      · simp [new_events, State.call, State.clear, State.write_token, State.write,
          State.swap_region, Event.is_overrun]
      · simpa [State.name_fits, State.call, State.clear, State.write_token, State.write,
          State.swap_region] using hn
  · unfold get_json_file_action
    split
    · simp only []
      constructor
      · rw [new_events, encode_list_eq]
        intro x hx
        simp only [State.call, State.clear, State.write_token, State.write, List.append_assoc,
          List.drop_left, List.mem_append, List.mem_cons, List.mem_singleton, List.not_mem_nil,
          or_false, List.cons_append, List.nil_append] at hx
        casesm* _ ∨ _
        all_goals
          first
          | (subst_vars; rfl)
          | exact encode_list_inside _ _ _ _ _ (by assumption)
      · rw [encode_list_eq]
        simpa [State.name_fits, State.call, State.clear, State.write_token, State.write] using hn
    · exact ⟨by simp [new_events], hn⟩
  · unfold list_roms_action list_files store_file_list
    split
    · simp only []
      constructor
      · rw [new_events, encode_list_eq]
        intro x hx
        simp only [State.call, State.clear, State.write_token, State.write, List.append_assoc,
          List.drop_left, List.mem_append, List.mem_cons, List.mem_singleton, List.not_mem_nil,
          or_false, List.cons_append, List.nil_append] at hx
        casesm* _ ∨ _
        all_goals
          first
          | (subst_vars; rfl)
          | exact encode_list_inside _ _ _ _ _ (by assumption)
      · rw [encode_list_eq]
        simpa [State.name_fits, State.call, State.clear, State.write_token, State.write] using hn
    · exact ⟨by simp [new_events], hn⟩
  · unfold list_floppies_action list_files store_file_list
    split
    · simp only []
      constructor
      · rw [new_events, encode_list_eq]
        intro x hx
        simp only [State.call, State.clear, State.write_token, State.write, List.append_assoc,
          List.drop_left, List.mem_append, List.mem_cons, List.mem_singleton, List.not_mem_nil,
          or_false, List.cons_append, List.nil_append] at hx
        casesm* _ ∨ _
        all_goals
          first
          | (subst_vars; rfl)
          | exact encode_list_inside _ _ _ _ _ (by assumption)
      · rw [encode_list_eq]
        simpa [State.name_fits, State.call, State.clear, State.write_token, State.write] using hn
    · exact ⟨by simp [new_events], hn⟩
  · unfold query_floppy_db_action
    split
    · simp only []
      constructor
      · rw [new_events, encode_list_eq]
        intro x hx
        simp only [State.call, State.clear, State.write_token, State.write, List.append_assoc,
          List.drop_left, List.mem_append, List.mem_cons, List.mem_singleton, List.not_mem_nil,
          or_false, List.cons_append, List.nil_append] at hx
        casesm* _ ∨ _
        all_goals
          first
          | (subst_vars; rfl)
          | exact encode_list_inside _ _ _ _ _ (by assumption)
      · rw [encode_list_eq]
        simpa [State.name_fits, State.call, State.clear, State.write_token, State.write] using hn
    · exact ⟨by simp [new_events], hn⟩
  · unfold create_floppy_action
    split
    · rename_i ht
      have hin : (append_st_rw s.floppy_header.floppy_name).2 = true := by
        have h0 : ¬ s.floppy_header.template = 0 := by omega
        simpa [State.name_fits, h0] using hn
      simp only [hin, if_true]
      constructor
      · simp [new_events, State.call, State.clear, State.write_token, Event.is_overrun]
      · simp [State.name_fits, State.call, State.clear, State.write_token]
    · exact ⟨by simp [new_events], hn⟩
  · unfold poll_counter_action
    repeat' split
    all_goals
      constructor
      · simp [new_events]
      · simpa [State.name_fits] using hn
  · unfold seed_action
    constructor
    · simp [new_events, State.write, Event.is_overrun]
    · simpa [State.name_fits, State.write] using hn

theorem foldl_actions_inside (env : Env) (actions : List (Env → State → State))
    (h : ∀ action ∈ actions, action ∈ loop_actions) (s : State) (hn : s.name_fits = true) :
    (actions.foldl (fun st action => action env st) s).log =
        s.log ++ new_events s (actions.foldl (fun st action => action env st) s) ∧
    (∀ e ∈ new_events s (actions.foldl (fun st action => action env st) s),
      e.is_overrun = false) ∧
    (actions.foldl (fun st action => action env st) s).name_fits = true := by
  induction actions generalizing s with
  | nil => exact ⟨by simp [new_events], by simp [new_events], hn⟩
  | cons a rest ih =>
    have ha := h a (List.mem_cons_self _ _)
    obtain ⟨h1, h2⟩ := inside_action env s a ha hn
    have hlog := (loop_actions_step env s a ha).log_eq
    obtain ⟨i1, i2, i3⟩ := ih (fun b hb => h b (List.mem_cons_of_mem _ hb)) (a env s) h2
    rw [List.foldl_cons]
    generalize rest.foldl (fun st action => action env st) (a env s) = t at i1 i2 i3
    have e : new_events s t = new_events s (a env s) ++ new_events (a env s) t := by
      conv_lhs => rw [new_events, i1, hlog, List.append_assoc, List.drop_left]
    refine ⟨?_, ?_, i3⟩
    · rw [e, ← List.append_assoc, ← hlog, ← i1]
    · intro x hx
      rw [e] at hx
      rcases List.mem_append.mp hx with hx | hx
      · exact h1 x hx
      · exact i2 x hx

/-- A pass of the loop body run on a state on which the create-floppy block
stays inside `floppy_name` logs no access outside an object. -/
theorem loop_body_inside (env : Env) (s : State) (hn : s.name_fits = true) :
    (∀ e ∈ new_events s (loop_body env s), e.is_overrun = false) ∧
      (loop_body env s).name_fits = true :=
  ⟨(foldl_actions_inside env loop_actions (fun _ h => h) s hn).2.1,
    (foldl_actions_inside env loop_actions (fun _ h => h) s hn).2.2⟩

/-! ## The request `LOAD_ROM` through the pass and the stage after the loop (C8, C20) -/

/-- The local-ROM routine assigns none of the other selections and none of the
boot flags. -/
theorem local_rom_frame (env : Env) (t : State) :
    (local_rom_routine env t).rom_network_selected = t.rom_network_selected ∧
    (local_rom_routine env t).floppy_file_selected = t.floppy_file_selected ∧
    (local_rom_routine env t).floppy_image_selected = t.floppy_image_selected ∧
    (local_rom_routine env t).reset_default = t.reset_default ∧
    (local_rom_routine env t).rtc_boot = t.rtc_boot := by
  unfold local_rom_routine State.check_index
  split
  · simp only []
    split_ifs <;> simp [State.call, State.write_token]
  · simp

/-- The stage after the loop when only a local ROM is selected and its index is
inside the list: the events of the local-ROM routine, then the call of
`terminate_protocol_parser`, and nothing else. -/
theorem post_loop_local_rom_only (env : Env) (t : State) (k : Nat)
    (hsel : t.rom_file_selected = k) (h1 : 1 ≤ k) (h2 : k - 1 < t.filtered_local_list.length)
    (hn : t.rom_network_selected < 0) (hf : t.floppy_file_selected < 0)
    (hi : t.floppy_image_selected < 0) (hreset : t.reset_default = false)
    (hrtc : t.rtc_boot = false) :
    new_events t (post_loop env t) =
      [Event.call "save_and_disable_interrupts" [],
       Event.call "flash_range_erase"
         [.num env.FLASH_ROM_LOAD_OFFSET, .num (env.ROM_SIZE_BYTES * 2 : Nat)],
       Event.call "restore_interrupts" [],
       Event.call "load_rom_from_fs"
         [.str (cstr (config_value env "ROMS_FOLDER")),
          .str (t.filtered_local_list.getD (k - 1) []),
          .num env.FLASH_ROM_LOAD_OFFSET],
       Event.call "release_memory_files" [.str (lit "file_list")],
       Event.call "release_memory_files" [.str (lit "filtered_local_list")],
       Event.call "put_string" [.str (lit "BOOT_FEATURE"), .str (lit "ROM_EMULATOR")],
       Event.call "write_all_entries" [],
       Event.token t.random_token,
       Event.call "terminate_protocol_parser" []] := by
  have hev := local_rom_in_range env t k hsel h1 h2
  have hlog := (local_rom_step env t).log_eq
  obtain ⟨f1, f2, f3, f4, f5⟩ := local_rom_frame env t
  unfold post_loop post_loop_routines
  simp only [List.foldl_cons, List.foldl_nil]
  generalize local_rom_routine env t = u at hev hlog f1 f2 f3 f4 f5
  have e2 : network_rom_routine env u = u := by
    unfold network_rom_routine
    rw [if_neg (by rw [f1]; omega)]
  have e3 : local_floppy_routine env u = u := by
    unfold local_floppy_routine
    rw [if_neg (by rw [f2]; omega)]
  have e4 : floppy_download_routine env u = u := by
    unfold floppy_download_routine
    rw [if_neg (by rw [f3]; omega)]
  have e5 : rtc_boot_routine env u = u := by
    unfold rtc_boot_routine
    rw [if_neg (by rw [f5, hrtc]; simp)]
  have e6 : reset_routine env u = u := by
    unfold reset_routine
    rw [if_neg (by rw [f4, hreset]; simp)]
  rw [e2, e3, e4, e5, e6]
  simp only [new_events, State.call]
  rw [hlog, hev]
  simp [new_events]

/-- The pass in which `LOAD_ROM` with index `k` is the one command delivered,
from a state in which the loop runs, the SD card is mounted and no listing is
requested: the pass leaves `rom_file_selected = k`, the token of the request,
the list as it was and no other selection; the loop exits after it. -/
theorem load_rom_pass (env : Env) (s : State) (p : TransmissionProtocol) (k : Nat)
    (hc : p.command_id = .LOAD_ROM) (hm : s.microsd_mounted = true) (hg : loop_guard s = true)
    (hk : u16_at p.payload 4 = k)
    (hr : s.list_roms = false) (hf : s.list_floppies = false) :
    (loop_pass ⟨env, [p]⟩ s).rom_file_selected = k ∧
    (loop_pass ⟨env, [p]⟩ s).random_token = decode_token p.payload ∧
    (loop_pass ⟨env, [p]⟩ s).filtered_local_list = s.filtered_local_list ∧
    (loop_pass ⟨env, [p]⟩ s).filtered_num_local_files = s.filtered_num_local_files ∧
    (loop_pass ⟨env, [p]⟩ s).rom_network_selected < 0 ∧
    (loop_pass ⟨env, [p]⟩ s).floppy_file_selected < 0 ∧
    (loop_pass ⟨env, [p]⟩ s).floppy_image_selected < 0 ∧
    (loop_pass ⟨env, [p]⟩ s).reset_default = false ∧
    (loop_pass ⟨env, [p]⟩ s).rtc_boot = false ∧
    loop_guard (loop_pass ⟨env, [p]⟩ s) = false ∧
    (∀ passes : List Pass,
      firmware_loop (⟨env, [p]⟩ :: passes) s = some (loop_pass ⟨env, [p]⟩ s)) := by
  have ht := load_rom_mounted env s p hc hm
  have hpass : loop_pass ⟨env, [p]⟩ s = loop_body env (handle_protocol_command env s p) := rfl
  have hb := loop_body_boot_requests env (handle_protocol_command env s p)
  have htok := loop_body_random_token env (handle_protocol_command env s p)
  have hlv := loop_body_list_view env (handle_protocol_command env s p)
    (by rw [ht]; exact hr) (by rw [ht]; exact hf)
  rw [← hpass] at hb htok hlv
  have hbs : boot_requests (handle_protocol_command env s p) =
      ((k : Int), s.rom_network_selected, s.floppy_file_selected, s.floppy_image_selected,
        s.reset_default, s.rtc_boot) := by
    rw [ht]
    simp [boot_requests, hk]
  have hgs : s.rom_network_selected < 0 ∧ s.floppy_file_selected < 0 ∧
      s.floppy_image_selected < 0 ∧ s.reset_default = false ∧ s.rtc_boot = false := by
    simp only [loop_guard, Bool.and_eq_true, decide_eq_true_eq, Bool.not_eq_true'] at hg
    exact ⟨hg.1.1.1.1.2, hg.1.1.1.2, hg.1.1.2, hg.1.2, hg.2⟩
  rw [hbs] at hb
  simp only [boot_requests, Prod.mk.injEq] at hb
  obtain ⟨b1, b2, b3, b4, b5, b6⟩ := hb
  have hlv2 : list_view (handle_protocol_command env s p) = list_view s := by
    rw [ht]
    rfl
  rw [hlv2] at hlv
  simp only [list_view, Prod.mk.injEq] at hlv
  have hguard : loop_guard (loop_pass ⟨env, [p]⟩ s) = false := by
    have : ¬ ((loop_pass ⟨env, [p]⟩ s).rom_file_selected < 0) := by
      rw [b1]
      omega
    simp [loop_guard, this]
  refine ⟨b1, ?_, hlv.1, hlv.2.1, ?_, ?_, ?_, ?_, ?_, hguard, fun passes => ?_⟩
  · rw [htok, ht]
  · rw [b2]; exact hgs.1
  · rw [b3]; exact hgs.2.1
  · rw [b4]; exact hgs.2.2.1
  · rw [b5]; exact hgs.2.2.2.1
  · rw [b6]; exact hgs.2.2.2.2
  · rw [firmware_loop, if_pos hg]
    exact firmware_loop_exit passes _ hguard

/-- C20 (amended): for every index `k` with `1 ≤ k ≤ filtered_num_local_files`,
the count being the length of `filtered_local_list` as the listing blocks leave
it, a `LOAD_ROM` request with payload value `k`, delivered as the one command
of a pass of the running loop while the SD card is mounted, no listing is
requested and the create-floppy block stays inside `floppy_name`, leaves the
list as it was, ends the loop after that pass and makes the stage after the
loop call `load_rom_from_fs` with the file at zero-based position `k - 1` of
the list: the position is inside the list, and the stage logs the events of
the local-ROM routine and `terminate_protocol_parser` and no access outside
the list. -/
theorem load_rom_index_in_range (env env2 : Env) (s : State) (p : TransmissionProtocol) (k : Nat)
    (hc : p.command_id = .LOAD_ROM) (hm : s.microsd_mounted = true) (hg : loop_guard s = true)
    (hinv : s.filtered_num_local_files = s.filtered_local_list.length)
    (hk : u16_at p.payload 4 = k) (h1 : 1 ≤ k) (h2 : k ≤ s.filtered_num_local_files)
    (hr : s.list_roms = false) (hf : s.list_floppies = false) (hn : s.name_fits = true) :
    ∃ (h : k - 1 < s.filtered_local_list.length),
      (loop_pass ⟨env, [p]⟩ s).filtered_local_list = s.filtered_local_list ∧
      (loop_pass ⟨env, [p]⟩ s).filtered_num_local_files = s.filtered_num_local_files ∧
      (∀ e ∈ new_events s (loop_pass ⟨env, [p]⟩ s), e.is_overrun = false) ∧
      (∀ passes : List Pass,
        firmware_loop (⟨env, [p]⟩ :: passes) s = some (loop_pass ⟨env, [p]⟩ s)) ∧
      new_events (loop_pass ⟨env, [p]⟩ s) (post_loop env2 (loop_pass ⟨env, [p]⟩ s)) =
        [Event.call "save_and_disable_interrupts" [],
         Event.call "flash_range_erase"
           [.num env2.FLASH_ROM_LOAD_OFFSET, .num (env2.ROM_SIZE_BYTES * 2 : Nat)],
         Event.call "restore_interrupts" [],
         Event.call "load_rom_from_fs"
           [.str (cstr (config_value env2 "ROMS_FOLDER")),
            .str (s.filtered_local_list.get ⟨k - 1, h⟩),
            .num env2.FLASH_ROM_LOAD_OFFSET],
         Event.call "release_memory_files" [.str (lit "file_list")],
         Event.call "release_memory_files" [.str (lit "filtered_local_list")],
         Event.call "put_string" [.str (lit "BOOT_FEATURE"), .str (lit "ROM_EMULATOR")],
         Event.call "write_all_entries" [],
         Event.token (decode_token p.payload),
         Event.call "terminate_protocol_parser" []] := by
  have hlt : k - 1 < s.filtered_local_list.length := by omega
  have ht := load_rom_mounted env s p hc hm
  have hn2 : (handle_protocol_command env s p).name_fits = true := by
    rw [ht]
    exact hn
  obtain ⟨q1, q2, q3, q4, q5, q6, q7, q8, q9, -, q11⟩ := load_rom_pass env s p k hc hm hg hk hr hf
  have hin := (loop_body_inside env (handle_protocol_command env s p) hn2).1
  have hlog : (handle_protocol_command env s p).log = s.log := by
    rw [ht]
  have hev : new_events s (loop_pass ⟨env, [p]⟩ s) =
      new_events (handle_protocol_command env s p) (loop_pass ⟨env, [p]⟩ s) := by
    simp only [new_events, hlog]
  refine ⟨hlt, q3, q4, ?_, q11, ?_⟩
  · rw [hev]
    exact hin
  · have e := post_loop_local_rom_only env2 (loop_pass ⟨env, [p]⟩ s) k q1 h1
      (by rw [q3]; exact hlt) q5 q6 q7 q8 q9
    rw [e, q2, q3, List.getD_eq_getElem _ _ hlt]
    rfl

/-- C20 (amended) at a concrete request: after the ROM listing of the sample
directory, `LOAD_ROM` with list position 2 ends the loop and the stage after
the loop loads `b.ROM`, the second file of the list. -/
theorem load_rom_index_in_range_witness :
    State.roms_listed.filtered_num_local_files = 3 ∧
    State.roms_listed.list_roms = false ∧ State.roms_listed.list_floppies = false ∧
    new_events
        (loop_pass ⟨Env.sample, [⟨.LOAD_ROM, 6, [1, 0, 0, 0, 2, 0]⟩]⟩ State.roms_listed)
        (post_loop Env.sample
          (loop_pass ⟨Env.sample, [⟨.LOAD_ROM, 6, [1, 0, 0, 0, 2, 0]⟩]⟩ State.roms_listed)) =
      [Event.call "save_and_disable_interrupts" [],
       Event.call "flash_range_erase" [.num 0xE0000, .num 0x20000],
       Event.call "restore_interrupts" [],
       Event.call "load_rom_from_fs" [.str (lit "/roms"), .str (lit "b.ROM"), .num 0xE0000],
       Event.call "release_memory_files" [.str (lit "file_list")],
       Event.call "release_memory_files" [.str (lit "filtered_local_list")],
       Event.call "put_string" [.str (lit "BOOT_FEATURE"), .str (lit "ROM_EMULATOR")],
       Event.call "write_all_entries" [],
       Event.token 65536,
       Event.call "terminate_protocol_parser" []] :=
  ⟨by decide, by decide, by decide,
    (load_rom_index_in_range Env.sample Env.sample State.roms_listed
      ⟨.LOAD_ROM, 6, [1, 0, 0, 0, 2, 0]⟩ 2 rfl (by decide) (by decide) (by decide) (by decide)
      (by decide) (by decide) (by decide) (by decide) (by decide)).2.2.2.2.2⟩

/-- C20 as stated fails when a floppy listing is requested in the same pass:
`init_firmware` on the environment whose floppies folder holds one image, with
a first pass that delivers `LIST_ROMS` and a second pass that delivers
`LIST_FLOPPIES` and then `LOAD_ROM` with list position 2. When the request is
handled the list holds three ROM files, so `1 ≤ 2 ≤ filtered_num_local_files`;
the rest of the pass replaces the list by the one floppy image, and the stage
after the loop reads position 1 of a list of one file, outside the list. -/
theorem pending_listing_replaces_list :
    (loop_pass ⟨Env.one_floppy, [⟨.LIST_ROMS, 4, [1, 0, 0, 0]⟩]⟩
      (pre_loop Env.one_floppy State.initial)).filtered_local_list =
        [lit "a.img", lit "b.ROM", lit "d.BIN"] ∧
    (([⟨.LIST_FLOPPIES, 4, [2, 0, 0, 0]⟩, ⟨.LOAD_ROM, 6, [3, 0, 0, 0, 2, 0]⟩] :
        List TransmissionProtocol).foldl (handle_protocol_command Env.one_floppy)
      (loop_pass ⟨Env.one_floppy, [⟨.LIST_ROMS, 4, [1, 0, 0, 0]⟩]⟩
        (pre_loop Env.one_floppy State.initial))).filtered_num_local_files = 3 ∧
    (init_firmware Env.one_floppy
        [⟨Env.one_floppy, [⟨.LIST_ROMS, 4, [1, 0, 0, 0]⟩]⟩,
         ⟨Env.one_floppy,
           [⟨.LIST_FLOPPIES, 4, [2, 0, 0, 0]⟩, ⟨.LOAD_ROM, 6, [3, 0, 0, 0, 2, 0]⟩]⟩]
        State.initial).map (fun t => t.filtered_local_list) = some [lit "x.st"] ∧
    (init_firmware Env.one_floppy
        [⟨Env.one_floppy, [⟨.LIST_ROMS, 4, [1, 0, 0, 0]⟩]⟩,
         ⟨Env.one_floppy,
           [⟨.LIST_FLOPPIES, 4, [2, 0, 0, 0]⟩, ⟨.LOAD_ROM, 6, [3, 0, 0, 0, 2, 0]⟩]⟩]
        State.initial).map (fun t => t.log.contains (Event.overrun "filtered_local_list")) =
      some true := by
  refine ⟨by decide, by decide, by decide, by decide⟩

/-! ## The loop condition (C10) -/

/-- C10 with the create-floppy block inside its field: the loop condition of
`init_firmware` holds in the initial module state (also after the statements
before the loop); every call of the handler whose command is not
boot-selecting keeps its value; on a state on which the create-floppy block
stays inside `floppy_name` (no image is pending, or the name and its suffix
`.st.rw` fit the 256 bytes) every block of the loop body keeps its value and
logs no access outside an object, and so does a whole pass of the body; hence
the loop does not exit, however many passes it makes, as long as no
boot-selecting command is delivered and the create-floppy block stays inside
`floppy_name` in each pass. -/
theorem loop_guard_invariant (env : Env) (s : State) :
    loop_guard State.initial = true ∧
    loop_guard (pre_loop env State.initial) = true ∧
    (∀ p : TransmissionProtocol, p.command_id ∉ boot_selecting →
      loop_guard (handle_protocol_command env s p) = loop_guard s) ∧
    (∀ action ∈ loop_actions, s.name_fits = true →
      loop_guard (action env s) = loop_guard s ∧
      (∀ e ∈ new_events s (action env s), e.is_overrun = false) ∧
      (action env s).name_fits = true) ∧
    (s.name_fits = true →
      loop_guard (loop_body env s) = loop_guard s ∧
      (∀ e ∈ new_events s (loop_body env s), e.is_overrun = false) ∧
      (loop_body env s).name_fits = true) ∧
    (∀ passes : List Pass,
      (∀ q ∈ passes, ∀ p ∈ q.triggers, p.command_id ∉ boot_selecting) →
      passes_inside passes s = true →
      loop_guard s = true → firmware_loop passes s = none) := by
  refine ⟨by decide, ?_, ?_, ?_, ?_, ?_⟩
  · rw [loop_guard_congr _ _ (pre_loop_boot_requests env State.initial)]
    decide
  · intro p h
    exact loop_guard_congr _ _ (handler_boot_requests env s p h)
  · intro action h hn
    exact ⟨loop_guard_congr _ _ (loop_actions_step env s action h).boot_requests,
      (inside_action env s action h hn).1, (inside_action env s action h hn).2⟩
  · intro hn
    exact ⟨loop_guard_congr _ _ (loop_body_boot_requests env s),
      (loop_body_inside env s hn).1, (loop_body_inside env s hn).2⟩
  · intro passes h _ hg
    exact firmware_loop_runs_on passes s h hg

/-- C10 at concrete inputs: three passes on the sample environment, the first
of which delivers `LIST_ROMS` and `CREATE_FLOPPY` with the floppy name `disk`,
stay inside `floppy_name` and leave the loop running. -/
theorem loop_guard_invariant_witness :
    loop_guard State.mounted = true ∧
    passes_inside
      [⟨Env.sample, [⟨.LIST_ROMS, 4, [1, 0, 0, 0]⟩, ⟨.CREATE_FLOPPY, 284, short_names_payload⟩]⟩,
       ⟨Env.sample, []⟩, ⟨Env.sample, []⟩] State.mounted = true ∧
    firmware_loop
      [⟨Env.sample, [⟨.LIST_ROMS, 4, [1, 0, 0, 0]⟩, ⟨.CREATE_FLOPPY, 284, short_names_payload⟩]⟩,
       ⟨Env.sample, []⟩, ⟨Env.sample, []⟩] State.mounted = none :=
  ⟨by decide, by decide,
    (loop_guard_invariant Env.sample State.mounted).2.2.2.2.2 _
      (by
        intro q hq p hp
        simp only [List.mem_cons, List.mem_singleton, List.not_mem_nil, or_false] at hq
        rcases hq with rfl | rfl | rfl
        · simp only [List.mem_cons, List.mem_singleton, List.not_mem_nil, or_false] at hp
          rcases hp with rfl | rfl <;> simp [boot_selecting]
        · simp at hp
        · simp at hp)
      (by decide) (by decide)⟩

/-- C10 as stated fails for the create-floppy block: `CREATE_FLOPPY`, which is
not boot-selecting, with a zero-terminated floppy name of 255 characters
leaves the loop condition true; in the pass that follows, the create-floppy
block finds the end of the name at position 255 and `strcpy` stores the six
bytes `st.rw` and the terminator beyond the 256 bytes of `floppy_name`, the
last member of `floppy_header`: the pass logs the access outside the field.
The bytes land in the module variables behind `floppy_header`, of which
`rtc_boot` is declared next (line 61). -/
theorem create_floppy_spills_beyond_header :
    CommandId.CREATE_FLOPPY ∉ boot_selecting ∧
    loop_guard (handle_protocol_command Env.sample State.mounted
      ⟨.CREATE_FLOPPY, 284, name_255_payload⟩) = true ∧
    (handle_protocol_command Env.sample State.mounted
      ⟨.CREATE_FLOPPY, 284, name_255_payload⟩).name_fits = false ∧
    (cstr (handle_protocol_command Env.sample State.mounted
      ⟨.CREATE_FLOPPY, 284, name_255_payload⟩).floppy_header.floppy_name).length = 255 ∧
    spilled (handle_protocol_command Env.sample State.mounted
      ⟨.CREATE_FLOPPY, 284, name_255_payload⟩).floppy_header.floppy_name =
        lit "st.rw" ++ [0] ∧
    (new_events State.mounted
      (loop_pass ⟨Env.sample, [⟨.CREATE_FLOPPY, 284, name_255_payload⟩]⟩ State.mounted)).contains
        (Event.overrun "floppy_header.floppy_name") = true := by
  refine ⟨by decide, by decide, by decide, by decide, by decide, by decide⟩

end Romloader
